import Mathlib

/-!
# Module registry and resolver of workerd (`src/workerd/jsg/modules.h`)

A shallow embedding of `ModuleRegistryImpl` (the entry table, the redirect memo and the
three-layer `resolve`), of `Entry::module` (lazy instantiation) and of the dynamic-import
trampoline `dynamicImportCallback`, followed by the properties proved about them.

Conventions of the embedding.

* The engine (`jsg::Lock`, the compilation observer, V8) and the fallback service are external.
  They appear as the fields of `Lock`: pure oracles that the code calls.
* Engine values are handles; a handle is a natural number.
* A C++ exception is a value of `Exception`; code that may throw returns `Except` or `Outcome`.
* `resolve` is recursive without a bound in the source. The embedding takes a fuel argument that
  bounds the number of redirects followed; `Outcome.outOfFuel` marks a run that needs more.
* A reference `ModuleInfo&` into an entry is a `ModuleRef`: the key of the owning entry together
  with the `ModuleInfo` it points at.
-/

namespace workerd.jsg

/-! ## Strings -/

/-- Modelled from the spec: the library test `kj::StringPtr::startsWith` ("begins with",
"starts with" in the spec): `pre` is an initial part of `s`. -/
def startsWith (s pre : String) : Bool :=
  pre.data.isPrefixOf s.data

/-- The test `spec.startsWith("node:") || spec.startsWith("cloudflare:") ||
spec.startsWith("workerd:")` made by the trampoline (modules.h line 705). -/
def isReservedSpecifier (s : String) : Bool :=
  startsWith s "node:" || startsWith s "cloudflare:" || startsWith s "workerd:"

/-! ## Paths -/

/-- Modelled from the spec: `kj::Path`, a library type whose implementation is not part of the
sources. A path is its sequence of segments. -/
structure Path where
  parts : List String
  deriving DecidableEq, Repr

/-- Cuts a character sequence at every separator `/`. -/
def splitSegments : List Char → List (List Char)
  | [] => [[]]
  | c :: cs =>
    if c = '/' then [] :: splitSegments cs
    else
      match splitSegments cs with
      | [] => [[c]]
      | seg :: rest => (c :: seg) :: rest

/-- A segment is acceptable when it is not empty and holds no NUL character. -/
def validSegment (seg : List Char) : Bool :=
  !seg.isEmpty && !seg.contains (Char.ofNat 0)

/-- Modelled from the spec: `kj::Path::parse`. Section 3: "a sequence of non-empty segments with
optional leading separator", "fails on empty segment or null byte"; section 4.1: "Parsing
rejects empty input". -/
def Path.parse (s : String) : Option Path :=
  match s.data with
  | [] => none
  | c :: cs =>
    let body := if c = '/' then cs else c :: cs
    let segs := splitSegments body
    if segs.all validSegment then some ⟨segs.map String.mk⟩ else none

/-- Modelled from the spec: `kj::PathPtr::parent`. Section 3: "drops last segment; root's parent
is root". -/
def Path.parent (p : Path) : Path :=
  ⟨p.parts.dropLast⟩

/-- One step of `eval`: `.` stays, `..` goes up and fails at the root, any other segment is
appended when it is acceptable. -/
def Path.evalPart (acc : List String) (seg : List Char) : Option (List String) :=
  if seg = ['.'] then some acc
  else if seg = ['.', '.'] then
    (if acc.isEmpty then none else some acc.dropLast)
  else if validSegment seg then some (acc ++ [String.mk seg])
  else none

/-- Folds `evalPart` over the segments of a relative string. -/
def Path.evalParts : List String → List (List Char) → Option (List String)
  | acc, [] => some acc
  | acc, seg :: rest =>
    match Path.evalPart acc seg with
    | none => none
    | some acc2 => Path.evalParts acc2 rest

/-- Modelled from the spec: `kj::PathPtr::eval`. Section 3: "resolve `.` / `..` against self";
section 4.1: forbids segments that are empty, NUL-containing or would escape the root, and a
string beginning with a reserved prefix is taken on its own, without the receiver. A leading
separator restarts from the root. -/
def Path.eval (p : Path) (s : String) : Option Path :=
  if isReservedSpecifier s then Path.parse s
  else
    match s.data with
    | [] => none
    | c :: cs =>
      if c = '/' then (Path.evalParts [] (splitSegments cs)).map Path.mk
      else (Path.evalParts p.parts (splitSegments (c :: cs))).map Path.mk

/-- Joins segments with the separator `/`. -/
def joinSegments : List String → String
  | [] => ""
  | [a] => a
  | a :: b :: rest => a ++ "/" ++ joinSegments (b :: rest)

/-- Modelled from the spec: `kj::PathPtr::toString(bool absolute = false)`. Section 4.1:
"`to_string(true)` always emits a leading separator". -/
def Path.toString (p : Path) (absolute : Bool := false) : String :=
  (if absolute then "/" else "") ++ joinSegments p.parts

/-- Modelled from the spec: the library constructor `kj::Path(StringPtr name)` of a path with the
single segment `name` (section 3: "single-segment absolute paths"); the name must be one
acceptable segment, without separator and other than `.` and `..`. -/
def Path.ofName (name : String) : Option Path :=
  if validSegment name.data && !name.data.contains '/' && name != "." && name != ".." then
    some ⟨[name]⟩
  else none

/-! ## Enumerations of `ModuleRegistry` -/

/-- The namespace tag `ModuleType` (`ModuleRegistry::Type`, from `modules.capnp`). -/
inductive ModuleType
  | BUNDLE
  | BUILTIN
  | INTERNAL
  deriving DecidableEq, Repr

/-- The enumeration `ModuleRegistry::ResolveOption` (modules.h lines 62-69). -/
inductive ResolveOption
  | DEFAULT
  | BUILTIN_ONLY
  | INTERNAL_ONLY
  deriving DecidableEq, Repr

/-- The enumeration `ModuleRegistry::ResolveMethod` (modules.h lines 177-182). -/
inductive ResolveMethod
  | IMPORT
  | REQUIRE
  deriving DecidableEq, Repr

/-- The enumeration `ModuleInfoCompileOption` (modules.h lines 33-43). -/
inductive ModuleInfoCompileOption
  | BUNDLE
  | BUILTIN
  deriving DecidableEq, Repr

/-! ## Engine values, exceptions, module infos -/

/-- A value of the engine as far as the registry looks at it. -/
inductive JsValue
  /-- The result of `js.v8Error(message)`. -/
  | error (message : String)
  /-- The result of `makeInternalError(isolate, ex)` for a `kj::Exception`. -/
  | internalError (description : String)
  /-- The result of `module->GetModuleNamespace()` for the module with this handle. -/
  | moduleNamespace (module : Nat)
  /-- Any other value, by handle. -/
  | other (handle : Nat)
  deriving DecidableEq, Repr

/-- A C++ exception crossing the registry. -/
inductive Exception
  /-- The exception `JsExceptionThrown`; `pending` is what `tryCatch.Exception()` holds when
  `tryCatch.CanContinue()` is true and the exception is not empty. -/
  | JsExceptionThrown (pending : Option JsValue)
  /-- A `kj::Exception` with its description. -/
  | kjException (description : String)
  deriving DecidableEq, Repr

/-- The alternatives of `ModuleInfo::SyntheticModuleInfo`, each with the handle of its payload. -/
inductive SyntheticModuleInfo
  | CapnpModuleInfo (fileScope : Nat)
  | CommonJsModuleInfo (evalFunc : Nat)
  | DataModuleInfo (value : Nat)
  | TextModuleInfo (value : Nat)
  | WasmModuleInfo (value : Nat)
  | JsonModuleInfo (value : Nat)
  | ObjectModuleInfo (value : Nat)
  deriving DecidableEq, Repr

/-- The struct `ModuleRegistry::ModuleInfo` (modules.h lines 134-169): the engine's module
handle and the optional synthetic payload. -/
structure ModuleInfo where
  module : Nat
  maybeSynthetic : Option SyntheticModuleInfo
  maybeNamedExports : Option (List String)
  deriving DecidableEq, Repr

/-- The struct `ModuleRegistry::ModuleRef` (modules.h lines 171-175). It also stands for a
reference `ModuleInfo&` into the entry with key `(specifier, type)`. -/
structure ModuleRef where
  specifier : Path
  type : ModuleType
  module : ModuleInfo
  deriving DecidableEq, Repr

/-- The type `ModuleRegistry::ModuleCallback` (modules.h lines 184-185): called with the resolve
method and the optional referrer, it returns a module info or nothing, or throws. -/
abbrev ModuleCallback :=
  ResolveMethod → Option Path → Except Exception (Option ModuleInfo)

/-- How a run of code ends. -/
inductive Outcome (α : Type)
  /-- The code returned this value. -/
  | returned (a : α)
  /-- The code threw this exception. -/
  | threw (ex : Exception)
  /-- The fuel of the embedding was used up: the run follows more redirects than allowed. -/
  | outOfFuel
  deriving DecidableEq, Repr

/-! ## The fallback service, seen from the registry -/

/-- The arguments of one call of `tryResolveFromFallbackService` (modules.h lines 228-233). -/
structure FallbackRequest where
  specifier : Path
  referrer : Option Path
  method : ResolveMethod
  rawSpecifier : Option String
  deriving DecidableEq, Repr

/-- The type `kj::OneOf<kj::String, ModuleRegistry::ModuleInfo>` that
`tryResolveFromFallbackService` returns. -/
inductive FallbackResult
  /-- A redirect to another specifier (`kj::String`). -/
  | redirect (target : String)
  /-- A module built from the configuration the service sent (`ModuleInfo`). -/
  | moduleInfo (info : ModuleInfo)
  deriving DecidableEq, Repr

/-- The promise the engine gets back from a dynamic import. -/
inductive JsPromise
  /-- A promise rejected with this reason. -/
  | rejected (reason : JsValue)
  /-- A promise resolved with this value. -/
  | resolved (value : JsValue)
  /-- The promise that the embedder's dynamic import handler returned; `handle` names it. -/
  | fromHandler (handle : Nat)
  /-- The empty handle `v8::Local<v8::Promise>()`. -/
  | empty
  deriving DecidableEq, Repr

/-- The engine lock `jsg::Lock` with everything reached through it: the compiler, the fallback
service and the compatibility flags. None of it is defined in `modules.h`; each is a parameter. -/
structure Lock where
  /-- The constructor `ModuleInfo(js, name, content, compileCache, flags, observer)`, which
  compiles source text; it throws when compilation fails. -/
  compile : String → String → List Nat → ModuleInfoCompileOption → Except Exception ModuleInfo
  /-- The function `tryResolveFromFallbackService`, declared at modules.h lines 228-233. The
  first argument is the list of the calls made before this one, so the answer may change from
  one call to the next. -/
  tryResolveFromFallbackService : List FallbackRequest → FallbackRequest → Option FallbackResult
  /-- The function `instantiateModule(js, module)`; it may throw. -/
  instantiateModule : Nat → Except Exception Unit
  /-- Whether `v8::Promise::Resolver::New` and the following `Reject` or `Resolve` succeed. -/
  resolverAvailable : Bool
  /-- The flag `js.getThrowOnUnrecognizedImportAssertion()`. -/
  throwOnUnrecognizedImportAssertion : Bool
  /-- The flag `isNodeJsCompatEnabled(js)`. -/
  nodeJsCompatEnabled : Bool
  /-- The flag `isNodeJsProcessV2Enabled(js)`. -/
  nodeJsProcessV2Enabled : Bool
  /-- The function `checkNodeSpecifier`. -/
  checkNodeSpecifier : String → Option String

/-! ## Entries -/

/-- The type `Entry::Info` (modules.h line 525): an instantiated module, source text still to be
compiled, or a factory still to be called. -/
inductive Entry.Info
  | moduleInfo (info : ModuleInfo)
  | source (src : String)
  | callback (factory : ModuleCallback)

/-- The struct `ModuleRegistryImpl::Entry` (modules.h lines 524-596). -/
structure Entry where
  specifier : Path
  type : ModuleType
  info : Entry.Info
  compileCache : List Nat

/-- The call `info.tryGet<ModuleInfo>()` on an entry. -/
def Entry.Info.tryGet : Entry.Info → Option ModuleInfo
  | .moduleInfo info => some info
  | .source _ => none
  | .callback _ => none

/-- The method `Entry::module` (modules.h lines 574-595). It returns what the source returns
(or the exception thrown) and the entry as the call leaves it. -/
def Entry.module (js : Lock) (self : Entry) (referrer : Option Path)
    (method : ResolveMethod) : Except Exception (Option ModuleInfo) × Entry :=
  match self.info with
  | .moduleInfo moduleInfo => (.ok (some moduleInfo), self)
  | .source src =>
    match js.compile (self.specifier.toString) src self.compileCache
        ModuleInfoCompileOption.BUILTIN with
    | .error ex => (.error ex, self)
    | .ok compiled =>
      let self2 := { self with info := Entry.Info.moduleInfo compiled }
      (.ok self2.info.tryGet, self2)
  | .callback src =>
    match src method referrer with
    | .error ex => (.error ex, self)
    | .ok (some result) =>
      let self2 := { self with info := Entry.Info.moduleInfo result }
      (.ok self2.info.tryGet, self2)
    | .ok none => (.ok self.info.tryGet, self)

/-- The predicate `SpecifierHashCallbacks::matches` (modules.h lines 605-607). -/
def Entry.matches (row : Entry) (specifier : Path) (type : ModuleType) : Bool :=
  decide (row.specifier = specifier) && decide (row.type = type)

/-! ## The table of entries (`kj::Table` with one `kj::HashIndex`) -/

/-- Modelled from the spec: the library call `entries.find(Key(specifier, type))` on the
collection "of entries indexed by key" (section 3): the row with this key, if any. Rows are kept
in the order of their insertion. -/
def Table.find : List Entry → Path → ModuleType → Option Entry
  | [], _, _ => none
  | row :: rows, specifier, type =>
    if row.matches specifier type then some row else Table.find rows specifier type

/-- Writes `row` back over the row found under the key; this is how a change made through the
pointer that `find` returned reaches the table. -/
def Table.store : List Entry → Path → ModuleType → Entry → List Entry
  | [], _, _, _ => []
  | old :: rows, specifier, type, row =>
    if old.matches specifier type then row :: rows
    else old :: Table.store rows specifier type row

/-- Modelled from the spec: the library call `entries.insert(row)` of `kj::Table`. Section 3:
"Keys are unique in the registry"; section 4.3: "Inserting a duplicate key is a programming error
(assertion failure at assembly time)". The call throws when a row with the same key is already
there, and adds the row at the end otherwise. -/
def Table.insert (rows : List Entry) (row : Entry) : Except Exception (List Entry) :=
  match Table.find rows row.specifier row.type with
  | some _ => .error (Exception.kjException "inserted row already exists in table")
  | none => .ok (rows ++ [row])

/-! ## The redirect memo (`kj::HashMap<kj::String, kj::String>`) -/

/-- Modelled from the spec: the library call `fallbackServiceRedirects.find(str)` on the "mapping
from specifier-string to redirect-target specifier-string" (section 3). -/
def Redirects.find : List (String × String) → String → Option String
  | [], _ => none
  | (k, v) :: rest, str => if k = str then some v else Redirects.find rest str

/-- Modelled from the spec: the library call `fallbackServiceRedirects.upsert(key, value)`, which
stores the pair in the mapping (section 4.4): it replaces the value of a key that is present and
adds the pair otherwise. -/
def Redirects.upsert : List (String × String) → String → String → List (String × String)
  | [], key, value => [(key, value)]
  | (k, v) :: rest, key, value =>
    if k = key then (k, value) :: rest else (k, v) :: Redirects.upsert rest key value

/-! ## The registry -/

/-- The state of a `ModuleRegistryImpl` (modules.h lines 515-517 and 614-615), and with it the
list of the calls of `tryResolveFromFallbackService` made so far, oldest first. That list is not
a field of the source; it records what the registry asked the fallback service. -/
structure ModuleRegistryImpl where
  /-- The embedder's handler; it is given the module that its thunk would instantiate. -/
  dynamicImportHandler : Option (ModuleRef → Except Exception JsPromise)
  entries : List Entry
  fallbackServiceRedirects : List (String × String)
  fallbackRequests : List FallbackRequest

/-- The result of `resolve`: a reference to a module info or nothing, or an exception. -/
abbrev ResolveResult := Outcome (Option ModuleRef) × ModuleRegistryImpl

/-- The statement `return entry->module(js, observer, referrer, method);` of `resolve`: the
entry is materialised in place, and the reference returned points into that entry. -/
def ModuleRegistryImpl.returnModule (js : Lock) (self : ModuleRegistryImpl) (entry : Entry)
    (referrer : Option Path) (method : ResolveMethod) : ResolveResult :=
  let after := entry.module js referrer method
  let self2 :=
    { self with entries := Table.store self.entries entry.specifier entry.type after.2 }
  match after.1 with
  | .error ex => (Outcome.threw ex, self2)
  | .ok none => (Outcome.returned none, self2)
  | .ok (some info) =>
    (Outcome.returned (some ⟨entry.specifier, entry.type, info⟩), self2)

/-- The namespace under which `resolve` installs a module sent by the fallback service
(modules.h lines 415-421). -/
def ModuleRegistryImpl.installType (option : ResolveOption) (str : String) : ModuleType :=
  if option = ResolveOption.BUILTIN_ONLY then
    if startsWith str "/node:" || startsWith str "/cloudflare:" || startsWith str "/workerd:" then
      ModuleType.BUILTIN
    else ModuleType.BUNDLE
  else ModuleType.BUNDLE

/-- The index lookups of `resolve` (modules.h lines 374-394) all miss: the condition under which
an `INTERNAL_ONLY` run is over and the other runs go on to the redirect memo. -/
def ModuleRegistryImpl.missesIndex (self : ModuleRegistryImpl) (specifier : Path) :
    ResolveOption → Bool
  | .INTERNAL_ONLY => (Table.find self.entries specifier ModuleType.INTERNAL).isNone
  | .BUILTIN_ONLY => (Table.find self.entries specifier ModuleType.BUILTIN).isNone
  | .DEFAULT =>
    (Table.find self.entries specifier ModuleType.BUNDLE).isNone &&
      (Table.find self.entries specifier ModuleType.BUILTIN).isNone

/-- The registry after one more call of `tryResolveFromFallbackService` was made. -/
def ModuleRegistryImpl.recordRequest (self : ModuleRegistryImpl) (request : FallbackRequest) :
    ModuleRegistryImpl :=
  { self with fallbackRequests := self.fallbackRequests ++ [request] }

/-- The registry after `fallbackServiceRedirects.upsert(str, s)` (modules.h line 431). -/
def ModuleRegistryImpl.upsertRedirect (self : ModuleRegistryImpl) (str s : String) :
    ModuleRegistryImpl :=
  { self with fallbackServiceRedirects := Redirects.upsert self.fallbackServiceRedirects str s }

/-- The registry with another table of entries. -/
def ModuleRegistryImpl.withEntries (self : ModuleRegistryImpl) (rows : List Entry) :
    ModuleRegistryImpl :=
  { self with entries := rows }

/-- The part of `resolve` after the index lookups (modules.h lines 396-440): the redirect memo,
then the fallback service. `recurse` stands for the recursive calls of `resolve`. -/
def ModuleRegistryImpl.resolveFallback (js : Lock)
    (recurse : ModuleRegistryImpl → Path → Option Path → ResolveOption → ResolveMethod →
      Option String → ResolveResult)
    (self : ModuleRegistryImpl) (specifier : Path) (referrer : Option Path)
    (option : ResolveOption) (method : ResolveMethod) (rawSpecifier : Option String) :
    ResolveResult :=
  let str := specifier.toString true
  match Redirects.find self.fallbackServiceRedirects str with
  | some found =>
    match specifier.parent.eval found with
    | none => (Outcome.threw (Exception.kjException "invalid path"), self)
    | some target => recurse self target referrer ResolveOption.DEFAULT method rawSpecifier
  | none =>
    let request : FallbackRequest := ⟨specifier, referrer, method, rawSpecifier⟩
    let asked := self.recordRequest request
    match js.tryResolveFromFallbackService self.fallbackRequests request with
    | none => (Outcome.returned none, asked)
    | some (.moduleInfo i) =>
      let type := ModuleRegistryImpl.installType option str
      match Table.insert asked.entries ⟨specifier, type, Entry.Info.moduleInfo i, []⟩ with
      | .error ex => (Outcome.threw ex, asked)
      | .ok rows =>
        let installed := asked.withEntries rows
        match Table.find installed.entries specifier type with
        | none => (Outcome.threw (Exception.kjException "expected non-null"), installed)
        | some entry => installed.returnModule js entry referrer method
    | some (.redirect s) =>
      let noted := asked.upsertRedirect str s
      match specifier.parent.eval s with
      | none => (Outcome.threw (Exception.kjException "invalid path"), noted)
      | some target => recurse noted target referrer ResolveOption.DEFAULT method rawSpecifier

/-- The body of `ModuleRegistryImpl::resolve` (modules.h lines 367-441), with its recursive
calls handed to `recurse`. -/
def ModuleRegistryImpl.resolveBody (js : Lock)
    (recurse : ModuleRegistryImpl → Path → Option Path → ResolveOption → ResolveMethod →
      Option String → ResolveResult)
    (self : ModuleRegistryImpl) (specifier : Path) (referrer : Option Path)
    (option : ResolveOption) (method : ResolveMethod) (rawSpecifier : Option String) :
    ResolveResult :=
  match option with
  | .INTERNAL_ONLY =>
    match Table.find self.entries specifier ModuleType.INTERNAL with
    | some entry => self.returnModule js entry referrer method
    | none => (Outcome.returned none, self)
  | .BUILTIN_ONLY =>
    match Table.find self.entries specifier ModuleType.BUILTIN with
    | some entry => self.returnModule js entry referrer method
    | none => self.resolveFallback js recurse specifier referrer option method rawSpecifier
  | .DEFAULT =>
    match Table.find self.entries specifier ModuleType.BUNDLE with
    | some entry => self.returnModule js entry referrer method
    | none =>
      match Table.find self.entries specifier ModuleType.BUILTIN with
      | some entry => self.returnModule js entry referrer method
      | none => self.resolveFallback js recurse specifier referrer option method rawSpecifier

/-- The method `ModuleRegistryImpl::resolve` (modules.h lines 367-441). `fuel` is the number of
redirects the run may follow; with none left, a further redirect ends in `outOfFuel`. -/
def ModuleRegistryImpl.resolve (js : Lock) : Nat → ModuleRegistryImpl → Path → Option Path →
    ResolveOption → ResolveMethod → Option String → ResolveResult
  | 0 => ModuleRegistryImpl.resolveBody js (fun self _ _ _ _ _ => (Outcome.outOfFuel, self))
  | fuel + 1 => ModuleRegistryImpl.resolveBody js (ModuleRegistryImpl.resolve js fuel)

/-- The text `No such module "<name>".` built at modules.h lines 497 and 505. -/
def noSuchModuleWithPeriod (name : String) : String :=
  "No such module \"" ++ name ++ "\"."

/-- The text `No such module "<name>"` built at modules.h line 722. -/
def noSuchModule (name : String) : String :=
  "No such module \"" ++ name ++ "\""

/-- The option that `resolveDynamicImport` resolves with (modules.h lines 475-478):
`INTERNAL_ONLY` when the referrer has an entry in the `BUILTIN` namespace, `DEFAULT` otherwise. -/
def ModuleRegistryImpl.dynamicImportOption (self : ModuleRegistryImpl) (referrer : Path) :
    ResolveOption :=
  if (Table.find self.entries referrer ModuleType.BUILTIN).isSome then
    ResolveOption.INTERNAL_ONLY
  else ResolveOption.DEFAULT

/-- The method `ModuleRegistryImpl::resolveDynamicImport` (modules.h lines 465-498). -/
def ModuleRegistryImpl.resolveDynamicImport (js : Lock) (fuel : Nat) (self : ModuleRegistryImpl)
    (specifier : Path) (referrer : Path) (rawSpecifier : String) :
    Outcome JsPromise × ModuleRegistryImpl :=
  let resolveOption := self.dynamicImportOption referrer
  let notFound :=
    JsPromise.rejected (JsValue.error (noSuchModuleWithPeriod specifier.toString))
  match self.resolve js fuel specifier (some referrer) resolveOption ResolveMethod.IMPORT
      (some rawSpecifier) with
  | (.threw ex, after) => (Outcome.threw ex, after)
  | (.outOfFuel, after) => (Outcome.outOfFuel, after)
  | (.returned none, after) => (Outcome.returned notFound, after)
  | (.returned (some info), after) =>
    match after.dynamicImportHandler with
    | some func =>
      match func info with
      | .ok promise => (Outcome.returned promise, after)
      | .error ex => (Outcome.threw ex, after)
    | none => (Outcome.returned notFound, after)

/-- The method `ModuleRegistryImpl::resolveInternalImport` (modules.h lines 500-509). -/
def ModuleRegistryImpl.resolveInternalImport (js : Lock) (fuel : Nat)
    (self : ModuleRegistryImpl) (specifier : String) : Outcome JsValue × ModuleRegistryImpl :=
  match Path.ofName specifier with
  | none => (Outcome.threw (Exception.kjException "invalid path component"), self)
  | some specifierPath =>
    match self.resolve js fuel specifierPath none ResolveOption.INTERNAL_ONLY
        ResolveMethod.IMPORT (some specifier) with
    | (.threw ex, after) => (Outcome.threw ex, after)
    | (.outOfFuel, after) => (Outcome.outOfFuel, after)
    | (.returned none, after) =>
      (Outcome.threw (Exception.kjException (noSuchModuleWithPeriod specifier)), after)
    | (.returned (some moduleInfo), after) =>
      match js.instantiateModule moduleInfo.module.module with
      | .error ex => (Outcome.threw ex, after)
      | .ok _ => (Outcome.returned (JsValue.moduleNamespace moduleInfo.module.module), after)

/-! ## The dynamic-import trampoline -/

/-- The lambda `makeRejected` of `dynamicImportCallback` (modules.h lines 629-636). -/
def makeRejected (js : Lock) (reason : JsValue) : JsPromise :=
  if js.resolverAvailable then JsPromise.rejected reason else JsPromise.empty

/-- The two `catch` clauses of `dynamicImportCallback` (modules.h lines 692-699 and 731-743). -/
def catchForEngine (js : Lock) : Exception → JsPromise
  | .JsExceptionThrown none => JsPromise.empty
  | .JsExceptionThrown (some reason) => makeRejected js reason
  | .kjException description => makeRejected js (JsValue.internalError description)

/-- The lambda that computes `maybeSpecifierPath` (modules.h lines 702-716). The call
`kj::Path::parse(spec)` of its first branch stands outside any `try`, so its failure is an
exception; the failure of `eval` in the second branch is caught and gives nothing. -/
def maybeSpecifierPath (spec : String) (maybeReferrerPath : Option Path) :
    Except Exception (Option Path) :=
  if isReservedSpecifier spec then
    match Path.parse spec with
    | some path => .ok (some path)
    | none => .error (Exception.kjException "invalid path")
  else
    match maybeReferrerPath with
    | some referrerPath => .ok (referrerPath.parent.eval spec)
    | none => .ok none

/-- The string `spec` of `dynamicImportCallback` (modules.h lines 672-677): the specifier,
rewritten by `checkNodeSpecifier` when Node.js compatibility is on and it has a rewrite. -/
def nodeSpecifier (js : Lock) (specifier : String) : String :=
  if js.nodeJsCompatEnabled then
    match js.checkNodeSpecifier specifier with
    | some nodeSpec => nodeSpec
    | none => specifier
  else specifier

/-- The function `dynamicImportCallback` (modules.h lines 618-745). `resource_name` and
`specifier` are the strings the engine passed, `import_attributes` the attribute list. -/
def dynamicImportCallback (js : Lock) (fuel : Nat) (registry : ModuleRegistryImpl)
    (resource_name : String) (specifier : String) (import_attributes : List String) :
    Outcome JsPromise × ModuleRegistryImpl :=
  if import_attributes.length > 0 && js.throwOnUnrecognizedImportAssertion then
    (Outcome.returned
      (makeRejected js (JsValue.error "Unrecognized import attributes specified")), registry)
  else
    let maybeReferrerPath := Path.parse resource_name
    let spec := nodeSpecifier js specifier
    if spec = "node:process" then
      let processSpec :=
        if js.nodeJsProcessV2Enabled then "node-internal:public_process"
        else "node-internal:legacy_process"
      match registry.resolveInternalImport js fuel processSpec with
      | (.returned moduleNamespace, after) =>
        (Outcome.returned
          (if js.resolverAvailable then JsPromise.resolved moduleNamespace
           else JsPromise.empty), after)
      | (.threw ex, after) => (Outcome.returned (catchForEngine js ex), after)
      | (.outOfFuel, after) => (Outcome.outOfFuel, after)
    else
      match maybeSpecifierPath spec maybeReferrerPath with
      | .error ex => (Outcome.threw ex, registry)
      | .ok specifierPath? =>
        match maybeReferrerPath, specifierPath? with
        | some referrerPath, some specifierPath =>
          match registry.resolveDynamicImport js fuel specifierPath referrerPath spec with
          | (.returned promise, after) => (Outcome.returned promise, after)
          | (.threw ex, after) => (Outcome.returned (catchForEngine js ex), after)
          | (.outOfFuel, after) => (Outcome.outOfFuel, after)
        | _, _ =>
          (Outcome.returned (makeRejected js (JsValue.error (noSuchModule specifier))),
            registry)


/-- The rows of the table that are in the `INTERNAL` namespace. -/
def Table.internalRows (rows : List Entry) : List Entry :=
  rows.filter (fun e => decide (e.type = ModuleType.INTERNAL))

/-- A run of `resolve` that started from `σ` returns no reference into an `INTERNAL` entry and
leaves the `INTERNAL` rows of the table as they were. -/
def NoInternal (σ : ModuleRegistryImpl) (res : ResolveResult) : Prop :=
  (∀ r, res.1 = Outcome.returned (some r) → r.type ≠ ModuleType.INTERNAL) ∧
    Table.internalRows res.2.entries = Table.internalRows σ.entries

/-- The reference that a run of `resolve` returned, if any, points into an entry of the
resulting table that holds exactly the returned module info: the entry is instantiated. -/
def ReturnsInstantiated (res : ResolveResult) : Prop :=
  ∀ r, res.1 = Outcome.returned (some r) →
    ∃ e, Table.find res.2.entries r.specifier r.type = some e ∧
      e.info = Entry.Info.moduleInfo r.module

/-- What a run of `resolve` that started from `σ` keeps: every pair of the redirect memo, and the
absence from the table of every key whose specifier the memo redirects. -/
def Keeps (σ : ModuleRegistryImpl) (res : ResolveResult) : Prop :=
  (∀ k v, Redirects.find σ.fallbackServiceRedirects k = some v →
    Redirects.find res.2.fallbackServiceRedirects k = some v) ∧
  (∀ (K : Path) (t : ModuleType) (v : String),
    Redirects.find σ.fallbackServiceRedirects (K.toString true) = some v →
    Table.find σ.entries K t = none → Table.find res.2.entries K t = none)

/-- A continuation of `resolve` repeats its answers: when a `DEFAULT` run returns a reference,
the same run from the resulting registry returns that reference and changes nothing. -/
def Repeats (recurse : ModuleRegistryImpl → Path → Option Path → ResolveOption → ResolveMethod →
    Option String → ResolveResult) : Prop :=
  ∀ σ T ref m raw r σ2,
    recurse σ T ref ResolveOption.DEFAULT m raw = (Outcome.returned (some r), σ2) →
    recurse σ2 T ref ResolveOption.DEFAULT m raw = (Outcome.returned (some r), σ2)

/-- The options and specifiers for which a module sent by the fallback service is installed in
a namespace that the same option looks up: always under `DEFAULT`, and under `BUILTIN_ONLY` when
the installation goes to `BUILTIN`. -/
def InstallVisible (opt : ResolveOption) (S : Path) : Prop :=
  opt = ResolveOption.DEFAULT ∨
    (opt = ResolveOption.BUILTIN_ONLY ∧
      ModuleRegistryImpl.installType opt (S.toString true) = ModuleType.BUILTIN)

/-- The rows of the table outside the `INTERNAL` namespace. -/
def Table.publicRows (rows : List Entry) : List Entry :=
  rows.filter (fun e => !decide (e.type = ModuleType.INTERNAL))

/-- The registry without its `INTERNAL` entries. -/
def ModuleRegistryImpl.withoutInternal (self : ModuleRegistryImpl) : ModuleRegistryImpl :=
  self.withEntries (Table.publicRows self.entries)

/-- A continuation of `resolve` does not see the `INTERNAL` entries: run with `DEFAULT` on the
registry without them, it gives the same outcome and the same registry up to those entries. -/
def BlindToInternal (recurse : ModuleRegistryImpl → Path → Option Path → ResolveOption →
    ResolveMethod → Option String → ResolveResult) : Prop :=
  ∀ σ T ref m raw,
    recurse σ.withoutInternal T ref ResolveOption.DEFAULT m raw
      = ((recurse σ T ref ResolveOption.DEFAULT m raw).1,
        (recurse σ T ref ResolveOption.DEFAULT m raw).2.withoutInternal)

/-! ## Further definitions: fallback requests, reverse lookup, insertion -/

/-- What a run of `resolve` that started from `σ` asks the fallback service: the list of
requests only grows, and each new request is for a specifier that the redirect memo of `σ` does
not hold. -/
def Asks (σ : ModuleRegistryImpl) (res : ResolveResult) : Prop :=
  ∃ extra, res.2.fallbackRequests = σ.fallbackRequests ++ extra ∧
    ∀ req ∈ extra,
      Redirects.find σ.fallbackServiceRedirects (req.specifier.toString true) = none

/-- The scan of `ModuleRegistryImpl::resolve(jsg::Lock&, v8::Local<v8::Module>)` (modules.h
lines 444-457) over the rows in table order: the first row that holds a `ModuleInfo` whose
module handle is `module`. -/
def Table.findModule : List Entry → Nat → Option ModuleRef
  | [], _ => none
  | entry :: rest, module =>
    match entry.info.tryGet with
    | some info =>
      if info.module = module then some ⟨entry.specifier, entry.type, info⟩
      else Table.findModule rest module
    | none => Table.findModule rest module

/-- The method `ModuleRegistryImpl::resolve(jsg::Lock&, v8::Local<v8::Module>)` (modules.h
lines 443-459), the reverse lookup from a module handle to the entry that holds it. -/
def ModuleRegistryImpl.resolveByModule (self : ModuleRegistryImpl) (module : Nat) :
    Option ModuleRef :=
  Table.findModule self.entries module

/-- The method `ModuleRegistryImpl::setDynamicImportCallback` (modules.h lines 254-256). -/
def ModuleRegistryImpl.setDynamicImportCallback (self : ModuleRegistryImpl)
    (func : ModuleRef → Except Exception JsPromise) : ModuleRegistryImpl :=
  { self with dynamicImportHandler := some func }

/-- The method `ModuleRegistryImpl::add` (modules.h lines 258-260). -/
def ModuleRegistryImpl.add (self : ModuleRegistryImpl) (specifier : Path) (info : ModuleInfo) :
    Except Exception ModuleRegistryImpl :=
  match Table.insert self.entries ⟨specifier, ModuleType.BUNDLE, Entry.Info.moduleInfo info, []⟩
  with
  | .error ex => .error ex
  | .ok rows => .ok (self.withEntries rows)

/-- The overload of `ModuleRegistryImpl::addBuiltinModule` that takes source text (modules.h
lines 334-341). The assertion and `kj::Path::parse` throw when they fail. -/
def ModuleRegistryImpl.addBuiltinModule (self : ModuleRegistryImpl) (specifier : String)
    (sourceCode : String) (type : ModuleType := ModuleType.BUILTIN)
    (compileCache : List Nat := []) : Except Exception ModuleRegistryImpl :=
  if type = ModuleType.BUNDLE then
    .error (Exception.kjException "expected type != Type::BUNDLE")
  else
    match Path.parse specifier with
    | none => .error (Exception.kjException "invalid path")
    | some path =>
      match Table.insert self.entries ⟨path, type, Entry.Info.source sourceCode, compileCache⟩
      with
      | .error ex => .error ex
      | .ok rows => .ok (self.withEntries rows)

/-- The overload of `ModuleRegistryImpl::addBuiltinModule` that takes a factory (modules.h
lines 343-348). -/
def ModuleRegistryImpl.addBuiltinModuleCallback (self : ModuleRegistryImpl)
    (specifier : String) (factory : ModuleCallback)
    (type : ModuleType := ModuleType.BUILTIN) : Except Exception ModuleRegistryImpl :=
  if type = ModuleType.BUNDLE then
    .error (Exception.kjException "expected type != Type::BUNDLE")
  else
    match Path.parse specifier with
    | none => .error (Exception.kjException "invalid path")
    | some path =>
      match Table.insert self.entries ⟨path, type, Entry.Info.callback factory, []⟩ with
      | .error ex => .error ex
      | .ok rows => .ok (self.withEntries rows)

/-- The registry that the constructor `ModuleRegistryImpl(observer)` makes (modules.h line 240):
no handler, no entry, no redirect, and no fallback request made. -/
def ModuleRegistryImpl.new : ModuleRegistryImpl where
  dynamicImportHandler := none
  entries := []
  fallbackServiceRedirects := []
  fallbackRequests := []

/-- The key `(specifier, type)` of an entry (`SpecifierHashCallbacks::keyForRow`, modules.h
lines 601-603). -/
def Entry.key (row : Entry) : Path × ModuleType :=
  (row.specifier, row.type)

/-- No two rows of the table have the same key. -/
def Table.UniqueKeys (rows : List Entry) : Prop :=
  (rows.map Entry.key).Nodup

/-- One call of an insertion method, with its arguments. -/
inductive Insertion
  /-- A call `add(specifier, info)`. -/
  | add (specifier : Path) (info : ModuleInfo)
  /-- A call `addBuiltinModule(specifier, sourceCode, type, compileCache)`. -/
  | addBuiltinModule (specifier : String) (sourceCode : String) (type : ModuleType)
      (compileCache : List Nat)
  /-- A call `addBuiltinModule(specifier, factory, type)`. -/
  | addBuiltinModuleCallback (specifier : String) (factory : ModuleCallback)
      (type : ModuleType)

/-- Makes one insertion call on the registry. -/
def ModuleRegistryImpl.insertOne (self : ModuleRegistryImpl) :
    Insertion → Except Exception ModuleRegistryImpl
  | .add specifier info => self.add specifier info
  | .addBuiltinModule specifier sourceCode type compileCache =>
    self.addBuiltinModule specifier sourceCode type compileCache
  | .addBuiltinModuleCallback specifier factory type =>
    self.addBuiltinModuleCallback specifier factory type

/-- Makes a sequence of insertion calls, one after the other; the first call that throws ends
the sequence. -/
def ModuleRegistryImpl.insertAll (self : ModuleRegistryImpl) :
    List Insertion → Except Exception ModuleRegistryImpl
  | [] => .ok self
  | op :: ops =>
    match self.insertOne op with
    | .error ex => .error ex
    | .ok next => next.insertAll ops

/-- The registries that the methods of `ModuleRegistryImpl` and the trampoline can produce,
starting from a new registry. -/
inductive Reachable : ModuleRegistryImpl → Prop
  | new : Reachable ModuleRegistryImpl.new
  | setDynamicImportCallback (σ : ModuleRegistryImpl)
      (func : ModuleRef → Except Exception JsPromise) :
      Reachable σ → Reachable (σ.setDynamicImportCallback func)
  | insertOne (σ next : ModuleRegistryImpl) (op : Insertion) :
      Reachable σ → σ.insertOne op = .ok next → Reachable next
  | resolve (σ : ModuleRegistryImpl) (js : Lock) (fuel : Nat) (specifier : Path)
      (referrer : Option Path) (option : ResolveOption) (method : ResolveMethod)
      (rawSpecifier : Option String) :
      Reachable σ → Reachable (σ.resolve js fuel specifier referrer option method rawSpecifier).2
  | resolveDynamicImport (σ : ModuleRegistryImpl) (js : Lock) (fuel : Nat)
      (specifier referrer : Path) (rawSpecifier : String) :
      Reachable σ → Reachable (σ.resolveDynamicImport js fuel specifier referrer rawSpecifier).2
  | resolveInternalImport (σ : ModuleRegistryImpl) (js : Lock) (fuel : Nat)
      (specifier : String) :
      Reachable σ → Reachable (σ.resolveInternalImport js fuel specifier).2
  | dynamicImportCallback (σ : ModuleRegistryImpl) (js : Lock) (fuel : Nat)
      (resource_name specifier : String) (import_attributes : List String) :
      Reachable σ →
      Reachable (dynamicImportCallback js fuel σ resource_name specifier import_attributes).2

/-- What a run that started from `σ` does to the keys of the table: it leaves the list of keys
as it is, or it adds one key, at the end, that was not present. -/
def KeysGrow (σ : ModuleRegistryImpl) (next : ModuleRegistryImpl) : Prop :=
  next.entries.map Entry.key = σ.entries.map Entry.key ∨
    ∃ k, k ∉ σ.entries.map Entry.key ∧
      next.entries.map Entry.key = σ.entries.map Entry.key ++ [k]

/-- Two registries hold the same entries, possibly in another order, the same redirect memo and
the same list of fallback requests. -/
def Similar (σ τ : ModuleRegistryImpl) : Prop :=
  σ.entries.Perm τ.entries ∧
    σ.fallbackServiceRedirects = τ.fallbackServiceRedirects ∧
    σ.fallbackRequests = τ.fallbackRequests

/-- A continuation of `resolve` does not see the order of the entries: on two registries with
distinct keys that differ only in that order it has the same outcome, and the resulting
registries again differ only in that order. -/
def OrderBlind (recurse : ModuleRegistryImpl → Path → Option Path → ResolveOption →
    ResolveMethod → Option String → ResolveResult) : Prop :=
  ∀ σ τ, Similar σ τ → Table.UniqueKeys σ.entries → ∀ T ref opt m raw,
    (recurse σ T ref opt m raw).1 = (recurse τ T ref opt m raw).1 ∧
      Similar (recurse σ T ref opt m raw).2 (recurse τ T ref opt m raw).2

/-- The row that an insertion call adds when its own checks pass: the assertion
`type != Type::BUNDLE` and the parse of the specifier, for the two overloads of
`addBuiltinModule`. -/
def Insertion.row : Insertion → Option Entry
  | .add specifier info =>
    some ⟨specifier, ModuleType.BUNDLE, Entry.Info.moduleInfo info, []⟩
  | .addBuiltinModule specifier sourceCode type compileCache =>
    if type = ModuleType.BUNDLE then none
    else (Path.parse specifier).map
      (fun path => ⟨path, type, Entry.Info.source sourceCode, compileCache⟩)
  | .addBuiltinModuleCallback specifier factory type =>
    if type = ModuleType.BUNDLE then none
    else (Path.parse specifier).map (fun path => ⟨path, type, Entry.Info.callback factory, []⟩)

/-- The `try` around the call of `resolveDynamicImport` in `dynamicImportCallback` (modules.h
lines 728-743): a promise is passed on, an exception becomes what the `catch` clauses return. -/
def catchDynamicImport (js : Lock) (res : Outcome JsPromise × ModuleRegistryImpl) :
    Outcome JsPromise × ModuleRegistryImpl :=
  match res with
  | (.returned promise, after) => (Outcome.returned promise, after)
  | (.threw ex, after) => (Outcome.returned (catchForEngine js ex), after)
  | (.outOfFuel, after) => (Outcome.outOfFuel, after)

/-! ## Lazy instantiation of an entry, call after call -/

/-- The entry on which the index lookups of `resolve` end with
`return entry->module(js, observer, referrer, method);` (modules.h lines 374-394), if there is
one: the `INTERNAL` entry under `INTERNAL_ONLY`, the `BUILTIN` entry under `BUILTIN_ONLY`, and
under `DEFAULT` the `BUNDLE` entry or else the `BUILTIN` entry. -/
def ModuleRegistryImpl.selectedEntry (self : ModuleRegistryImpl) (specifier : Path) :
    ResolveOption → Option Entry
  | .INTERNAL_ONLY => Table.find self.entries specifier ModuleType.INTERNAL
  | .BUILTIN_ONLY => Table.find self.entries specifier ModuleType.BUILTIN
  | .DEFAULT =>
    match Table.find self.entries specifier ModuleType.BUNDLE with
    | some entry => some entry
    | none => Table.find self.entries specifier ModuleType.BUILTIN

/-- The arguments of one call of `Entry::module` (modules.h lines 574-577): the engine lock, the
referrer and the resolve method. The engine may answer differently from one call to the next,
so each call has its own lock. -/
structure ModuleCall where
  js : Lock
  referrer : Option Path
  method : ResolveMethod

/-- A sequence of calls of `Entry::module` on one entry: for each call, what it returns and the
entry as it leaves it; the next call is made on that entry. -/
def Entry.moduleCalls (self : Entry) :
    List ModuleCall → List (Except Exception (Option ModuleInfo) × Entry)
  | [] => []
  | call :: calls =>
    (self.module call.js call.referrer call.method) ::
      Entry.moduleCalls (self.module call.js call.referrer call.method).2 calls

end workerd.jsg

/-!
# The fallback service client (`src/workerd/server/fallback-service.c++`)

The embedding of `FallbackServiceClient`: the construction of the V1 query, the loop of HTTP
attempts, `handleReturnPayload`, and the critical sections of `tryResolve` and `threadMain` on
the shared state. The HTTP exchange and the JSON decoder are external; they are parameters.
-/

namespace workerd.fallback

/-- Modelled from the spec: the enumeration `Version` of the wire protocol, declared in the
header of the client (section 4.7: V1 is the `GET` protocol, V2 the `POST` protocol). -/
inductive Version
  | V1
  | V2
  deriving DecidableEq, Repr

/-- Modelled from the spec: the enumeration `ImportType`, declared in the header of the client;
its three values are the ones `getMethodFromType` distinguishes. -/
inductive ImportType
  | IMPORT
  | REQUIRE
  | INTERNAL
  deriving DecidableEq, Repr

/-- The function `getMethodFromType` (fallback-service.c++ lines 16-26). -/
def getMethodFromType : ImportType → String
  | .IMPORT => "import"
  | .REQUIRE => "require"
  | .INTERNAL => "internal"

/-- The enumeration `kj::Exception::Type`. -/
inductive ExceptionType
  | FAILED
  | OVERLOADED
  | DISCONNECTED
  | UNIMPLEMENTED
  deriving DecidableEq, Repr

/-- A decoded `server::config::Worker::Module`: its name, when the `name` field is there
(`hasName()`), and a handle for the rest of the configuration. -/
structure Module where
  name : Option String
  content : Nat
  deriving DecidableEq, Repr

/-- Modelled from the spec: what a value of `ModuleOrRedirect` (declared in the header of the
client) holds when it is not empty, a redirect string or a module configuration (section 4.4,
step 4). -/
inductive Resolved
  /-- The target of a redirect (`kj::String`). -/
  | redirect (target : String)
  /-- A module configuration (`kj::Own<server::config::Worker::Module::Reader>`). -/
  | module (module : Module)
  deriving DecidableEq, Repr

/-- Modelled from the spec: the type `ModuleOrRedirect`; `none` is the not-found result. -/
abbrev ModuleOrRedirect := Option Resolved

/-- The function `handleReturnPayload` (fallback-service.c++ lines 28-75). `decode` is the JSON
decoding of the payload into a module (`json.decode`); when it gives nothing the source has
caught and logged an exception. -/
def handleReturnPayload (decode : String → Option Module) (jsonPayload : Option String)
    (redirect : Bool) (specifier : String) : ModuleOrRedirect :=
  match jsonPayload with
  | some payload =>
    if payload.length = 0 then none
    else if redirect then some (Resolved.redirect payload)
    else
      match decode payload with
      | none => none
      | some moduleBuilder =>
        match moduleBuilder.name with
        | some name =>
          if name ≠ specifier then none else some (Resolved.module moduleBuilder)
        | none => some (Resolved.module { moduleBuilder with name := some specifier })
  | none => none

/-- The text after the last `/` of a character sequence, when there is a `/`
(`specifier.findLast('/')` followed by `specifier.slice(pos + 1)`). -/
def afterLastSlash : List Char → Option (List Char)
  | [] => none
  | c :: cs =>
    match afterLastSlash cs with
    | some segment => some segment
    | none => if c = '/' then some cs else none

/-- A parameter of the query of a URL (`kj::Url::QueryParam`). -/
structure QueryParam where
  name : String
  value : String
  deriving DecidableEq, Repr

/-- What the V1 branch of `threadMain` prepares before the HTTP attempts (fallback-service.c++
lines 169-198): the query of the URL and the string `actualSpecifier`. -/
structure V1Query where
  query : List QueryParam
  actualSpecifier : String
  deriving DecidableEq, Repr

/-- The construction of the V1 query (fallback-service.c++ lines 173-198). -/
def buildV1Query (specifier : String) (rawSpecifier : Option String) (referrer : String) :
    V1Query :=
  let prefixed : Option String :=
    match afterLastSlash specifier.data with
    | some segment =>
      if jsg.startsWith (String.mk segment) "node:" ||
          jsg.startsWith (String.mk segment) "cloudflare:" ||
          jsg.startsWith (String.mk segment) "workerd:" then
        some (String.mk segment)
      else none
    | none => none
  let tail : List QueryParam :=
    [⟨"referrer", referrer⟩,
     ⟨"rawSpecifier", match rawSpecifier with | some rs => rs | none => ""⟩]
  match prefixed with
  | some segment => ⟨⟨"specifier", segment⟩ :: tail, segment⟩
  | none =>
    let actualSpecifier :=
      if jsg.startsWith specifier "/" then String.mk (specifier.data.drop 1) else specifier
    ⟨⟨"specifier", specifier⟩ :: tail, actualSpecifier⟩

/-- The body of a V2 request: the fields of `FallbackServiceRequest` (fallback-service.c++ lines
244-262). -/
structure V2Body where
  type : String
  specifier : String
  referrer : String
  rawSpecifier : Option String
  attributes : List (String × String)
  deriving DecidableEq, Repr

/-- An HTTP request of the client. -/
inductive HttpRequest
  /-- The V1 request: `GET` with the query and the header `x-resolve-method`. -/
  | get (query : List QueryParam) (resolveMethod : String)
  /-- The V2 request: `POST` to `/` with the encoded body. -/
  | post (body : V2Body)
  deriving DecidableEq, Repr

/-- A response as far as the client looks at it: the status, the `Location` header and the
body; reading the body may throw. -/
structure HttpResponse where
  statusCode : Nat
  location : Option String
  body : Except ExceptionType String

/-- How one HTTP attempt goes: the request throws, or a response arrives. -/
inductive HttpAttempt
  | failed (type : ExceptionType)
  | responded (response : HttpResponse)

/-- The local variables `jsonPayload` and `redirect` of the attempt loop, with the number of
HTTP attempts made and the records the loop has written with `KJ_LOG(ERROR, ...)`; the last two
are not variables of the source, they record what the loop did. -/
structure Fetch where
  jsonPayload : Option String
  redirect : Bool
  attempts : Nat
  errors : List String
  deriving DecidableEq, Repr

/-- The `KJ_TRY` block of one attempt (fallback-service.c++ lines 204-228 and 271-296): it
ends with `break` (no exception), or an exception of some type leaves it. -/
def tryAttempt (attempt : HttpAttempt) (st : Fetch) : Option ExceptionType × Fetch :=
  let st1 := { st with attempts := st.attempts + 1 }
  match attempt with
  | .failed type => (some type, st1)
  | .responded resp =>
    if resp.statusCode = 301 then
      let st2 :=
        match resp.location with
        | some loc => { st1 with redirect := true, jsonPayload := some loc }
        | none =>
          { st1 with
            errors := st1.errors ++ ["Fallback service returned a redirect with no location"] }
      match resp.body with
      | .error type => (some type, st2)
      | .ok _ => (none, st2)
    else if resp.statusCode ≠ 200 then
      match resp.body with
      | .error type => (some type, st1)
      | .ok _ =>
        (none, { st1 with errors := st1.errors ++ ["Fallback service failed to fetch module"] })
    else
      match resp.body with
      | .error type => (some type, st1)
      | .ok text => (none, { st1 with jsonPayload := some text })

/-- The loop `for (int attempt = 0; attempt < 2; attempt++)` (fallback-service.c++ lines 203-236
and 270-304), from the iteration `attempt` on; `remaining` is `2 - attempt`. After an exception
the `KJ_CATCH` block either continues at once (first attempt, `DISCONNECTED`) or writes a log
record; in both cases the loop goes on to the next iteration. -/
def attemptLoop (http : Nat → HttpAttempt) : Nat → Nat → Fetch → Fetch
  | 0, _, st => st
  | remaining + 1, attempt, st =>
    match tryAttempt (http attempt) st with
    | (none, st1) => st1
    | (some type, st1) =>
      if attempt = 0 ∧ type = ExceptionType.DISCONNECTED then
        attemptLoop http remaining (attempt + 1) st1
      else
        attemptLoop http remaining (attempt + 1)
          { st1 with errors := st1.errors ++ ["Fallback service failed to fetch module"] }

/-- The attempt loop from its start, with the initial values of the local variables. -/
def fetch (http : Nat → HttpAttempt) : Fetch :=
  attemptLoop http 2 0 ⟨none, false, 0, []⟩

/-- The world outside the client: the JSON decoder and, for each request, how its successive
HTTP attempts go. -/
structure Service where
  decode : String → Option Module
  http : HttpRequest → Nat → HttpAttempt

/-- The arguments of `FallbackServiceClient::tryResolve`. -/
structure Request where
  version : Version
  type : ImportType
  specifier : String
  rawSpecifier : String
  referrer : String
  attributes : List (String × String)
  deriving DecidableEq, Repr

/-- The local `rawSpecifier` of `threadMain`: absent when the string of the request is empty
(`s.rawSpecifier != nullptr`, fallback-service.c++ lines 154-156). -/
def rawSpecifierOf (request : Request) : Option String :=
  if request.rawSpecifier = "" then none else some request.rawSpecifier

/-- The HTTP request that `threadMain` sends for a request (fallback-service.c++ lines 169-209
for V1, 242-276 for V2). -/
def httpRequestOf (request : Request) : HttpRequest :=
  match request.version with
  | .V1 =>
    HttpRequest.get
      (buildV1Query request.specifier (rawSpecifierOf request) request.referrer).query
      (getMethodFromType request.type)
  | .V2 =>
    HttpRequest.post
      ⟨getMethodFromType request.type, request.specifier, request.referrer,
        rawSpecifierOf request, request.attributes⟩

/-- The processing of one request by the background thread (fallback-service.c++ lines 164-307):
the result that will be delivered, and the attempt loop as it ended. The name check of
`handleReturnPayload` is made against `actualSpecifier` under V1 (line 238) and against
`specifier` under V2 (line 306). -/
def processRequest (service : Service) (request : Request) : ModuleOrRedirect × Fetch :=
  let fetched := fetch (service.http (httpRequestOf request))
  match request.version with
  | .V1 =>
    (handleReturnPayload service.decode fetched.jsonPayload fetched.redirect
      (buildV1Query request.specifier (rawSpecifierOf request)
        request.referrer).actualSpecifier, fetched)
  | .V2 =>
    (handleReturnPayload service.decode fetched.jsonPayload fetched.redirect
      request.specifier, fetched)

/-- Modelled from the spec: the struct `SharedState` (declared in the header of the client)
that the caller and the background thread share under one mutex: "pending-request flag, request
fields (version, method-as-type, specifier, raw-specifier, referrer, attributes-pointer),
response slot, response-ready flag, shutdown flag" (section 4.7). The field names are the ones
the code uses. -/
structure SharedState where
  hasRequest : Bool
  version : Version
  type : ImportType
  specifier : String
  rawSpecifier : String
  referrer : String
  attributes : List (String × String)
  response : ModuleOrRedirect
  responseReady : Bool
  shutdown : Bool
  deriving DecidableEq, Repr

/-- The first critical section of `FallbackServiceClient::tryResolve` (fallback-service.c++
lines 99-110): the request is written into the shared state, unless `KJ_REQUIRE` or `KJ_ASSERT`
throws; the error is the description of the exception. -/
def tryResolveSubmit (state : SharedState) (request : Request) :
    Except String SharedState :=
  if state.shutdown then
    .error "FallbackServiceClient has been shut down"
  else if state.hasRequest then
    .error "FallbackServiceClient does not support concurrent requests"
  else
    .ok { state with
      version := request.version
      type := request.type
      specifier := request.specifier
      rawSpecifier := request.rawSpecifier
      referrer := request.referrer
      attributes := request.attributes
      hasRequest := true }

/-- The wait of `FallbackServiceClient::tryResolve` (fallback-service.c++ lines 113-122):
`state.when` runs its body once `responseReady || shutdown` holds; until then the caller is
blocked (`none`). The body returns the result and the state it leaves. -/
def tryResolveReceive (state : SharedState) : Option (ModuleOrRedirect × SharedState) :=
  if state.responseReady || state.shutdown then
    if !state.responseReady then some (none, state)
    else some (state.response, { state with response := none, responseReady := false })
  else none

/-- The wait of the background thread for a request (fallback-service.c++ lines 148-162): once
`hasRequest || shutdown` holds, the thread exits on `shutdown` (it returns no request) or takes
the request and clears `hasRequest`. -/
def threadTake (state : SharedState) : Option (Option Request × SharedState) :=
  if state.hasRequest || state.shutdown then
    if state.shutdown then some (none, state)
    else
      some (some ⟨state.version, state.type, state.specifier, state.rawSpecifier,
        state.referrer, state.attributes⟩, { state with hasRequest := false })
  else none

/-- The delivery of a result by the background thread (fallback-service.c++ lines 310-314). -/
def threadDeliver (state : SharedState) (result : ModuleOrRedirect) : SharedState :=
  { state with response := result, responseReady := true }

/-- The `KJ_CATCH` block at the end of `threadMain` (fallback-service.c++ lines 317-324), run
when the thread dies of an exception. -/
def threadDied (state : SharedState) : SharedState :=
  { state with response := none, responseReady := true, shutdown := true }

/-- The destructor `~FallbackServiceClient` (fallback-service.c++ lines 85-90). -/
def requestShutdown (state : SharedState) : SharedState :=
  { state with shutdown := true }

/-- The function `FallbackServiceClient::tryResolve` (fallback-service.c++ lines 92-123) run
against a background thread that waits at the top of its loop and is not disturbed: the caller
submits the request, the thread takes it, processes it and delivers the result, and the caller
receives it. An exception of the first critical section leaves the call; `none` is a caller
that stays blocked. -/
def tryResolve (service : Service) (state : SharedState) (request : Request) :
    Except String (Option (ModuleOrRedirect × SharedState)) :=
  match tryResolveSubmit state request with
  | .error description => .error description
  | .ok submitted =>
    match threadTake submitted with
    | some (some taken, cleared) =>
      .ok (tryResolveReceive (threadDeliver cleared (processRequest service taken).1))
    | _ => .ok (tryResolveReceive submitted)

/-! ## Example services and states -/

/-- A shared state with no request, no response and no shutdown. -/
def idleState : SharedState :=
  ⟨false, Version.V1, ImportType.IMPORT, "", "", "", [], none, false, false⟩

/-- The state `idleState` after the destructor has requested the shutdown. -/
def shutdownState : SharedState := requestShutdown idleState

/-- A decoder that understands three bodies: a module named `/foo`, a module named `foo` and a
module without name. -/
def exampleDecode (payload : String) : Option Module :=
  if payload = "named-slash-foo" then some ⟨some "/foo", 7⟩
  else if payload = "named-foo" then some ⟨some "foo", 7⟩
  else if payload = "unnamed" then some ⟨none, 7⟩
  else none

/-- A service that answers every attempt with status 200 and the body `named-slash-foo`. -/
def namedService : Service :=
  ⟨exampleDecode, fun _ _ => HttpAttempt.responded ⟨200, none, .ok "named-slash-foo"⟩⟩

/-- A service that answers every attempt with status 200 and the body `unnamed`. -/
def unnamedService : Service :=
  ⟨exampleDecode, fun _ _ => HttpAttempt.responded ⟨200, none, .ok "unnamed"⟩⟩

/-- A service whose first attempt fails with an exception of type `FAILED` and whose later
attempts are answered with status 200 and the body `unnamed`. -/
def failingOnceService : Service :=
  ⟨exampleDecode, fun _ attempt =>
    if attempt = 0 then HttpAttempt.failed ExceptionType.FAILED
    else HttpAttempt.responded ⟨200, none, .ok "unnamed"⟩⟩

/-- A service whose first attempt fails with an exception of type `DISCONNECTED` and whose later
attempts are answered with status 200 and the body `unnamed`. -/
def staleConnectionService : Service :=
  ⟨exampleDecode, fun _ attempt =>
    if attempt = 0 then HttpAttempt.failed ExceptionType.DISCONNECTED
    else HttpAttempt.responded ⟨200, none, .ok "unnamed"⟩⟩

/-- The request for the specifier `/foo` from the referrer `/a`, under the given version. -/
def fooRequest (version : Version) : Request :=
  ⟨version, ImportType.IMPORT, "/foo", "./foo", "/a", []⟩

/-! ## Callers and the background thread, step by step

Every access to the shared state is made under its mutex, so a run of the client is an
interleaving of the critical sections embedded above. -/

/-- Where a caller of `FallbackServiceClient::tryResolve` stands. -/
inductive Caller
  /-- The caller has not entered `tryResolve` yet. -/
  | ready (request : Request)
  /-- The caller has submitted its request and waits in `state.when` (lines 113-122). -/
  | waiting (request : Request)
  /-- The call has returned this result. -/
  | returned (request : Request) (result : ModuleOrRedirect)
  /-- The call has thrown the exception with this description. -/
  | threw (request : Request) (description : String)
  deriving DecidableEq, Repr

/-- Where the background thread stands in `threadMain`. -/
inductive Thread
  /-- The thread waits at the top of its loop (lines 148-161). -/
  | waiting
  /-- The thread has taken this request and has not delivered the result yet (lines 164-314). -/
  | processing (request : Request)
  /-- The thread has left `threadMain`. -/
  | exited
  deriving DecidableEq, Repr

/-- A client with its callers: the shared state, the background thread, the callers, and the
requests that the thread has taken so far, oldest first. The last list is not a field of the
source; it records what the thread observed. -/
structure Client where
  shared : SharedState
  thread : Thread
  callers : List Caller
  observed : List Request
  deriving DecidableEq, Repr

/-- One critical section run by one party. -/
inductive Action
  /-- The caller with this index runs the first critical section of `tryResolve`. -/
  | submit (caller : Nat)
  /-- The caller with this index wakes up in `state.when` and runs its body. -/
  | receive (caller : Nat)
  /-- The thread wakes up at the top of its loop and takes a request, or exits. -/
  | take
  /-- The thread processes the request it holds and delivers the result. -/
  | deliver
  deriving DecidableEq, Repr

/-- One step of the client; `none` when the party cannot make this step now (a caller or the
thread that is blocked, a caller that is not at this point). -/
def Client.step (service : Service) (self : Client) : Action → Option Client
  | .submit i =>
    match self.callers[i]? with
    | some (Caller.ready request) =>
      match tryResolveSubmit self.shared request with
      | .error description =>
        some { self with callers := self.callers.set i (Caller.threw request description) }
      | .ok submitted =>
        some { self with
          shared := submitted
          callers := self.callers.set i (Caller.waiting request) }
    | _ => none
  | .receive i =>
    match self.callers[i]? with
    | some (Caller.waiting request) =>
      match tryResolveReceive self.shared with
      | some (result, left) =>
        some { self with
          shared := left
          callers := self.callers.set i (Caller.returned request result) }
      | none => none
    | _ => none
  | .take =>
    match self.thread with
    | Thread.waiting =>
      match threadTake self.shared with
      | some (some request, cleared) =>
        some { self with
          shared := cleared
          thread := Thread.processing request
          observed := self.observed ++ [request] }
      | some (none, left) => some { self with shared := left, thread := Thread.exited }
      | none => none
    | _ => none
  | .deliver =>
    match self.thread with
    | Thread.processing request =>
      some { self with
        shared := threadDeliver self.shared (processRequest service request).1
        thread := Thread.waiting }
    | _ => none

/-- A run of the client along a schedule; `none` when a step of the schedule cannot be made. -/
def Client.run (service : Service) (self : Client) : List Action → Option Client
  | [] => some self
  | action :: schedule =>
    match self.step service action with
    | some next => next.run service schedule
    | none => none

/-- A client whose thread waits for a request and whose callers have not called yet. -/
def Client.start (shared : SharedState) (requests : List Request) : Client :=
  ⟨shared, Thread.waiting, requests.map Caller.ready, []⟩

/-- The schedule in which `count` callers, from the index `first` on, call one after the other:
each call is submitted, taken, processed and received before the next one is submitted. -/
def sequentialSchedule : Nat → Nat → List Action
  | _, 0 => []
  | first, count + 1 =>
    [Action.submit first, Action.take, Action.deliver, Action.receive first] ++
      sequentialSchedule (first + 1) count

/-- A service that answers a V2 request with a module named like the specifier of the request,
and a V1 request with a module named like the first parameter of the query. -/
def echoService : Service :=
  ⟨fun payload => some ⟨some payload, 0⟩, fun request _ =>
    match request with
    | .post body => HttpAttempt.responded ⟨200, none, .ok body.specifier⟩
    | .get (parameter :: _) _ => HttpAttempt.responded ⟨200, none, .ok parameter.value⟩
    | .get [] _ => HttpAttempt.responded ⟨200, none, .ok ""⟩⟩

/-- The V2 request for the specifier `/bar` from the referrer `/a`. -/
def barRequest : Request :=
  ⟨Version.V2, ImportType.IMPORT, "/bar", "./bar", "/a", []⟩

/-- Two callers overlap: the second submits after the thread has taken the request of the first
and before its result is delivered, and is the first to wake up. -/
def crossedSchedule : List Action :=
  [Action.submit 0, Action.take, Action.submit 1, Action.deliver, Action.receive 1,
    Action.take, Action.deliver, Action.receive 0]

/-- Two callers overlap: the second submits while the request of the first is still pending. -/
def rejectedSchedule : List Action :=
  [Action.submit 0, Action.submit 1, Action.take, Action.deliver, Action.receive 0]

/-- A service whose first attempt is answered 301 with the location `/elsewhere` and then fails
with `DISCONNECTED` while the body is drained, and whose later attempts are answered with status
200 and the body `unnamed`. -/
def staleRedirectService : Service :=
  ⟨exampleDecode, fun _ attempt =>
    if attempt = 0 then
      HttpAttempt.responded ⟨301, some "/elsewhere", .error ExceptionType.DISCONNECTED⟩
    else HttpAttempt.responded ⟨200, none, .ok "unnamed"⟩⟩

end workerd.fallback

namespace workerd.jsg

/-! ## Example engines and registries -/

/-- An engine that compiles every text (the handle is the length of the text), has no fallback
service and no compatibility flag set. -/
def exampleLock : Lock where
  compile := fun _ src _ _ => .ok ⟨src.length, none, none⟩
  tryResolveFromFallbackService := fun _ _ => none
  instantiateModule := fun _ => .ok ()
  resolverAvailable := true
  throwOnUnrecognizedImportAssertion := false
  nodeJsCompatEnabled := false
  nodeJsProcessV2Enabled := false
  checkNodeSpecifier := fun _ => none

/-- The registry of the scenario "bundle shadows builtin": `/x` is registered as a built-in
given by source text and as a bundle module with handle 2. -/
def shadowRegistry : ModuleRegistryImpl where
  dynamicImportHandler := none
  entries :=
    [⟨⟨["x"]⟩, ModuleType.BUILTIN, Entry.Info.source "export default 1", []⟩,
     ⟨⟨["x"]⟩, ModuleType.BUNDLE, Entry.Info.moduleInfo ⟨2, none, none⟩, []⟩]
  fallbackServiceRedirects := []
  fallbackRequests := []

/-- A registry with nothing in it. -/
def emptyRegistry : ModuleRegistryImpl where
  dynamicImportHandler := none
  entries := []
  fallbackServiceRedirects := []
  fallbackRequests := []

/-- A registry with the public built-in `node:fs`, the internal built-in `node-internal:fs`, a
bundle module that is also named `node-internal:fs`, and a handler that answers with the handle
of the module it is given. -/
def trustRegistry : ModuleRegistryImpl where
  dynamicImportHandler := some (fun r => .ok (JsPromise.fromHandler r.module.module))
  entries :=
    [⟨⟨["node:fs"]⟩, ModuleType.BUILTIN, Entry.Info.moduleInfo ⟨1, none, none⟩, []⟩,
     ⟨⟨["node-internal:fs"]⟩, ModuleType.BUNDLE, Entry.Info.moduleInfo ⟨3, none, none⟩, []⟩,
     ⟨⟨["node-internal:fs"]⟩, ModuleType.INTERNAL, Entry.Info.moduleInfo ⟨7, none, none⟩, []⟩]
  fallbackServiceRedirects := []
  fallbackRequests := []

/-- A registry that holds the internal module `node-internal:legacy_process`. -/
def processRegistry : ModuleRegistryImpl where
  dynamicImportHandler := none
  entries :=
    [⟨⟨["node-internal:legacy_process"]⟩, ModuleType.INTERNAL,
      Entry.Info.moduleInfo ⟨5, none, none⟩, []⟩]
  fallbackServiceRedirects := []
  fallbackRequests := []

/-- A name that consists of one NUL character; no path can be parsed from it. -/
def nulName : String :=
  String.mk [Char.ofNat 0]

/-- A specifier with a reserved prefix that holds a NUL character. -/
def reservedNulSpecifier : String :=
  "node:" ++ nulName

/-- An engine like `exampleLock` whose fallback service answers every request with the module
with handle 9. -/
def moduleServiceLock : Lock :=
  { exampleLock with
    tryResolveFromFallbackService := fun _ _ =>
      some (FallbackResult.moduleInfo ⟨9, none, none⟩) }

/-- A registry whose only entry is the bundle module `/x`. -/
def bundleXRegistry : ModuleRegistryImpl where
  dynamicImportHandler := none
  entries := [⟨⟨["x"]⟩, ModuleType.BUNDLE, Entry.Info.moduleInfo ⟨4, none, none⟩, []⟩]
  fallbackServiceRedirects := []
  fallbackRequests := []

/-- A registry with bundle modules `/a/sibling` and `/c/sibling` whose redirect memo sends
`/a/b` to `sibling`. -/
def redirectRegistry : ModuleRegistryImpl where
  dynamicImportHandler := none
  entries :=
    [⟨⟨["a", "sibling"]⟩, ModuleType.BUNDLE, Entry.Info.moduleInfo ⟨1, none, none⟩, []⟩,
     ⟨⟨["c", "sibling"]⟩, ModuleType.BUNDLE, Entry.Info.moduleInfo ⟨2, none, none⟩, []⟩]
  fallbackServiceRedirects := [("/a/b", "sibling")]
  fallbackRequests := []

/-- An engine like `exampleLock` whose fallback service redirects every request to `sibling`. -/
def redirectServiceLock : Lock :=
  { exampleLock with
    tryResolveFromFallbackService := fun _ _ => some (FallbackResult.redirect "sibling") }

/-- An engine like `exampleLock` whose fallback service redirects `/a/b` to `sibling` and knows
no other module. -/
def redirectOnceLock : Lock :=
  { exampleLock with
    tryResolveFromFallbackService := fun _ request =>
      if request.specifier = ⟨["a", "b"]⟩ then some (FallbackResult.redirect "sibling")
      else none }

/-- A registry whose only entry is the bundle module `/a/sibling`. -/
def siblingRegistry : ModuleRegistryImpl where
  dynamicImportHandler := none
  entries := [⟨⟨["a", "sibling"]⟩, ModuleType.BUNDLE, Entry.Info.moduleInfo ⟨1, none, none⟩, []⟩]
  fallbackServiceRedirects := []
  fallbackRequests := []

/-- An engine like `exampleLock` with Node.js compatibility on, where `checkNodeSpecifier`
rewrites the bare name `fs` to `node:fs`. -/
def compatLock : Lock :=
  { exampleLock with
    nodeJsCompatEnabled := true
    checkNodeSpecifier := fun s => if s = "fs" then some "node:fs" else none }

/-- A registry with the built-in `node:fs`, the bundle modules `/foo/fs` and `/foo/bar`, and a
handler that answers with the handle of the module it is given. -/
def compatRegistry : ModuleRegistryImpl where
  dynamicImportHandler := some (fun r => .ok (JsPromise.fromHandler r.module.module))
  entries :=
    [⟨⟨["node:fs"]⟩, ModuleType.BUILTIN, Entry.Info.moduleInfo ⟨1, none, none⟩, []⟩,
     ⟨⟨["foo", "fs"]⟩, ModuleType.BUNDLE, Entry.Info.moduleInfo ⟨2, none, none⟩, []⟩,
     ⟨⟨["foo", "bar"]⟩, ModuleType.BUNDLE, Entry.Info.moduleInfo ⟨3, none, none⟩, []⟩]
  fallbackServiceRedirects := []
  fallbackRequests := []

/-- An engine like `exampleLock` whose compiler fails on every text. -/
def failingCompileLock : Lock :=
  { exampleLock with
    compile := fun _ _ _ _ => .error (Exception.JsExceptionThrown none) }

/-- A registry whose only entry is the built-in `/x`, given by a factory that has nothing for
`require` and the module with handle 6 for `import`. -/
def factoryRegistry : ModuleRegistryImpl where
  dynamicImportHandler := none
  entries :=
    [⟨⟨["x"]⟩, ModuleType.BUILTIN,
      Entry.Info.callback (fun method _ =>
        if method = ResolveMethod.REQUIRE then .ok none else .ok (some ⟨6, none, none⟩)), []⟩]
  fallbackServiceRedirects := []
  fallbackRequests := []

/-- A registry without entries whose redirect memo sends `/a/b` to `b`, that is to itself. -/
def selfRedirectRegistry : ModuleRegistryImpl where
  dynamicImportHandler := none
  entries := []
  fallbackServiceRedirects := [("/a/b", "b")]
  fallbackRequests := []

/-- The built-in entry `/x` of `shadowRegistry`, still source text. -/
def sourceEntry : Entry :=
  ⟨⟨["x"]⟩, ModuleType.BUILTIN, Entry.Info.source "export default 1", []⟩

/-- Three calls of `Entry::module`: the compiler fails in the first and works in the others. -/
def retryCalls : List ModuleCall :=
  [⟨failingCompileLock, none, ResolveMethod.IMPORT⟩, ⟨exampleLock, none, ResolveMethod.IMPORT⟩,
    ⟨exampleLock, none, ResolveMethod.REQUIRE⟩]

/-- The registry after `add` was called for `/x` and then for `/y` with the same module handle
2. -/
def sharedHandleRegistry : ModuleRegistryImpl where
  dynamicImportHandler := none
  entries :=
    [⟨⟨["x"]⟩, ModuleType.BUNDLE, Entry.Info.moduleInfo ⟨2, none, none⟩, []⟩,
     ⟨⟨["y"]⟩, ModuleType.BUNDLE, Entry.Info.moduleInfo ⟨2, none, none⟩, []⟩]
  fallbackServiceRedirects := []
  fallbackRequests := []

/-! ## Lemmas on entries, the table and `resolve` -/

theorem Entry.matches_iff (row : Entry) (s : Path) (t : ModuleType) :
    row.matches s t = true ↔ row.specifier = s ∧ row.type = t := by
  simp [Entry.matches]

theorem Entry.module_specifier (js : Lock) (e : Entry) (r : Option Path) (m : ResolveMethod) :
    (e.module js r m).2.specifier = e.specifier := by
  unfold Entry.module
  split
  · rfl
  · split <;> rfl
  · split <;> rfl

theorem Entry.module_type (js : Lock) (e : Entry) (r : Option Path) (m : ResolveMethod) :
    (e.module js r m).2.type = e.type := by
  unfold Entry.module
  split
  · rfl
  · split <;> rfl
  · split <;> rfl

/-- When `Entry::module` returns a module info, the entry holds exactly that info afterwards. -/
theorem Entry.module_some (js : Lock) (e : Entry) (r : Option Path) (m : ResolveMethod)
    (info : ModuleInfo) (h : (e.module js r m).1 = .ok (some info)) :
    (e.module js r m).2.info = Entry.Info.moduleInfo info := by
  unfold Entry.module at h ⊢
  split
  · rename_i mi hi
    simp only [hi] at h
    simp at h
    simp [hi, h]
  · rename_i src hi
    simp only [hi] at h
    split
    · rename_i ex hc
      simp [hc] at h
    · rename_i c hc
      simp [hc, Entry.Info.tryGet] at h
      simp [h]
  · rename_i f hi
    simp only [hi] at h
    split
    · rename_i ex hc
      simp [hc] at h
    · rename_i c hc
      simp [hc, Entry.Info.tryGet] at h
      simp [h]
    · rename_i hc
      simp [hc, hi, Entry.Info.tryGet] at h

theorem Table.find_key {rows : List Entry} {s : Path} {t : ModuleType} {e : Entry}
    (h : Table.find rows s t = some e) : e.specifier = s ∧ e.type = t := by
  induction rows with
  | nil => simp [Table.find] at h
  | cons row rows ih =>
    unfold Table.find at h
    split at h
    · rename_i hm
      cases h
      exact (Entry.matches_iff _ _ _).1 hm
    · exact ih h

theorem Table.find_mem {rows : List Entry} {s : Path} {t : ModuleType} {e : Entry}
    (h : Table.find rows s t = some e) : e ∈ rows := by
  induction rows with
  | nil => simp [Table.find] at h
  | cons row rows ih =>
    unfold Table.find at h
    split at h
    · cases h; simp
    · exact List.mem_cons_of_mem _ (ih h)

/-- Looking a key up after a row was written back under the key `(s, t)`. -/
theorem Table.find_store (rows : List Entry) (s : Path) (t : ModuleType) (row : Entry)
    (hs : row.specifier = s) (ht : row.type = t) (s2 : Path) (t2 : ModuleType) :
    Table.find (Table.store rows s t row) s2 t2 =
      if s2 = s ∧ t2 = t then (Table.find rows s t).map (fun _ => row)
      else Table.find rows s2 t2 := by
  induction rows with
  | nil => simp [Table.find, Table.store]
  | cons old rows ih =>
    unfold Table.store
    by_cases hold : old.matches s t = true
    · have hk := (Entry.matches_iff _ _ _).1 hold
      simp only [hold, if_true]
      by_cases h2 : s2 = s ∧ t2 = t
      · obtain ⟨rfl, rfl⟩ := h2
        have hrow : row.matches s2 t2 = true := (Entry.matches_iff _ _ _).2 ⟨hs, ht⟩
        simp [Table.find, hrow, hold]
      · have hrow : ¬ row.matches s2 t2 = true := by
          rw [Entry.matches_iff]; rintro ⟨a, b⟩; exact h2 ⟨a ▸ hs.symm ▸ rfl, b ▸ ht.symm ▸ rfl⟩
        have hold2 : ¬ old.matches s2 t2 = true := by
          rw [Entry.matches_iff]; rintro ⟨a, b⟩; exact h2 ⟨a ▸ hk.1.symm ▸ rfl, b ▸ hk.2.symm ▸ rfl⟩
        simp [Table.find, hrow, hold2, h2]
    · simp only [hold]
      by_cases h2 : s2 = s ∧ t2 = t
      · obtain ⟨rfl, rfl⟩ := h2
        simp only [Table.find, hold]
        simpa using ih
      · by_cases hold2 : old.matches s2 t2 = true
        · simp [Table.find, hold2, h2]
        · simp only [Table.find, hold2]
          simpa [h2] using ih

theorem ModuleRegistryImpl.returnModule_entries (js : Lock) (σ : ModuleRegistryImpl) (e : Entry)
    (ref : Option Path) (m : ResolveMethod) :
    (σ.returnModule js e ref m).2.entries =
      Table.store σ.entries e.specifier e.type (e.module js ref m).2 := by
  unfold ModuleRegistryImpl.returnModule
  dsimp only
  split <;> rfl

theorem ModuleRegistryImpl.returnModule_redirects (js : Lock) (σ : ModuleRegistryImpl)
    (e : Entry) (ref : Option Path) (m : ResolveMethod) :
    (σ.returnModule js e ref m).2.fallbackServiceRedirects = σ.fallbackServiceRedirects := by
  unfold ModuleRegistryImpl.returnModule
  dsimp only
  split <;> rfl

theorem ModuleRegistryImpl.returnModule_requests (js : Lock) (σ : ModuleRegistryImpl)
    (e : Entry) (ref : Option Path) (m : ResolveMethod) :
    (σ.returnModule js e ref m).2.fallbackRequests = σ.fallbackRequests := by
  unfold ModuleRegistryImpl.returnModule
  dsimp only
  split <;> rfl

theorem ModuleRegistryImpl.returnModule_handler (js : Lock) (σ : ModuleRegistryImpl)
    (e : Entry) (ref : Option Path) (m : ResolveMethod) :
    (σ.returnModule js e ref m).2.dynamicImportHandler = σ.dynamicImportHandler := by
  unfold ModuleRegistryImpl.returnModule
  dsimp only
  split <;> rfl

/-- What `return entry->module(...)` returns, when it returns a reference. -/
theorem ModuleRegistryImpl.returnModule_returned {js : Lock} {σ : ModuleRegistryImpl}
    {e : Entry} {ref : Option Path} {m : ResolveMethod} {r : ModuleRef}
    (h : (σ.returnModule js e ref m).1 = Outcome.returned (some r)) :
    r.specifier = e.specifier ∧ r.type = e.type ∧
      (e.module js ref m).1 = .ok (some r.module) := by
  unfold ModuleRegistryImpl.returnModule at h
  dsimp only at h
  split at h
  · simp at h
  · simp at h
  · rename_i info hinfo
    simp at h
    subst h
    exact ⟨rfl, rfl, hinfo⟩

/-- An entry that is already instantiated is returned as it is. -/
theorem ModuleRegistryImpl.returnModule_instantiated (js : Lock) (σ : ModuleRegistryImpl)
    (e : Entry) (ref : Option Path) (m : ResolveMethod) (info : ModuleInfo)
    (h : e.info = Entry.Info.moduleInfo info) :
    (σ.returnModule js e ref m).1 = Outcome.returned (some ⟨e.specifier, e.type, info⟩) := by
  have hm : e.module js ref m = (.ok (some info), e) := by
    unfold Entry.module
    simp [h]
  unfold ModuleRegistryImpl.returnModule
  simp [hm]

theorem ModuleRegistryImpl.resolve_zero (js : Lock) :
    ModuleRegistryImpl.resolve js 0 =
      ModuleRegistryImpl.resolveBody js (fun self _ _ _ _ _ => (Outcome.outOfFuel, self)) :=
  rfl

theorem ModuleRegistryImpl.resolve_succ (js : Lock) (fuel : Nat) :
    ModuleRegistryImpl.resolve js (fuel + 1) =
      ModuleRegistryImpl.resolveBody js (ModuleRegistryImpl.resolve js fuel) :=
  rfl

/-- Whatever the fuel, `resolve` is its body run with some continuation. -/
theorem ModuleRegistryImpl.resolve_eq_body (js : Lock) (fuel : Nat) :
    ∃ recurse, ModuleRegistryImpl.resolve js fuel = ModuleRegistryImpl.resolveBody js recurse := by
  cases fuel with
  | zero => exact ⟨_, rfl⟩
  | succ n => exact ⟨_, rfl⟩

theorem ModuleRegistryImpl.resolve_internalOnly_eq (js : Lock) (fuel : Nat)
    (σ : ModuleRegistryImpl) (S : Path) (ref : Option Path) (m : ResolveMethod)
    (raw : Option String) :
    σ.resolve js fuel S ref ResolveOption.INTERNAL_ONLY m raw =
      match Table.find σ.entries S ModuleType.INTERNAL with
      | some entry => σ.returnModule js entry ref m
      | none => (Outcome.returned none, σ) := by
  obtain ⟨recurse, h⟩ := ModuleRegistryImpl.resolve_eq_body js fuel
  rw [h]
  rfl


theorem Table.find_append (rows : List Entry) (row : Entry) (s : Path) (t : ModuleType) :
    Table.find (rows ++ [row]) s t =
      match Table.find rows s t with
      | some e => some e
      | none => if row.matches s t then some row else none := by
  induction rows with
  | nil => simp [Table.find]
  | cons old rows ih =>
    by_cases hold : old.matches s t = true
    · simp [Table.find, hold]
    · simp only [List.cons_append, Table.find, hold]
      simpa using ih

/-- Writing back the very row that is found changes nothing. -/
theorem Table.store_self (rows : List Entry) (s : Path) (t : ModuleType) (row : Entry)
    (h : Table.find rows s t = some row) : Table.store rows s t row = rows := by
  induction rows with
  | nil => rfl
  | cons old rows ih =>
    unfold Table.find at h
    unfold Table.store
    by_cases hold : old.matches s t = true
    · simp only [hold, if_true] at h ⊢
      cases h
      rfl
    · simp only [hold] at h ⊢
      simp [ih h]

/-- The cases of the memo-and-fallback part of `resolve`, each with the result it gives. -/
theorem ModuleRegistryImpl.resolveFallback_cases (js : Lock)
    (recurse : ModuleRegistryImpl → Path → Option Path → ResolveOption → ResolveMethod →
      Option String → ResolveResult)
    (σ : ModuleRegistryImpl) (S : Path) (ref : Option Path) (opt : ResolveOption)
    (m : ResolveMethod) (raw : Option String) (P : ResolveResult → Prop)
    (memoThrow : ∀ found,
      Redirects.find σ.fallbackServiceRedirects (S.toString true) = some found →
      S.parent.eval found = none →
      P (Outcome.threw (Exception.kjException "invalid path"), σ))
    (memoHit : ∀ found target,
      Redirects.find σ.fallbackServiceRedirects (S.toString true) = some found →
      S.parent.eval found = some target →
      P (recurse σ target ref ResolveOption.DEFAULT m raw))
    (nothing :
      Redirects.find σ.fallbackServiceRedirects (S.toString true) = none →
      js.tryResolveFromFallbackService σ.fallbackRequests ⟨S, ref, m, raw⟩ = none →
      P (Outcome.returned none, σ.recordRequest ⟨S, ref, m, raw⟩))
    (duplicate : ∀ i e,
      Redirects.find σ.fallbackServiceRedirects (S.toString true) = none →
      js.tryResolveFromFallbackService σ.fallbackRequests ⟨S, ref, m, raw⟩
        = some (FallbackResult.moduleInfo i) →
      Table.find σ.entries S (ModuleRegistryImpl.installType opt (S.toString true)) = some e →
      P (Outcome.threw (Exception.kjException "inserted row already exists in table"),
        σ.recordRequest ⟨S, ref, m, raw⟩))
    (install : ∀ i,
      Redirects.find σ.fallbackServiceRedirects (S.toString true) = none →
      js.tryResolveFromFallbackService σ.fallbackRequests ⟨S, ref, m, raw⟩
        = some (FallbackResult.moduleInfo i) →
      Table.find σ.entries S (ModuleRegistryImpl.installType opt (S.toString true)) = none →
      P (Outcome.returned
          (some ⟨S, ModuleRegistryImpl.installType opt (S.toString true), i⟩),
        (σ.recordRequest ⟨S, ref, m, raw⟩).withEntries
          (σ.entries ++ [⟨S, ModuleRegistryImpl.installType opt (S.toString true),
            Entry.Info.moduleInfo i, []⟩])))
    (redirectThrow : ∀ s,
      Redirects.find σ.fallbackServiceRedirects (S.toString true) = none →
      js.tryResolveFromFallbackService σ.fallbackRequests ⟨S, ref, m, raw⟩
        = some (FallbackResult.redirect s) →
      S.parent.eval s = none →
      P (Outcome.threw (Exception.kjException "invalid path"),
        (σ.recordRequest ⟨S, ref, m, raw⟩).upsertRedirect (S.toString true) s))
    (redirect : ∀ s target,
      Redirects.find σ.fallbackServiceRedirects (S.toString true) = none →
      js.tryResolveFromFallbackService σ.fallbackRequests ⟨S, ref, m, raw⟩
        = some (FallbackResult.redirect s) →
      S.parent.eval s = some target →
      P (recurse ((σ.recordRequest ⟨S, ref, m, raw⟩).upsertRedirect (S.toString true) s)
        target ref ResolveOption.DEFAULT m raw)) :
    P (σ.resolveFallback js recurse S ref opt m raw) := by
  unfold ModuleRegistryImpl.resolveFallback
  dsimp only
  cases hmemo : Redirects.find σ.fallbackServiceRedirects (S.toString true) with
  | some found =>
    dsimp only
    cases hev : S.parent.eval found with
    | none => exact memoThrow found hmemo hev
    | some target => exact memoHit found target hmemo hev
  | none =>
    dsimp only
    cases hfb : js.tryResolveFromFallbackService σ.fallbackRequests ⟨S, ref, m, raw⟩ with
    | none => exact nothing hmemo hfb
    | some res =>
      cases res with
      | redirect s =>
        dsimp only
        cases hev : S.parent.eval s with
        | none => exact redirectThrow s hmemo hfb hev
        | some target => exact redirect s target hmemo hfb hev
      | moduleInfo i =>
        dsimp only
        cases hfind : Table.find σ.entries S
            (ModuleRegistryImpl.installType opt (S.toString true)) with
        | some e =>
          have hins : Table.insert (σ.recordRequest ⟨S, ref, m, raw⟩).entries
              ⟨S, ModuleRegistryImpl.installType opt (S.toString true),
                Entry.Info.moduleInfo i, []⟩
              = .error (Exception.kjException "inserted row already exists in table") := by
            simp [Table.insert, ModuleRegistryImpl.recordRequest, hfind]
          rw [hins]
          exact duplicate i e hmemo hfb hfind
        | none =>
          have hins : Table.insert (σ.recordRequest ⟨S, ref, m, raw⟩).entries
              ⟨S, ModuleRegistryImpl.installType opt (S.toString true),
                Entry.Info.moduleInfo i, []⟩
              = .ok (σ.entries ++ [⟨S, ModuleRegistryImpl.installType opt (S.toString true),
                Entry.Info.moduleInfo i, []⟩]) := by
            simp [Table.insert, ModuleRegistryImpl.recordRequest, hfind]
          rw [hins]
          dsimp only
          have hnew : Table.find (σ.entries ++ [⟨S,
              ModuleRegistryImpl.installType opt (S.toString true),
              Entry.Info.moduleInfo i, []⟩]) S
              (ModuleRegistryImpl.installType opt (S.toString true))
              = some ⟨S, ModuleRegistryImpl.installType opt (S.toString true),
                Entry.Info.moduleInfo i, []⟩ := by
            rw [Table.find_append, hfind]
            simp [Entry.matches]
          simp only [ModuleRegistryImpl.withEntries, hnew]
          have hret := install i hmemo hfb hfind
          unfold ModuleRegistryImpl.returnModule
          simp only [Entry.module, Table.store_self _ _ _ _ hnew]
          exact hret

theorem ModuleRegistryImpl.installType_ne_internal (opt : ResolveOption) (str : String) :
    ModuleRegistryImpl.installType opt str ≠ ModuleType.INTERNAL := by
  unfold ModuleRegistryImpl.installType
  split
  · split <;> simp
  · simp

theorem Table.internalRows_store (rows : List Entry) (s : Path) (t : ModuleType) (row : Entry)
    (ht : t ≠ ModuleType.INTERNAL) (hrow : row.type = t) :
    Table.internalRows (Table.store rows s t row) = Table.internalRows rows := by
  induction rows with
  | nil => rfl
  | cons old rows ih =>
    unfold Table.store
    by_cases hold : old.matches s t = true
    · have hk := (Entry.matches_iff _ _ _).1 hold
      have h1 : ¬ row.type = ModuleType.INTERNAL := by rw [hrow]; exact ht
      have h2 : ¬ old.type = ModuleType.INTERNAL := by rw [hk.2]; exact ht
      simp [hold, Table.internalRows, List.filter_cons, h1, h2]
    · have hf : old.matches s t = false := by simpa using hold
      unfold Table.internalRows at ih ⊢
      simp [hf, List.filter_cons, ih]

theorem Table.internalRows_append_other (rows : List Entry) (row : Entry)
    (hrow : row.type ≠ ModuleType.INTERNAL) :
    Table.internalRows (rows ++ [row]) = Table.internalRows rows := by
  simp [Table.internalRows, List.filter_append, List.filter_cons, hrow]

theorem ModuleRegistryImpl.returnModule_noInternal (js : Lock) (σ : ModuleRegistryImpl)
    (S : Path) (t : ModuleType) (e : Entry) (ref : Option Path) (m : ResolveMethod)
    (h : Table.find σ.entries S t = some e) (ht : t ≠ ModuleType.INTERNAL) :
    NoInternal σ (σ.returnModule js e ref m) := by
  have hk := Table.find_key h
  constructor
  · intro r hr
    have := ModuleRegistryImpl.returnModule_returned hr
    rw [this.2.1, hk.2]
    exact ht
  · rw [ModuleRegistryImpl.returnModule_entries]
    apply Table.internalRows_store
    · rw [hk.2]; exact ht
    · exact Entry.module_type _ _ _ _

theorem ModuleRegistryImpl.resolveBody_noInternal (js : Lock)
    (recurse : ModuleRegistryImpl → Path → Option Path → ResolveOption → ResolveMethod →
      Option String → ResolveResult)
    (hrec : ∀ σ T ref m raw, NoInternal σ (recurse σ T ref ResolveOption.DEFAULT m raw))
    (σ : ModuleRegistryImpl) (S : Path) (ref : Option Path) (opt : ResolveOption)
    (m : ResolveMethod) (raw : Option String) (hopt : opt ≠ ResolveOption.INTERNAL_ONLY) :
    NoInternal σ (ModuleRegistryImpl.resolveBody js recurse σ S ref opt m raw) := by
  have hfb : NoInternal σ (σ.resolveFallback js recurse S ref opt m raw) := by
    apply ModuleRegistryImpl.resolveFallback_cases
    · intro _ _ _; exact ⟨by simp, rfl⟩
    · intro _ target _ _; exact hrec σ target ref m raw
    · intro _ _; exact ⟨by simp, rfl⟩
    · intro _ _ _ _ _; exact ⟨by simp, rfl⟩
    · intro i _ _ _
      refine ⟨?_, ?_⟩
      · intro r hr
        simp at hr
        rw [← hr]
        exact ModuleRegistryImpl.installType_ne_internal _ _
      · exact Table.internalRows_append_other _ _
          (ModuleRegistryImpl.installType_ne_internal _ _)
    · intro _ _ _ _; exact ⟨by simp, rfl⟩
    · intro s target _ _ _
      exact hrec _ target ref m raw
  unfold ModuleRegistryImpl.resolveBody
  cases opt with
  | INTERNAL_ONLY => exact absurd rfl hopt
  | BUILTIN_ONLY =>
    dsimp only
    cases h : Table.find σ.entries S ModuleType.BUILTIN with
    | some e => exact ModuleRegistryImpl.returnModule_noInternal js σ S _ e ref m h (by simp)
    | none => exact hfb
  | DEFAULT =>
    dsimp only
    cases h : Table.find σ.entries S ModuleType.BUNDLE with
    | some e => exact ModuleRegistryImpl.returnModule_noInternal js σ S _ e ref m h (by simp)
    | none =>
      dsimp only
      cases h2 : Table.find σ.entries S ModuleType.BUILTIN with
      | some e => exact ModuleRegistryImpl.returnModule_noInternal js σ S _ e ref m h2 (by simp)
      | none => exact hfb

theorem Entry.module_congr (js js2 : Lock) (hc : js2.compile = js.compile) (e : Entry)
    (r : Option Path) (m : ResolveMethod) : e.module js2 r m = e.module js r m := by
  unfold Entry.module
  rw [hc]

theorem ModuleRegistryImpl.returnModule_returnsInstantiated (js : Lock)
    (σ : ModuleRegistryImpl) (S : Path) (t : ModuleType) (e : Entry) (ref : Option Path)
    (m : ResolveMethod) (h : Table.find σ.entries S t = some e) :
    ReturnsInstantiated (σ.returnModule js e ref m) := by
  have hk := Table.find_key h
  intro r hr
  have hret := ModuleRegistryImpl.returnModule_returned hr
  refine ⟨(e.module js ref m).2, ?_, Entry.module_some js e ref m r.module hret.2.2⟩
  rw [ModuleRegistryImpl.returnModule_entries, hret.1, hret.2.1,
    Table.find_store _ _ _ _ (Entry.module_specifier _ _ _ _) (Entry.module_type _ _ _ _)]
  rw [hk.1, hk.2, h]
  simp

theorem ModuleRegistryImpl.resolveBody_returnsInstantiated (js : Lock)
    (recurse : ModuleRegistryImpl → Path → Option Path → ResolveOption → ResolveMethod →
      Option String → ResolveResult)
    (hrec : ∀ σ T ref opt m raw, ReturnsInstantiated (recurse σ T ref opt m raw))
    (σ : ModuleRegistryImpl) (S : Path) (ref : Option Path) (opt : ResolveOption)
    (m : ResolveMethod) (raw : Option String) :
    ReturnsInstantiated (ModuleRegistryImpl.resolveBody js recurse σ S ref opt m raw) := by
  have hfb : ReturnsInstantiated (σ.resolveFallback js recurse S ref opt m raw) := by
    apply ModuleRegistryImpl.resolveFallback_cases
    · intro _ _ _ r hr; simp at hr
    · intro _ target _ _; exact hrec σ target ref _ m raw
    · intro _ _ r hr; simp at hr
    · intro _ _ _ _ _ r hr; simp at hr
    · intro i _ _ hfind r hr
      simp at hr
      subst hr
      refine ⟨⟨S, ModuleRegistryImpl.installType opt (S.toString true),
        Entry.Info.moduleInfo i, []⟩, ?_, rfl⟩
      simp only [ModuleRegistryImpl.withEntries]
      rw [Table.find_append, hfind]
      simp [Entry.matches]
    · intro _ _ _ _ r hr; simp at hr
    · intro s target _ _ _
      exact hrec _ target ref _ m raw
  unfold ModuleRegistryImpl.resolveBody
  cases opt with
  | INTERNAL_ONLY =>
    dsimp only
    cases h : Table.find σ.entries S ModuleType.INTERNAL with
    | some e => exact ModuleRegistryImpl.returnModule_returnsInstantiated js σ S _ e ref m h
    | none => intro r hr; simp at hr
  | BUILTIN_ONLY =>
    dsimp only
    cases h : Table.find σ.entries S ModuleType.BUILTIN with
    | some e => exact ModuleRegistryImpl.returnModule_returnsInstantiated js σ S _ e ref m h
    | none => exact hfb
  | DEFAULT =>
    dsimp only
    cases h : Table.find σ.entries S ModuleType.BUNDLE with
    | some e => exact ModuleRegistryImpl.returnModule_returnsInstantiated js σ S _ e ref m h
    | none =>
      dsimp only
      cases h2 : Table.find σ.entries S ModuleType.BUILTIN with
      | some e => exact ModuleRegistryImpl.returnModule_returnsInstantiated js σ S _ e ref m h2
      | none => exact hfb

/-- When every index lookup misses, `resolve` goes on with the memo and the fallback service. -/
theorem ModuleRegistryImpl.resolveBody_of_miss (js : Lock)
    (recurse : ModuleRegistryImpl → Path → Option Path → ResolveOption → ResolveMethod →
      Option String → ResolveResult)
    (σ : ModuleRegistryImpl) (S : Path) (ref : Option Path) (opt : ResolveOption)
    (m : ResolveMethod) (raw : Option String) (hopt : opt ≠ ResolveOption.INTERNAL_ONLY)
    (hmiss : σ.missesIndex S opt = true) :
    ModuleRegistryImpl.resolveBody js recurse σ S ref opt m raw
      = σ.resolveFallback js recurse S ref opt m raw := by
  unfold ModuleRegistryImpl.resolveBody
  cases opt with
  | INTERNAL_ONLY => exact absurd rfl hopt
  | BUILTIN_ONLY =>
    simp only [ModuleRegistryImpl.missesIndex, Option.isNone_iff_eq_none] at hmiss
    simp only [hmiss]
  | DEFAULT =>
    simp only [ModuleRegistryImpl.missesIndex, Option.isNone_iff_eq_none, Bool.and_eq_true,
      decide_eq_true_eq] at hmiss
    simp only [hmiss.1, hmiss.2]

/-! ## Repeating a `resolve` -/

theorem Redirects.find_upsert (l : List (String × String)) (key value k : String) :
    Redirects.find (Redirects.upsert l key value) k =
      if k = key then some value else Redirects.find l k := by
  induction l with
  | nil =>
    by_cases h : k = key
    · simp [Redirects.upsert, Redirects.find, h]
    · have h2 : ¬ key = k := fun e => h e.symm
      simp [Redirects.upsert, Redirects.find, h, h2]
  | cons p rest ih =>
    obtain ⟨a, b⟩ := p
    unfold Redirects.upsert
    by_cases ha : a = key
    · subst ha
      by_cases h : k = a
      · subst h; simp [Redirects.find]
      · have h2 : ¬ a = k := fun e => h e.symm
        simp [Redirects.find, h, h2]
    · simp only [ha, if_false]
      by_cases h : a = k
      · subst h
        have h3 : ¬ a = key := ha
        simp [Redirects.find, h3]
      · simp only [Redirects.find, h, if_false]
        exact ih

theorem Keeps.refl_of_eq (σ : ModuleRegistryImpl) (res : ResolveResult)
    (hm : res.2.fallbackServiceRedirects = σ.fallbackServiceRedirects)
    (he : res.2.entries = σ.entries) : Keeps σ res := by
  constructor
  · intro k v h; rw [hm]; exact h
  · intro K t v _ h; rw [he]; exact h

theorem ModuleRegistryImpl.returnModule_keeps (js : Lock) (σ : ModuleRegistryImpl)
    (S : Path) (t : ModuleType) (e : Entry) (ref : Option Path) (m : ResolveMethod)
    (h : Table.find σ.entries S t = some e) : Keeps σ (σ.returnModule js e ref m) := by
  have hk := Table.find_key h
  constructor
  · intro k v hkv
    rw [ModuleRegistryImpl.returnModule_redirects]; exact hkv
  · intro K t2 v _ hnone
    rw [ModuleRegistryImpl.returnModule_entries,
      Table.find_store _ _ _ _ (Entry.module_specifier _ _ _ _) (Entry.module_type _ _ _ _)]
    by_cases hkey : K = e.specifier ∧ t2 = e.type
    · obtain ⟨h1, h2⟩ := hkey
      subst h1; subst h2
      simp [hnone]
    · simp [hkey, hnone]

theorem ModuleRegistryImpl.resolveBody_keeps (js : Lock)
    (recurse : ModuleRegistryImpl → Path → Option Path → ResolveOption → ResolveMethod →
      Option String → ResolveResult)
    (hrec : ∀ σ T ref opt m raw, Keeps σ (recurse σ T ref opt m raw))
    (σ : ModuleRegistryImpl) (S : Path) (ref : Option Path) (opt : ResolveOption)
    (m : ResolveMethod) (raw : Option String) :
    Keeps σ (ModuleRegistryImpl.resolveBody js recurse σ S ref opt m raw) := by
  have hfb : Keeps σ (σ.resolveFallback js recurse S ref opt m raw) := by
    apply ModuleRegistryImpl.resolveFallback_cases
    · intro _ _ _; exact Keeps.refl_of_eq _ _ rfl rfl
    · intro _ target _ _; exact hrec σ target ref _ m raw
    · intro _ _; exact Keeps.refl_of_eq _ _ rfl rfl
    · intro _ _ _ _ _; exact Keeps.refl_of_eq _ _ rfl rfl
    · intro i hmemo _ hfind
      constructor
      · intro k v hkv; exact hkv
      · intro K t v hKv hnone
        simp only [ModuleRegistryImpl.withEntries]
        rw [Table.find_append, hnone]
        have : ¬ (K = S) := by
          intro hKS; rw [hKS, hmemo] at hKv; simp at hKv
        have hS : ¬ S = K := fun e => this e.symm
        simp [Entry.matches, hS]
    · intro s hmemo _ _
      constructor
      · intro k v hkv
        simp only [ModuleRegistryImpl.upsertRedirect, ModuleRegistryImpl.recordRequest]
        rw [Redirects.find_upsert]
        have : ¬ k = S.toString true := by
          intro hk; rw [hk, hmemo] at hkv; simp at hkv
        simp [this, hkv]
      · intro K t v _ hnone; exact hnone
    · intro s target hmemo _ _
      have hr := hrec ((σ.recordRequest ⟨S, ref, m, raw⟩).upsertRedirect (S.toString true) s)
        target ref ResolveOption.DEFAULT m raw
      have hstep : ∀ k v, Redirects.find σ.fallbackServiceRedirects k = some v →
          Redirects.find ((σ.recordRequest ⟨S, ref, m, raw⟩).upsertRedirect
            (S.toString true) s).fallbackServiceRedirects k = some v := by
        intro k v hkv
        simp only [ModuleRegistryImpl.upsertRedirect, ModuleRegistryImpl.recordRequest]
        rw [Redirects.find_upsert]
        have : ¬ k = S.toString true := by
          intro hk; rw [hk, hmemo] at hkv; simp at hkv
        simp [this, hkv]
      constructor
      · intro k v hkv; exact hr.1 k v (hstep k v hkv)
      · intro K t v hKv hnone
        exact hr.2 K t v (hstep _ v hKv) hnone
  unfold ModuleRegistryImpl.resolveBody
  cases opt with
  | INTERNAL_ONLY =>
    dsimp only
    cases h : Table.find σ.entries S ModuleType.INTERNAL with
    | some e => exact ModuleRegistryImpl.returnModule_keeps js σ S _ e ref m h
    | none => exact Keeps.refl_of_eq _ _ rfl rfl
  | BUILTIN_ONLY =>
    dsimp only
    cases h : Table.find σ.entries S ModuleType.BUILTIN with
    | some e => exact ModuleRegistryImpl.returnModule_keeps js σ S _ e ref m h
    | none => exact hfb
  | DEFAULT =>
    dsimp only
    cases h : Table.find σ.entries S ModuleType.BUNDLE with
    | some e => exact ModuleRegistryImpl.returnModule_keeps js σ S _ e ref m h
    | none =>
      dsimp only
      cases h2 : Table.find σ.entries S ModuleType.BUILTIN with
      | some e => exact ModuleRegistryImpl.returnModule_keeps js σ S _ e ref m h2
      | none => exact hfb

/-- A run of `resolve` keeps the pairs of the redirect memo and installs nothing under a
specifier that the memo redirects. -/
theorem ModuleRegistryImpl.resolve_keeps (js : Lock) (fuel : Nat) :
    ∀ (σ : ModuleRegistryImpl) (S : Path) (ref : Option Path) (opt : ResolveOption)
      (m : ResolveMethod) (raw : Option String),
      Keeps σ (ModuleRegistryImpl.resolve js fuel σ S ref opt m raw) := by
  induction fuel with
  | zero =>
    intro σ S ref opt m raw
    exact ModuleRegistryImpl.resolveBody_keeps js _
      (fun σ _ _ _ _ _ => Keeps.refl_of_eq σ _ rfl rfl) σ S ref opt m raw
  | succ n ih =>
    intro σ S ref opt m raw
    exact ModuleRegistryImpl.resolveBody_keeps js _ ih σ S ref opt m raw

/-- Returning the module of an entry that is instantiated changes nothing. -/
theorem ModuleRegistryImpl.returnModule_of_instantiated (js : Lock) (σ : ModuleRegistryImpl)
    (e : Entry) (ref : Option Path) (m : ResolveMethod) (info : ModuleInfo)
    (hinfo : e.info = Entry.Info.moduleInfo info)
    (hfind : Table.find σ.entries e.specifier e.type = some e) :
    σ.returnModule js e ref m = (Outcome.returned (some ⟨e.specifier, e.type, info⟩), σ) := by
  have hm : e.module js ref m = (.ok (some info), e) := by
    unfold Entry.module
    simp [hinfo]
  unfold ModuleRegistryImpl.returnModule
  simp only [hm, Table.store_self _ _ _ _ hfind]

/-- After `return entry->module(...)` returned a reference, the same lookup and return give the
same reference and change nothing; the other keys of the table are as before. -/
theorem ModuleRegistryImpl.returnModule_repeat (js : Lock) (σ σ2 : ModuleRegistryImpl)
    (S : Path) (t : ModuleType) (e : Entry) (ref : Option Path) (m : ResolveMethod)
    (r : ModuleRef) (h : Table.find σ.entries S t = some e)
    (hret : σ.returnModule js e ref m = (Outcome.returned (some r), σ2)) :
    (∃ e2, Table.find σ2.entries S t = some e2 ∧
      σ2.returnModule js e2 ref m = (Outcome.returned (some r), σ2)) ∧
    (∀ K t2, ¬ (K = S ∧ t2 = t) → Table.find σ2.entries K t2 = Table.find σ.entries K t2) := by
  have hk := Table.find_key h
  have h1 : (σ.returnModule js e ref m).1 = Outcome.returned (some r) := by rw [hret]
  have h2 : σ2 = (σ.returnModule js e ref m).2 := by rw [hret]
  have hr := ModuleRegistryImpl.returnModule_returned h1
  have hinfo := Entry.module_some js e ref m r.module hr.2.2
  have hs := Entry.module_specifier js e ref m
  have ht := Entry.module_type js e ref m
  have hentries : σ2.entries = Table.store σ.entries S t (e.module js ref m).2 := by
    rw [h2, ModuleRegistryImpl.returnModule_entries, hk.1, hk.2]
  have hfind2 : Table.find σ2.entries S t = some (e.module js ref m).2 := by
    rw [hentries, Table.find_store _ _ _ _ (hs.trans hk.1) (ht.trans hk.2)]
    simp [h]
  refine ⟨⟨(e.module js ref m).2, hfind2, ?_⟩, ?_⟩
  · have hfind3 : Table.find σ2.entries (e.module js ref m).2.specifier
        (e.module js ref m).2.type = some (e.module js ref m).2 := by
      rw [hs, ht, hk.1, hk.2]; exact hfind2
    rw [ModuleRegistryImpl.returnModule_of_instantiated js σ2 _ ref m r.module hinfo hfind3]
    have : (⟨(e.module js ref m).2.specifier, (e.module js ref m).2.type, r.module⟩ : ModuleRef)
        = r := by
      cases r with
      | mk a b c =>
        simp only at hr
        simp only [ModuleRef.mk.injEq, and_true]
        exact ⟨hs.trans hr.1.symm, ht.trans hr.2.1.symm⟩
    rw [this]
  · intro K t2 hne
    rw [hentries, Table.find_store _ _ _ _ (hs.trans hk.1) (ht.trans hk.2)]
    simp [hne]

theorem ModuleRegistryImpl.missesIndex_keeps (σ : ModuleRegistryImpl) (res : ResolveResult)
    (S : Path) (opt : ResolveOption) (v : String) (hk : Keeps σ res)
    (hmemo : Redirects.find σ.fallbackServiceRedirects (S.toString true) = some v)
    (hmiss : σ.missesIndex S opt = true) : res.2.missesIndex S opt = true := by
  cases opt with
  | INTERNAL_ONLY =>
    simp only [ModuleRegistryImpl.missesIndex, Option.isNone_iff_eq_none] at hmiss ⊢
    exact hk.2 S _ v hmemo hmiss
  | BUILTIN_ONLY =>
    simp only [ModuleRegistryImpl.missesIndex, Option.isNone_iff_eq_none] at hmiss ⊢
    exact hk.2 S _ v hmemo hmiss
  | DEFAULT =>
    simp only [ModuleRegistryImpl.missesIndex, Option.isNone_iff_eq_none, Bool.and_eq_true,
      decide_eq_true_eq] at hmiss ⊢
    exact ⟨hk.2 S _ v hmemo hmiss.1, hk.2 S _ v hmemo hmiss.2⟩

theorem ModuleRegistryImpl.resolveFallback_repeats (js : Lock)
    (recurse : ModuleRegistryImpl → Path → Option Path → ResolveOption → ResolveMethod →
      Option String → ResolveResult)
    (hrecI : Repeats recurse)
    (hrecK : ∀ σ T ref opt m raw, Keeps σ (recurse σ T ref opt m raw))
    (σ : ModuleRegistryImpl) (S : Path) (ref : Option Path) (opt : ResolveOption)
    (m : ResolveMethod) (raw : Option String)
    (hvis : InstallVisible opt S) (hmiss : σ.missesIndex S opt = true) :
    ∀ r σ2, σ.resolveFallback js recurse S ref opt m raw = (Outcome.returned (some r), σ2) →
      ModuleRegistryImpl.resolveBody js recurse σ2 S ref opt m raw
        = (Outcome.returned (some r), σ2) := by
  have hne : opt ≠ ResolveOption.INTERNAL_ONLY := by
    rcases hvis with h | ⟨h, _⟩ <;> rw [h] <;> simp
  -- the second run, when the memo of the resulting registry redirects the specifier
  have again : ∀ (σ1 σ2 : ModuleRegistryImpl) (v : String) (target : Path) (r : ModuleRef),
      Redirects.find σ1.fallbackServiceRedirects (S.toString true) = some v →
      σ1.missesIndex S opt = true → S.parent.eval v = some target →
      recurse σ1 target ref ResolveOption.DEFAULT m raw = (Outcome.returned (some r), σ2) →
      ModuleRegistryImpl.resolveBody js recurse σ2 S ref opt m raw
        = (Outcome.returned (some r), σ2) := by
    intro σ1 σ2 v target r hmemo1 hmiss1 hev hrun
    have hk := hrecK σ1 target ref ResolveOption.DEFAULT m raw
    rw [hrun] at hk
    have hmemo2 := hk.1 _ _ hmemo1
    have hmiss2 := ModuleRegistryImpl.missesIndex_keeps σ1 _ S opt v hk hmemo1 hmiss1
    simp only at hmemo2 hmiss2
    rw [ModuleRegistryImpl.resolveBody_of_miss js recurse σ2 S ref opt m raw hne hmiss2]
    unfold ModuleRegistryImpl.resolveFallback
    simp only [hmemo2, hev]
    exact hrecI _ _ _ _ _ _ _ hrun
  apply ModuleRegistryImpl.resolveFallback_cases js recurse σ S ref opt m raw
    (fun res => ∀ r σ2, res = (Outcome.returned (some r), σ2) →
      ModuleRegistryImpl.resolveBody js recurse σ2 S ref opt m raw
        = (Outcome.returned (some r), σ2))
  · intro _ _ _ r σ2 h; simp at h
  · intro found target hmemo hev r σ2 hrun
    exact again σ σ2 found target r hmemo hmiss hev hrun
  · intro _ _ r σ2 h; simp at h
  · intro _ _ _ _ _ r σ2 h; simp at h
  · intro i _ _ hfind r σ2 h
    simp only [Prod.mk.injEq, Outcome.returned.injEq, Option.some.injEq] at h
    obtain ⟨hr, hσ⟩ := h
    subst hr; subst hσ
    have hnew : Table.find (σ.entries ++ [⟨S,
        ModuleRegistryImpl.installType opt (S.toString true),
        Entry.Info.moduleInfo i, []⟩]) S
        (ModuleRegistryImpl.installType opt (S.toString true))
        = some ⟨S, ModuleRegistryImpl.installType opt (S.toString true),
          Entry.Info.moduleInfo i, []⟩ := by
      rw [Table.find_append, hfind]
      simp [Entry.matches]
    have hret := ModuleRegistryImpl.returnModule_of_instantiated js
      ((σ.recordRequest ⟨S, ref, m, raw⟩).withEntries
        (σ.entries ++ [Entry.mk S (ModuleRegistryImpl.installType opt (S.toString true))
          (Entry.Info.moduleInfo i) []]))
      (Entry.mk S (ModuleRegistryImpl.installType opt (S.toString true))
        (Entry.Info.moduleInfo i) [])
      ref m i rfl hnew
    unfold ModuleRegistryImpl.resolveBody
    rcases hvis with h | ⟨h, hB⟩
    · subst h
      have hT : ModuleRegistryImpl.installType ResolveOption.DEFAULT (S.toString true)
          = ModuleType.BUNDLE := by simp [ModuleRegistryImpl.installType]
      rw [hT] at hnew hret ⊢
      simp only [ModuleRegistryImpl.withEntries] at hnew hret ⊢
      simp only [hnew]
      exact hret
    · subst h
      rw [hB] at hnew hret ⊢
      simp only [ModuleRegistryImpl.withEntries] at hnew hret ⊢
      simp only [hnew]
      exact hret
  · intro _ _ _ _ r σ2 h; simp at h
  · intro s target hmemo _ hev r σ2 hrun
    refine again _ σ2 s target r ?_ ?_ hev hrun
    · simp only [ModuleRegistryImpl.upsertRedirect, ModuleRegistryImpl.recordRequest]
      rw [Redirects.find_upsert]
      simp
    · exact hmiss

theorem ModuleRegistryImpl.resolveBody_repeats (js : Lock)
    (recurse : ModuleRegistryImpl → Path → Option Path → ResolveOption → ResolveMethod →
      Option String → ResolveResult)
    (hrecI : Repeats recurse)
    (hrecK : ∀ σ T ref opt m raw, Keeps σ (recurse σ T ref opt m raw))
    (σ σ2 : ModuleRegistryImpl) (S : Path) (ref : Option Path) (opt : ResolveOption)
    (m : ResolveMethod) (raw : Option String) (r : ModuleRef)
    (hvis : opt = ResolveOption.INTERNAL_ONLY ∨ InstallVisible opt S)
    (h : ModuleRegistryImpl.resolveBody js recurse σ S ref opt m raw
      = (Outcome.returned (some r), σ2)) :
    ModuleRegistryImpl.resolveBody js recurse σ2 S ref opt m raw
      = (Outcome.returned (some r), σ2) := by
  cases opt with
  | INTERNAL_ONLY =>
    unfold ModuleRegistryImpl.resolveBody at h ⊢
    dsimp only at h ⊢
    cases hf : Table.find σ.entries S ModuleType.INTERNAL with
    | none => rw [hf] at h; simp at h
    | some e =>
      rw [hf] at h
      obtain ⟨⟨e2, hf2, hret2⟩, _⟩ :=
        ModuleRegistryImpl.returnModule_repeat js σ σ2 S _ e ref m r hf h
      rw [hf2]; exact hret2
  | BUILTIN_ONLY =>
    have hv : InstallVisible ResolveOption.BUILTIN_ONLY S := by
      rcases hvis with h | h
      · simp at h
      · exact h
    cases hf : Table.find σ.entries S ModuleType.BUILTIN with
    | none =>
      have hmiss : σ.missesIndex S ResolveOption.BUILTIN_ONLY = true := by
        simp [ModuleRegistryImpl.missesIndex, hf]
      rw [ModuleRegistryImpl.resolveBody_of_miss js recurse σ S ref _ m raw (by simp) hmiss] at h
      exact ModuleRegistryImpl.resolveFallback_repeats js recurse hrecI hrecK σ S ref _ m raw
        hv hmiss r σ2 h
    | some e =>
      unfold ModuleRegistryImpl.resolveBody at h ⊢
      dsimp only at h ⊢
      rw [hf] at h
      obtain ⟨⟨e2, hf2, hret2⟩, _⟩ :=
        ModuleRegistryImpl.returnModule_repeat js σ σ2 S _ e ref m r hf h
      rw [hf2]; exact hret2
  | DEFAULT =>
    have hv : InstallVisible ResolveOption.DEFAULT S := Or.inl rfl
    cases hf : Table.find σ.entries S ModuleType.BUNDLE with
    | some e =>
      unfold ModuleRegistryImpl.resolveBody at h ⊢
      dsimp only at h ⊢
      rw [hf] at h
      obtain ⟨⟨e2, hf2, hret2⟩, _⟩ :=
        ModuleRegistryImpl.returnModule_repeat js σ σ2 S _ e ref m r hf h
      rw [hf2]; exact hret2
    | none =>
      cases hf2 : Table.find σ.entries S ModuleType.BUILTIN with
      | none =>
        have hmiss : σ.missesIndex S ResolveOption.DEFAULT = true := by
          simp [ModuleRegistryImpl.missesIndex, hf, hf2]
        rw [ModuleRegistryImpl.resolveBody_of_miss js recurse σ S ref _ m raw (by simp) hmiss]
          at h
        exact ModuleRegistryImpl.resolveFallback_repeats js recurse hrecI hrecK σ S ref _ m raw
          hv hmiss r σ2 h
      | some e =>
        unfold ModuleRegistryImpl.resolveBody at h ⊢
        dsimp only at h ⊢
        rw [hf] at h
        dsimp only at h
        rw [hf2] at h
        obtain ⟨⟨e2, hf3, hret2⟩, hother⟩ :=
          ModuleRegistryImpl.returnModule_repeat js σ σ2 S _ e ref m r hf2 h
        have hb : Table.find σ2.entries S ModuleType.BUNDLE = none := by
          rw [hother S ModuleType.BUNDLE (by simp), hf]
        rw [hb]
        dsimp only
        rw [hf3]; exact hret2

/-- Every run of `resolve` with `DEFAULT` repeats its answer. -/
theorem ModuleRegistryImpl.resolve_repeats_default (js : Lock) (fuel : Nat) :
    Repeats (ModuleRegistryImpl.resolve js fuel) := by
  induction fuel with
  | zero =>
    intro σ T ref m raw r σ2 h
    exact ModuleRegistryImpl.resolveBody_repeats js _
      (fun _ _ _ _ _ _ _ h => by simp at h)
      (fun σ _ _ _ _ _ => Keeps.refl_of_eq σ _ rfl rfl) σ σ2 T ref _ m raw r
      (Or.inr (Or.inl rfl)) h
  | succ n ih =>
    intro σ T ref m raw r σ2 h
    exact ModuleRegistryImpl.resolveBody_repeats js _ ih
      (ModuleRegistryImpl.resolve_keeps js n) σ σ2 T ref _ m raw r (Or.inr (Or.inl rfl)) h

/-- Idempotence of `resolve` where the code achieves it: under `DEFAULT` and `INTERNAL_ONLY`,
and under `BUILTIN_ONLY` for a specifier that the fallback installation would put in the
`BUILTIN` namespace, a run that returned a reference returns the same reference when it is made
again, and the second run changes nothing and makes no fallback request. -/
theorem ModuleRegistryImpl.resolve_repeats (js : Lock) (fuel : Nat)
    (σ σ2 : ModuleRegistryImpl) (S : Path) (ref : Option Path) (opt : ResolveOption)
    (m : ResolveMethod) (raw : Option String) (r : ModuleRef)
    (hvis : opt = ResolveOption.INTERNAL_ONLY ∨ InstallVisible opt S)
    (h : σ.resolve js fuel S ref opt m raw = (Outcome.returned (some r), σ2)) :
    σ2.resolve js fuel S ref opt m raw = (Outcome.returned (some r), σ2) := by
  cases fuel with
  | zero =>
    exact ModuleRegistryImpl.resolveBody_repeats js _
      (fun _ _ _ _ _ _ _ h => by simp at h)
      (fun σ _ _ _ _ _ => Keeps.refl_of_eq σ _ rfl rfl) σ σ2 S ref opt m raw r hvis h
  | succ n =>
    exact ModuleRegistryImpl.resolveBody_repeats js _
      (ModuleRegistryImpl.resolve_repeats_default js n)
      (ModuleRegistryImpl.resolve_keeps js n) σ σ2 S ref opt m raw r hvis h

/-! ## `resolve` without the `INTERNAL` entries -/

theorem Table.find_publicRows (rows : List Entry) (S : Path) (t : ModuleType)
    (ht : t ≠ ModuleType.INTERNAL) :
    Table.find (Table.publicRows rows) S t = Table.find rows S t := by
  induction rows with
  | nil => rfl
  | cons old rows ih =>
    unfold Table.publicRows at ih ⊢
    by_cases hold : old.matches S t = true
    · have hk := (Entry.matches_iff _ _ _).1 hold
      have h2 : ¬ old.type = ModuleType.INTERNAL := by rw [hk.2]; exact ht
      simp [List.filter_cons, h2, Table.find, hold]
    · by_cases hi : old.type = ModuleType.INTERNAL
      · simp only [List.filter_cons, hi, decide_True, Bool.not_true, Table.find, hold]
        simpa using ih
      · simp only [List.filter_cons, hi, decide_False, Bool.not_false, if_true, Table.find, hold]
        simpa using ih

theorem Table.publicRows_store (rows : List Entry) (S : Path) (t : ModuleType) (row : Entry)
    (ht : t ≠ ModuleType.INTERNAL) (hrow : row.type = t) :
    Table.publicRows (Table.store rows S t row) = Table.store (Table.publicRows rows) S t row := by
  induction rows with
  | nil => rfl
  | cons old rows ih =>
    unfold Table.publicRows at ih ⊢
    have hr : ¬ row.type = ModuleType.INTERNAL := by rw [hrow]; exact ht
    by_cases hold : old.matches S t = true
    · have hk := (Entry.matches_iff _ _ _).1 hold
      have h2 : ¬ old.type = ModuleType.INTERNAL := by rw [hk.2]; exact ht
      simp [Table.store, hold, List.filter_cons, h2, hr]
    · have hf : old.matches S t = false := by simpa using hold
      by_cases hi : old.type = ModuleType.INTERNAL
      · simp [Table.store, hf, List.filter_cons, hi, ih]
      · simp [Table.store, hf, List.filter_cons, hi, ih]

theorem Table.publicRows_append (rows : List Entry) (row : Entry)
    (hrow : row.type ≠ ModuleType.INTERNAL) :
    Table.publicRows (rows ++ [row]) = Table.publicRows rows ++ [row] := by
  simp [Table.publicRows, List.filter_append, List.filter_cons, hrow]

theorem ModuleRegistryImpl.returnModule_withoutInternal (js : Lock) (σ : ModuleRegistryImpl)
    (S : Path) (t : ModuleType) (e : Entry) (ref : Option Path) (m : ResolveMethod)
    (h : Table.find σ.entries S t = some e) (ht : t ≠ ModuleType.INTERNAL) :
    σ.withoutInternal.returnModule js e ref m
      = ((σ.returnModule js e ref m).1, (σ.returnModule js e ref m).2.withoutInternal) := by
  have hk := Table.find_key h
  have hst : Table.publicRows (Table.store σ.entries e.specifier e.type (e.module js ref m).2)
      = Table.store (Table.publicRows σ.entries) e.specifier e.type (e.module js ref m).2 :=
    Table.publicRows_store _ _ _ _ (by rw [hk.2]; exact ht) (Entry.module_type _ _ _ _)
  unfold ModuleRegistryImpl.returnModule
  dsimp only
  split <;>
    simp [ModuleRegistryImpl.withoutInternal, ModuleRegistryImpl.withEntries, hst]

theorem ModuleRegistryImpl.resolveBody_blind (js : Lock)
    (recurse : ModuleRegistryImpl → Path → Option Path → ResolveOption → ResolveMethod →
      Option String → ResolveResult)
    (hrec : BlindToInternal recurse)
    (σ : ModuleRegistryImpl) (S : Path) (ref : Option Path) (opt : ResolveOption)
    (m : ResolveMethod) (raw : Option String) (hopt : opt ≠ ResolveOption.INTERNAL_ONLY) :
    ModuleRegistryImpl.resolveBody js recurse σ.withoutInternal S ref opt m raw
      = ((ModuleRegistryImpl.resolveBody js recurse σ S ref opt m raw).1,
        (ModuleRegistryImpl.resolveBody js recurse σ S ref opt m raw).2.withoutInternal) := by
  have hfb : σ.withoutInternal.resolveFallback js recurse S ref opt m raw
      = ((σ.resolveFallback js recurse S ref opt m raw).1,
        (σ.resolveFallback js recurse S ref opt m raw).2.withoutInternal) := by
    have hN := ModuleRegistryImpl.installType_ne_internal opt (S.toString true)
    apply ModuleRegistryImpl.resolveFallback_cases js recurse σ S ref opt m raw
      (fun res => σ.withoutInternal.resolveFallback js recurse S ref opt m raw
        = (res.1, res.2.withoutInternal))
    · intro found hmemo hev
      unfold ModuleRegistryImpl.resolveFallback
      simp [ModuleRegistryImpl.withoutInternal, ModuleRegistryImpl.withEntries, hmemo, hev]
    · intro found target hmemo hev
      have := hrec σ target ref m raw
      unfold ModuleRegistryImpl.resolveFallback
      simp only [ModuleRegistryImpl.withoutInternal, ModuleRegistryImpl.withEntries] at this ⊢
      simp only [hmemo, hev]
      exact this
    · intro hmemo hfb
      unfold ModuleRegistryImpl.resolveFallback
      simp [ModuleRegistryImpl.withoutInternal, ModuleRegistryImpl.withEntries, hmemo, hfb,
        ModuleRegistryImpl.recordRequest]
    · intro i e hmemo hfb hfind
      have hfind2 := (Table.find_publicRows σ.entries S _ hN).trans hfind
      unfold ModuleRegistryImpl.resolveFallback
      simp [ModuleRegistryImpl.withoutInternal, ModuleRegistryImpl.withEntries, hmemo, hfb,
        ModuleRegistryImpl.recordRequest, Table.insert, hfind2]
    · intro i hmemo hfb hfind
      have hfind2 := (Table.find_publicRows σ.entries S _ hN).trans hfind
      have hnew : Table.find (Table.publicRows σ.entries ++ [Entry.mk S
          (ModuleRegistryImpl.installType opt (S.toString true))
          (Entry.Info.moduleInfo i) []]) S
          (ModuleRegistryImpl.installType opt (S.toString true))
          = some (Entry.mk S (ModuleRegistryImpl.installType opt (S.toString true))
            (Entry.Info.moduleInfo i) []) := by
        rw [Table.find_append, hfind2]
        simp [Entry.matches]
      have happ := Table.publicRows_append σ.entries (Entry.mk S
          (ModuleRegistryImpl.installType opt (S.toString true))
          (Entry.Info.moduleInfo i) []) hN
      unfold ModuleRegistryImpl.resolveFallback
      simp only [ModuleRegistryImpl.withoutInternal, ModuleRegistryImpl.withEntries, hmemo, hfb,
        ModuleRegistryImpl.recordRequest, Table.insert, hfind2, hnew, happ]
      unfold ModuleRegistryImpl.returnModule
      simp only [Entry.module, Table.store_self _ _ _ _ hnew]
    · intro s hmemo hfb hev
      unfold ModuleRegistryImpl.resolveFallback
      simp [ModuleRegistryImpl.withoutInternal, ModuleRegistryImpl.withEntries, hmemo, hfb,
        ModuleRegistryImpl.recordRequest, ModuleRegistryImpl.upsertRedirect, hev]
    · intro s target hmemo hfb hev
      have := hrec ((σ.recordRequest ⟨S, ref, m, raw⟩).upsertRedirect (S.toString true) s)
        target ref m raw
      unfold ModuleRegistryImpl.resolveFallback
      simp only [ModuleRegistryImpl.withoutInternal, ModuleRegistryImpl.withEntries,
        ModuleRegistryImpl.recordRequest, ModuleRegistryImpl.upsertRedirect] at this ⊢
      simp only [hmemo, hfb, hev]
      exact this
  unfold ModuleRegistryImpl.resolveBody
  cases opt with
  | INTERNAL_ONLY => exact absurd rfl hopt
  | BUILTIN_ONLY =>
    dsimp only
    have hf := Table.find_publicRows σ.entries S ModuleType.BUILTIN (by simp)
    have hf2 : Table.find σ.withoutInternal.entries S ModuleType.BUILTIN
        = Table.find σ.entries S ModuleType.BUILTIN := hf
    rw [hf2]
    cases h : Table.find σ.entries S ModuleType.BUILTIN with
    | some e => exact ModuleRegistryImpl.returnModule_withoutInternal js σ S _ e ref m h (by simp)
    | none => exact hfb
  | DEFAULT =>
    dsimp only
    have hf2 : Table.find σ.withoutInternal.entries S ModuleType.BUILTIN
        = Table.find σ.entries S ModuleType.BUILTIN :=
      Table.find_publicRows σ.entries S ModuleType.BUILTIN (by simp)
    have hf3 : Table.find σ.withoutInternal.entries S ModuleType.BUNDLE
        = Table.find σ.entries S ModuleType.BUNDLE :=
      Table.find_publicRows σ.entries S ModuleType.BUNDLE (by simp)
    rw [hf2, hf3]
    cases h : Table.find σ.entries S ModuleType.BUNDLE with
    | some e => exact ModuleRegistryImpl.returnModule_withoutInternal js σ S _ e ref m h (by simp)
    | none =>
      dsimp only
      cases h2 : Table.find σ.entries S ModuleType.BUILTIN with
      | some e =>
        exact ModuleRegistryImpl.returnModule_withoutInternal js σ S _ e ref m h2 (by simp)
      | none => exact hfb

/-- A `resolve` with `DEFAULT` does not see the `INTERNAL` entries. -/
theorem ModuleRegistryImpl.resolve_blind (js : Lock) (fuel : Nat) :
    BlindToInternal (ModuleRegistryImpl.resolve js fuel) := by
  induction fuel with
  | zero =>
    intro σ T ref m raw
    exact ModuleRegistryImpl.resolveBody_blind js _ (fun _ _ _ _ _ => rfl) σ T ref _ m raw
      (by simp)
  | succ n ih =>
    intro σ T ref m raw
    exact ModuleRegistryImpl.resolveBody_blind js _ ih σ T ref _ m raw (by simp)

/-! ## Fallback requests of a run -/

theorem Redirects.find_upsert_none (l : List (String × String)) (key value k : String)
    (h : Redirects.find (Redirects.upsert l key value) k = none) : Redirects.find l k = none := by
  rw [Redirects.find_upsert] at h
  by_cases hk : k = key
  · simp [hk] at h
  · simpa [hk] using h

theorem Asks.of_requests_eq (σ : ModuleRegistryImpl) (res : ResolveResult)
    (h : res.2.fallbackRequests = σ.fallbackRequests) : Asks σ res :=
  ⟨[], by simp [h], by simp⟩

theorem ModuleRegistryImpl.resolveBody_asks (js : Lock)
    (recurse : ModuleRegistryImpl → Path → Option Path → ResolveOption → ResolveMethod →
      Option String → ResolveResult)
    (hrec : ∀ σ T ref opt m raw, Asks σ (recurse σ T ref opt m raw))
    (σ : ModuleRegistryImpl) (S : Path) (ref : Option Path) (opt : ResolveOption)
    (m : ResolveMethod) (raw : Option String) :
    Asks σ (ModuleRegistryImpl.resolveBody js recurse σ S ref opt m raw) := by
  have hfb : Asks σ (σ.resolveFallback js recurse S ref opt m raw) := by
    apply ModuleRegistryImpl.resolveFallback_cases
    · intro _ _ _; exact Asks.of_requests_eq _ _ rfl
    · intro _ target _ _; exact hrec σ target ref _ m raw
    · intro hmemo _
      exact ⟨[⟨S, ref, m, raw⟩], rfl, by simpa using hmemo⟩
    · intro _ _ hmemo _ _
      exact ⟨[⟨S, ref, m, raw⟩], rfl, by simpa using hmemo⟩
    · intro _ hmemo _ _
      exact ⟨[⟨S, ref, m, raw⟩], rfl, by simpa using hmemo⟩
    · intro _ hmemo _ _
      exact ⟨[⟨S, ref, m, raw⟩], rfl, by simpa using hmemo⟩
    · intro s target hmemo _ _
      obtain ⟨extra, hlog, hnew⟩ :=
        hrec ((σ.recordRequest ⟨S, ref, m, raw⟩).upsertRedirect (S.toString true) s)
          target ref ResolveOption.DEFAULT m raw
      refine ⟨⟨S, ref, m, raw⟩ :: extra, ?_, ?_⟩
      · rw [hlog]
        simp [ModuleRegistryImpl.upsertRedirect, ModuleRegistryImpl.recordRequest]
      · intro req hreq
        rcases List.mem_cons.1 hreq with h | h
        · rw [h]; exact hmemo
        · exact Redirects.find_upsert_none _ _ _ _ (hnew req h)
  unfold ModuleRegistryImpl.resolveBody
  cases opt with
  | INTERNAL_ONLY =>
    dsimp only
    cases h : Table.find σ.entries S ModuleType.INTERNAL with
    | some e => exact Asks.of_requests_eq _ _ (ModuleRegistryImpl.returnModule_requests _ _ _ _ _)
    | none => exact Asks.of_requests_eq _ _ rfl
  | BUILTIN_ONLY =>
    dsimp only
    cases h : Table.find σ.entries S ModuleType.BUILTIN with
    | some e => exact Asks.of_requests_eq _ _ (ModuleRegistryImpl.returnModule_requests _ _ _ _ _)
    | none => exact hfb
  | DEFAULT =>
    dsimp only
    cases h : Table.find σ.entries S ModuleType.BUNDLE with
    | some e => exact Asks.of_requests_eq _ _ (ModuleRegistryImpl.returnModule_requests _ _ _ _ _)
    | none =>
      dsimp only
      cases h2 : Table.find σ.entries S ModuleType.BUILTIN with
      | some e => exact Asks.of_requests_eq _ _ (ModuleRegistryImpl.returnModule_requests _ _ _ _ _)
      | none => exact hfb

/-- A run of `resolve` only adds fallback requests, and only for specifiers that the redirect
memo did not hold when the run started. -/
theorem ModuleRegistryImpl.resolve_asks (js : Lock) (fuel : Nat) :
    ∀ (σ : ModuleRegistryImpl) (S : Path) (ref : Option Path) (opt : ResolveOption)
      (m : ResolveMethod) (raw : Option String),
      Asks σ (ModuleRegistryImpl.resolve js fuel σ S ref opt m raw) := by
  induction fuel with
  | zero =>
    intro σ S ref opt m raw
    exact ModuleRegistryImpl.resolveBody_asks js _
      (fun σ _ _ _ _ _ => Asks.of_requests_eq σ _ rfl) σ S ref opt m raw
  | succ n ih =>
    intro σ S ref opt m raw
    exact ModuleRegistryImpl.resolveBody_asks js _ ih σ S ref opt m raw

/-- The first resolve of a specifier that the fallback service redirects, and what it leaves
for a second one, for any continuation that keeps the memo, only asks for specifiers outside
the memo, and repeats its answers. -/
theorem ModuleRegistryImpl.resolveBody_redirected (js : Lock)
    (recurse : ModuleRegistryImpl → Path → Option Path → ResolveOption → ResolveMethod →
      Option String → ResolveResult)
    (hK : ∀ σ T ref opt m raw, Keeps σ (recurse σ T ref opt m raw))
    (hA : ∀ σ T ref opt m raw, Asks σ (recurse σ T ref opt m raw))
    (hR : Repeats recurse)
    (σ : ModuleRegistryImpl) (S : Path) (ref : Option Path) (opt : ResolveOption)
    (m : ResolveMethod) (raw : Option String) (R : String)
    (hopt : opt ≠ ResolveOption.INTERNAL_ONLY)
    (hmiss : σ.missesIndex S opt = true)
    (hmemo : Redirects.find σ.fallbackServiceRedirects (S.toString true) = none)
    (hfb : js.tryResolveFromFallbackService σ.fallbackRequests ⟨S, ref, m, raw⟩
      = some (FallbackResult.redirect R)) :
    (∃ extra, (ModuleRegistryImpl.resolveBody js recurse σ S ref opt m raw).2.fallbackRequests
        = σ.fallbackRequests ++ ⟨S, ref, m, raw⟩ :: extra ∧
      ∀ req ∈ extra, req.specifier.toString true ≠ S.toString true) ∧
    Redirects.find
      (ModuleRegistryImpl.resolveBody js recurse σ S ref opt m raw).2.fallbackServiceRedirects
      (S.toString true) = some R ∧
    (∀ r, (ModuleRegistryImpl.resolveBody js recurse σ S ref opt m raw).1
        = Outcome.returned (some r) →
      ModuleRegistryImpl.resolveBody js recurse
          (ModuleRegistryImpl.resolveBody js recurse σ S ref opt m raw).2 S ref opt m raw
        = (Outcome.returned (some r),
          (ModuleRegistryImpl.resolveBody js recurse σ S ref opt m raw).2)) := by
  have hnoted : Redirects.find ((σ.recordRequest ⟨S, ref, m, raw⟩).upsertRedirect
      (S.toString true) R).fallbackServiceRedirects (S.toString true) = some R := by
    simp only [ModuleRegistryImpl.upsertRedirect, ModuleRegistryImpl.recordRequest]
    rw [Redirects.find_upsert]
    simp
  rw [ModuleRegistryImpl.resolveBody_of_miss js recurse σ S ref opt m raw hopt hmiss]
  cases hev : S.parent.eval R with
  | none =>
    have hfirst : σ.resolveFallback js recurse S ref opt m raw
        = (Outcome.threw (Exception.kjException "invalid path"),
          (σ.recordRequest ⟨S, ref, m, raw⟩).upsertRedirect (S.toString true) R) := by
      unfold ModuleRegistryImpl.resolveFallback
      simp only [hmemo, hfb, hev]
    rw [hfirst]
    refine ⟨⟨[], rfl, by simp⟩, hnoted, ?_⟩
    intro r hr
    simp at hr
  | some target =>
    have hfirst : σ.resolveFallback js recurse S ref opt m raw
        = recurse ((σ.recordRequest ⟨S, ref, m, raw⟩).upsertRedirect (S.toString true) R)
          target ref ResolveOption.DEFAULT m raw := by
      unfold ModuleRegistryImpl.resolveFallback
      simp only [hmemo, hfb, hev]
    rw [hfirst]
    have hk := hK ((σ.recordRequest ⟨S, ref, m, raw⟩).upsertRedirect (S.toString true) R)
      target ref ResolveOption.DEFAULT m raw
    obtain ⟨extra, hlog, hnew⟩ :=
      hA ((σ.recordRequest ⟨S, ref, m, raw⟩).upsertRedirect (S.toString true) R)
        target ref ResolveOption.DEFAULT m raw
    have hmemo2 := hk.1 _ _ hnoted
    have hmiss2 := ModuleRegistryImpl.missesIndex_keeps _ _ S opt R hk hnoted hmiss
    refine ⟨⟨extra, ?_, ?_⟩, hmemo2, ?_⟩
    · rw [hlog]
      simp [ModuleRegistryImpl.upsertRedirect, ModuleRegistryImpl.recordRequest]
    · intro req hreq heq
      have := hnew req hreq
      rw [heq, hnoted] at this
      simp at this
    · intro r hr
      rw [ModuleRegistryImpl.resolveBody_of_miss js recurse _ S ref opt m raw hopt hmiss2]
      unfold ModuleRegistryImpl.resolveFallback
      simp only [hmemo2, hev]
      apply hR
      exact Prod.ext hr rfl

/-! ## Reverse lookup -/

theorem Table.findModule_unique (rows : List Entry) (E : Entry) (info : ModuleInfo)
    (hE : E ∈ rows) (hinfo : E.info = Entry.Info.moduleInfo info)
    (huniq : ∀ E2 ∈ rows, ∀ info2, E2.info = Entry.Info.moduleInfo info2 →
      info2.module = info.module → E2 = E) :
    Table.findModule rows info.module = some ⟨E.specifier, E.type, info⟩ := by
  induction rows with
  | nil => simp at hE
  | cons e rest ih =>
    unfold Table.findModule
    cases he : e.info with
    | moduleInfo i =>
      simp only [Entry.Info.tryGet]
      by_cases hm : i.module = info.module
      · have heq : e = E := huniq e (by simp) i he hm
        subst heq
        rw [he] at hinfo
        cases hinfo
        simp
      · simp only [hm, if_false]
        have hne : E ≠ e := by
          intro h; subst h; rw [he] at hinfo; cases hinfo; exact hm rfl
        have hE2 : E ∈ rest := by
          rcases List.mem_cons.1 hE with h | h
          · exact absurd h hne
          · exact h
        exact ih hE2 (fun E2 h2 => huniq E2 (List.mem_cons_of_mem _ h2))
    | source s =>
      simp only [Entry.Info.tryGet]
      have hne : E ≠ e := by
        intro h; subst h; rw [he] at hinfo; cases hinfo
      have hE2 : E ∈ rest := by
        rcases List.mem_cons.1 hE with h | h
        · exact absurd h hne
        · exact h
      exact ih hE2 (fun E2 h2 => huniq E2 (List.mem_cons_of_mem _ h2))
    | callback f =>
      simp only [Entry.Info.tryGet]
      have hne : E ≠ e := by
        intro h; subst h; rw [he] at hinfo; cases hinfo
      have hE2 : E ∈ rest := by
        rcases List.mem_cons.1 hE with h | h
        · exact absurd h hne
        · exact h
      exact ih hE2 (fun E2 h2 => huniq E2 (List.mem_cons_of_mem _ h2))

theorem Table.findModule_none (rows : List Entry) (H : Nat)
    (h : ∀ E ∈ rows, ∀ info, E.info = Entry.Info.moduleInfo info → info.module ≠ H) :
    Table.findModule rows H = none := by
  induction rows with
  | nil => rfl
  | cons e rest ih =>
    unfold Table.findModule
    have ih2 := ih (fun E hE => h E (List.mem_cons_of_mem _ hE))
    cases he : e.info with
    | moduleInfo i =>
      have := h e (by simp) i he
      simp [Entry.Info.tryGet, this, ih2]
    | source s => simpa [Entry.Info.tryGet] using ih2
    | callback f => simpa [Entry.Info.tryGet] using ih2

theorem Table.findModule_some (rows : List Entry) (H : Nat) (r : ModuleRef)
    (h : Table.findModule rows H = some r) :
    r.module.module = H ∧
      ∃ E ∈ rows, E.info = Entry.Info.moduleInfo r.module ∧ E.specifier = r.specifier ∧
        E.type = r.type := by
  induction rows with
  | nil => simp [Table.findModule] at h
  | cons e rest ih =>
    unfold Table.findModule at h
    cases he : e.info with
    | moduleInfo i =>
      simp only [he, Entry.Info.tryGet] at h
      by_cases hm : i.module = H
      · simp only [hm, if_true, Option.some.injEq] at h
        subst h
        exact ⟨hm, e, by simp, he, rfl, rfl⟩
      · simp only [hm, if_false] at h
        obtain ⟨h1, E, hE, h2⟩ := ih h
        exact ⟨h1, E, List.mem_cons_of_mem _ hE, h2⟩
    | source s =>
      simp only [he, Entry.Info.tryGet] at h
      obtain ⟨h1, E, hE, h2⟩ := ih h
      exact ⟨h1, E, List.mem_cons_of_mem _ hE, h2⟩
    | callback f =>
      simp only [he, Entry.Info.tryGet] at h
      obtain ⟨h1, E, hE, h2⟩ := ih h
      exact ⟨h1, E, List.mem_cons_of_mem _ hE, h2⟩

/-! ## Keys of the table -/

theorem Table.find_none_iff (rows : List Entry) (S : Path) (t : ModuleType) :
    Table.find rows S t = none ↔ (S, t) ∉ rows.map Entry.key := by
  induction rows with
  | nil => simp [Table.find]
  | cons e rest ih =>
    unfold Table.find
    by_cases hm : e.matches S t = true
    · have hk := (Entry.matches_iff _ _ _).1 hm
      simp [hm, Entry.key, hk.1, hk.2]
    · have hne : ¬ (S, t) = e.key := by
        intro h
        apply hm
        rw [Entry.matches_iff]
        simp only [Entry.key, Prod.mk.injEq] at h
        exact ⟨h.1.symm, h.2.symm⟩
      have hf : e.matches S t = false := by simpa using hm
      simp only [hf, List.map_cons, List.mem_cons, not_or]
      simp [ih, hne]

theorem Table.keys_store (rows : List Entry) (S : Path) (t : ModuleType) (row : Entry)
    (hs : row.specifier = S) (ht : row.type = t) :
    (Table.store rows S t row).map Entry.key = rows.map Entry.key := by
  induction rows with
  | nil => rfl
  | cons e rest ih =>
    unfold Table.store
    by_cases hm : e.matches S t = true
    · have hk := (Entry.matches_iff _ _ _).1 hm
      simp [hm, Entry.key, hs, ht, hk.1, hk.2]
    · have hf : e.matches S t = false := by simpa using hm
      simp [hf, ih]

theorem KeysGrow.of_entries_eq (σ next : ModuleRegistryImpl) (h : next.entries = σ.entries) :
    KeysGrow σ next := Or.inl (by rw [h])

theorem KeysGrow.keepsUnique {σ next : ModuleRegistryImpl} (h : KeysGrow σ next)
    (hu : Table.UniqueKeys σ.entries) : Table.UniqueKeys next.entries := by
  unfold Table.UniqueKeys at hu ⊢
  rcases h with h | ⟨k, hk, h⟩
  · rw [h]; exact hu
  · rw [h]
    rw [List.nodup_append]
    refine ⟨hu, by simp, ?_⟩
    intro a ha hb
    simp only [List.mem_singleton] at hb
    subst hb
    exact hk ha

theorem Table.insert_ok {rows rows2 : List Entry} {row : Entry}
    (h : Table.insert rows row = .ok rows2) :
    row.key ∉ rows.map Entry.key ∧ rows2 = rows ++ [row] := by
  unfold Table.insert at h
  cases hf : Table.find rows row.specifier row.type with
  | some e => simp [hf] at h
  | none =>
    simp only [hf] at h
    cases h
    exact ⟨(Table.find_none_iff rows _ _).1 hf, rfl⟩

theorem Table.insert_error {rows : List Entry} {row : Entry} {ex : Exception}
    (h : Table.insert rows row = .error ex) : row.key ∈ rows.map Entry.key := by
  unfold Table.insert at h
  cases hf : Table.find rows row.specifier row.type with
  | some e =>
    by_contra hn
    rw [(Table.find_none_iff rows _ _).2 hn] at hf
    cases hf
  | none => simp [hf] at h

/-- A successful insertion call adds exactly one row, under a key that was not present. -/
theorem ModuleRegistryImpl.insertOne_ok {σ next : ModuleRegistryImpl} {op : Insertion}
    (h : σ.insertOne op = .ok next) :
    ∃ row, row.key ∉ σ.entries.map Entry.key ∧ next.entries = σ.entries ++ [row] ∧
      next.fallbackServiceRedirects = σ.fallbackServiceRedirects ∧
      next.fallbackRequests = σ.fallbackRequests ∧
      next.dynamicImportHandler = σ.dynamicImportHandler := by
  cases op with
  | add specifier info =>
    simp only [ModuleRegistryImpl.insertOne, ModuleRegistryImpl.add] at h
    split at h
    · cases h
    · rename_i rows hins
      cases h
      obtain ⟨h1, h2⟩ := Table.insert_ok hins
      exact ⟨_, h1, h2, rfl, rfl, rfl⟩
  | addBuiltinModule specifier sourceCode type compileCache =>
    simp only [ModuleRegistryImpl.insertOne, ModuleRegistryImpl.addBuiltinModule] at h
    split at h
    · cases h
    · split at h
      · cases h
      · split at h
        · cases h
        · rename_i rows hins
          cases h
          obtain ⟨h1, h2⟩ := Table.insert_ok hins
          exact ⟨_, h1, h2, rfl, rfl, rfl⟩
  | addBuiltinModuleCallback specifier factory type =>
    simp only [ModuleRegistryImpl.insertOne, ModuleRegistryImpl.addBuiltinModuleCallback] at h
    split at h
    · cases h
    · split at h
      · cases h
      · split at h
        · cases h
        · rename_i rows hins
          cases h
          obtain ⟨h1, h2⟩ := Table.insert_ok hins
          exact ⟨_, h1, h2, rfl, rfl, rfl⟩

theorem ModuleRegistryImpl.returnModule_keysGrow (js : Lock) (σ : ModuleRegistryImpl)
    (e : Entry) (ref : Option Path) (m : ResolveMethod) :
    KeysGrow σ (σ.returnModule js e ref m).2 := by
  left
  rw [ModuleRegistryImpl.returnModule_entries]
  exact Table.keys_store _ _ _ _ (Entry.module_specifier _ _ _ _) (Entry.module_type _ _ _ _)

theorem ModuleRegistryImpl.resolveBody_keysGrow (js : Lock)
    (recurse : ModuleRegistryImpl → Path → Option Path → ResolveOption → ResolveMethod →
      Option String → ResolveResult)
    (hrec : ∀ σ T ref opt m raw, KeysGrow σ (recurse σ T ref opt m raw).2)
    (σ : ModuleRegistryImpl) (S : Path) (ref : Option Path) (opt : ResolveOption)
    (m : ResolveMethod) (raw : Option String) :
    KeysGrow σ (ModuleRegistryImpl.resolveBody js recurse σ S ref opt m raw).2 := by
  have hfb : KeysGrow σ (σ.resolveFallback js recurse S ref opt m raw).2 := by
    apply ModuleRegistryImpl.resolveFallback_cases js recurse σ S ref opt m raw
      (fun res => KeysGrow σ res.2)
    · intro _ _ _; exact KeysGrow.of_entries_eq _ _ rfl
    · intro _ target _ _; exact hrec σ target ref _ m raw
    · intro _ _; exact KeysGrow.of_entries_eq _ _ rfl
    · intro _ _ _ _ _; exact KeysGrow.of_entries_eq _ _ rfl
    · intro i _ _ hfind
      right
      refine ⟨(S, ModuleRegistryImpl.installType opt (S.toString true)),
        (Table.find_none_iff _ _ _).1 hfind, ?_⟩
      simp [ModuleRegistryImpl.withEntries, Entry.key]
    · intro _ _ _ _; exact KeysGrow.of_entries_eq _ _ rfl
    · intro s target _ _ _
      exact hrec ((σ.recordRequest ⟨S, ref, m, raw⟩).upsertRedirect (S.toString true) s)
        target ref _ m raw
  unfold ModuleRegistryImpl.resolveBody
  cases opt with
  | INTERNAL_ONLY =>
    dsimp only
    cases h : Table.find σ.entries S ModuleType.INTERNAL with
    | some e => exact ModuleRegistryImpl.returnModule_keysGrow js σ e ref m
    | none => exact KeysGrow.of_entries_eq _ _ rfl
  | BUILTIN_ONLY =>
    dsimp only
    cases h : Table.find σ.entries S ModuleType.BUILTIN with
    | some e => exact ModuleRegistryImpl.returnModule_keysGrow js σ e ref m
    | none => exact hfb
  | DEFAULT =>
    dsimp only
    cases h : Table.find σ.entries S ModuleType.BUNDLE with
    | some e => exact ModuleRegistryImpl.returnModule_keysGrow js σ e ref m
    | none =>
      dsimp only
      cases h2 : Table.find σ.entries S ModuleType.BUILTIN with
      | some e => exact ModuleRegistryImpl.returnModule_keysGrow js σ e ref m
      | none => exact hfb

/-- A run of `resolve` leaves the keys of the table as they are or adds one new key. -/
theorem ModuleRegistryImpl.resolve_keysGrow (js : Lock) (fuel : Nat) :
    ∀ (σ : ModuleRegistryImpl) (S : Path) (ref : Option Path) (opt : ResolveOption)
      (m : ResolveMethod) (raw : Option String),
      KeysGrow σ (ModuleRegistryImpl.resolve js fuel σ S ref opt m raw).2 := by
  induction fuel with
  | zero =>
    intro σ S ref opt m raw
    exact ModuleRegistryImpl.resolveBody_keysGrow js _
      (fun σ _ _ _ _ _ => KeysGrow.of_entries_eq σ _ rfl) σ S ref opt m raw
  | succ n ih =>
    intro σ S ref opt m raw
    exact ModuleRegistryImpl.resolveBody_keysGrow js _ ih σ S ref opt m raw

theorem ModuleRegistryImpl.resolveDynamicImport_state (js : Lock) (fuel : Nat)
    (σ : ModuleRegistryImpl) (specifier referrer : Path) (raw : String) :
    (σ.resolveDynamicImport js fuel specifier referrer raw).2
      = (σ.resolve js fuel specifier (some referrer) (σ.dynamicImportOption referrer)
          ResolveMethod.IMPORT (some raw)).2 := by
  unfold ModuleRegistryImpl.resolveDynamicImport
  dsimp only
  split
  · rename_i h; rw [h]
  · rename_i h; rw [h]
  · rename_i h; rw [h]
  · rename_i h; rw [h]
    dsimp only
    split
    · split <;> rfl
    · rfl

theorem ModuleRegistryImpl.resolveInternalImport_state (js : Lock) (fuel : Nat)
    (σ : ModuleRegistryImpl) (specifier : String) :
    (σ.resolveInternalImport js fuel specifier).2 = σ ∨
      ∃ path, (σ.resolveInternalImport js fuel specifier).2
        = (σ.resolve js fuel path none ResolveOption.INTERNAL_ONLY ResolveMethod.IMPORT
            (some specifier)).2 := by
  unfold ModuleRegistryImpl.resolveInternalImport
  split
  · left; rfl
  · rename_i path _
    right
    refine ⟨path, ?_⟩
    split
    · rename_i h; rw [h]
    · rename_i h; rw [h]
    · rename_i h; rw [h]
    · rename_i h; rw [h]
      dsimp only
      split <;> rfl

theorem dynamicImportCallback_state (js : Lock) (fuel : Nat) (σ : ModuleRegistryImpl)
    (resource_name specifier : String) (import_attributes : List String) :
    (dynamicImportCallback js fuel σ resource_name specifier import_attributes).2 = σ ∨
      (∃ name, (dynamicImportCallback js fuel σ resource_name specifier import_attributes).2
        = (σ.resolveInternalImport js fuel name).2) ∨
      (∃ path referrer raw,
        (dynamicImportCallback js fuel σ resource_name specifier import_attributes).2
          = (σ.resolveDynamicImport js fuel path referrer raw).2) := by
  unfold dynamicImportCallback
  split
  · left; rfl
  · dsimp only
    split
    · right; left
      refine ⟨if js.nodeJsProcessV2Enabled = true then "node-internal:public_process"
        else "node-internal:legacy_process", ?_⟩
      split
      · rename_i h; rw [h]
      · rename_i h; rw [h]
      · rename_i h; rw [h]
    · split
      · left; rfl
      · split
        · rename_i referrerPath specifierPath _ _
          right; right
          refine ⟨specifierPath, referrerPath, nodeSpecifier js specifier, ?_⟩
          split
          · rename_i h; rw [h]
          · rename_i h; rw [h]
          · rename_i h; rw [h]
        · left; rfl

/-- Every registry that the methods can produce has pairwise distinct keys. -/
theorem Reachable.uniqueKeys {σ : ModuleRegistryImpl} (h : Reachable σ) :
    Table.UniqueKeys σ.entries := by
  induction h with
  | new => simp [Table.UniqueKeys, ModuleRegistryImpl.new]
  | setDynamicImportCallback σ func _ ih => exact ih
  | insertOne σ next op _ hop ih =>
    obtain ⟨row, hrow, hnext, _⟩ := ModuleRegistryImpl.insertOne_ok hop
    exact KeysGrow.keepsUnique (Or.inr ⟨row.key, hrow, by rw [hnext]; simp⟩) ih
  | resolve σ js fuel S ref opt m raw _ ih =>
    exact (ModuleRegistryImpl.resolve_keysGrow js fuel σ S ref opt m raw).keepsUnique ih
  | resolveDynamicImport σ js fuel S ref raw _ ih =>
    rw [ModuleRegistryImpl.resolveDynamicImport_state]
    exact (ModuleRegistryImpl.resolve_keysGrow js fuel σ _ _ _ _ _).keepsUnique ih
  | resolveInternalImport σ js fuel name _ ih =>
    rcases ModuleRegistryImpl.resolveInternalImport_state js fuel σ name with h | ⟨p, h⟩
    · rw [h]; exact ih
    · rw [h]
      exact (ModuleRegistryImpl.resolve_keysGrow js fuel σ _ _ _ _ _).keepsUnique ih
  | dynamicImportCallback σ js fuel rn sp attrs _ ih =>
    rcases dynamicImportCallback_state js fuel σ rn sp attrs with h | ⟨name, h⟩ | ⟨p, r, raw, h⟩
    · rw [h]; exact ih
    · rw [h]
      rcases ModuleRegistryImpl.resolveInternalImport_state js fuel σ name with h2 | ⟨p, h2⟩
      · rw [h2]; exact ih
      · rw [h2]
        exact (ModuleRegistryImpl.resolve_keysGrow js fuel σ _ _ _ _ _).keepsUnique ih
    · rw [h, ModuleRegistryImpl.resolveDynamicImport_state]
      exact (ModuleRegistryImpl.resolve_keysGrow js fuel σ _ _ _ _ _).keepsUnique ih

/-! ## The order of the entries -/

theorem Table.find_of_mem {rows : List Entry} (hu : Table.UniqueKeys rows) {e : Entry}
    (he : e ∈ rows) : Table.find rows e.specifier e.type = some e := by
  induction rows with
  | nil => simp at he
  | cons a rest ih =>
    unfold Table.UniqueKeys at hu
    simp only [List.map_cons, List.nodup_cons] at hu
    unfold Table.find
    by_cases hm : a.matches e.specifier e.type = true
    · have hk := (Entry.matches_iff _ _ _).1 hm
      rcases List.mem_cons.1 he with h | h
      · subst h; simp [hm]
      · exfalso
        apply hu.1
        have : a.key = e.key := by simp [Entry.key, hk.1, hk.2]
        rw [this]
        exact List.mem_map_of_mem _ h
    · have hf : a.matches e.specifier e.type = false := by simpa using hm
      rcases List.mem_cons.1 he with h | h
      · subst h
        exfalso; apply hm; rw [Entry.matches_iff]; exact ⟨rfl, rfl⟩
      · simp only [hf]
        exact ih hu.2 h

theorem Table.UniqueKeys.perm {l1 l2 : List Entry} (hp : l1.Perm l2)
    (hu : Table.UniqueKeys l1) : Table.UniqueKeys l2 := by
  unfold Table.UniqueKeys at hu ⊢
  exact (List.Perm.nodup_iff (hp.map Entry.key)).1 hu

theorem Table.find_perm {l1 l2 : List Entry} (hp : l1.Perm l2) (hu : Table.UniqueKeys l1)
    (S : Path) (t : ModuleType) : Table.find l1 S t = Table.find l2 S t := by
  cases h1 : Table.find l1 S t with
  | none =>
    have hn := (Table.find_none_iff l1 S t).1 h1
    have hn2 : (S, t) ∉ l2.map Entry.key := by
      intro h; exact hn ((hp.map Entry.key).mem_iff.2 h)
    exact ((Table.find_none_iff l2 S t).2 hn2).symm
  | some e =>
    have hk := Table.find_key h1
    have hm := Table.find_mem h1
    have := Table.find_of_mem (Table.UniqueKeys.perm hp hu) (hp.mem_iff.1 hm)
    rw [hk.1, hk.2] at this
    exact this.symm

theorem Table.store_eq_map {rows : List Entry} (hu : Table.UniqueKeys rows) (S : Path)
    (t : ModuleType) (row : Entry) :
    Table.store rows S t row = rows.map (fun e => if e.matches S t then row else e) := by
  induction rows with
  | nil => rfl
  | cons a rest ih =>
    unfold Table.UniqueKeys at hu
    simp only [List.map_cons, List.nodup_cons] at hu
    unfold Table.store
    by_cases hm : a.matches S t = true
    · have hk := (Entry.matches_iff _ _ _).1 hm
      simp only [hm, if_true, List.map_cons, List.cons.injEq, true_and]
      symm
      calc List.map (fun e => if e.matches S t = true then row else e) rest
          = List.map (fun e => e) rest := by
            apply List.map_congr_left
            intro e he
            have : ¬ e.matches S t = true := by
              intro hme
              have hke := (Entry.matches_iff _ _ _).1 hme
              apply hu.1
              have : a.key = e.key := by simp [Entry.key, hk.1, hk.2, hke.1, hke.2]
              rw [this]
              exact List.mem_map_of_mem _ he
            simp [this]
        _ = rest := by simp
    · have hf : a.matches S t = false := by simpa using hm
      simp only [hf, List.map_cons]
      simp [ih hu.2]

theorem Table.store_perm {l1 l2 : List Entry} (hp : l1.Perm l2) (hu : Table.UniqueKeys l1)
    (S : Path) (t : ModuleType) (row : Entry) :
    (Table.store l1 S t row).Perm (Table.store l2 S t row) := by
  rw [Table.store_eq_map hu, Table.store_eq_map (Table.UniqueKeys.perm hp hu)]
  exact hp.map _

theorem ModuleRegistryImpl.returnModule_similar (js : Lock) (σ τ : ModuleRegistryImpl)
    (hs : Similar σ τ) (hu : Table.UniqueKeys σ.entries) (e : Entry) (ref : Option Path)
    (m : ResolveMethod) :
    (σ.returnModule js e ref m).1 = (τ.returnModule js e ref m).1 ∧
      Similar (σ.returnModule js e ref m).2 (τ.returnModule js e ref m).2 := by
  refine ⟨?_, ?_, ?_, ?_⟩
  · unfold ModuleRegistryImpl.returnModule
    dsimp only
    split <;> rfl
  · rw [ModuleRegistryImpl.returnModule_entries, ModuleRegistryImpl.returnModule_entries]
    exact Table.store_perm hs.1 hu _ _ _
  · rw [ModuleRegistryImpl.returnModule_redirects, ModuleRegistryImpl.returnModule_redirects]
    exact hs.2.1
  · rw [ModuleRegistryImpl.returnModule_requests, ModuleRegistryImpl.returnModule_requests]
    exact hs.2.2

theorem ModuleRegistryImpl.resolveBody_orderBlind (js : Lock)
    (recurse : ModuleRegistryImpl → Path → Option Path → ResolveOption → ResolveMethod →
      Option String → ResolveResult)
    (hrec : OrderBlind recurse) : OrderBlind (ModuleRegistryImpl.resolveBody js recurse) := by
  intro σ τ hs hu S ref opt m raw
  have hfind : ∀ t, Table.find τ.entries S t = Table.find σ.entries S t :=
    fun t => (Table.find_perm hs.1 hu S t).symm
  have hfb : (σ.resolveFallback js recurse S ref opt m raw).1
        = (τ.resolveFallback js recurse S ref opt m raw).1 ∧
      Similar (σ.resolveFallback js recurse S ref opt m raw).2
        (τ.resolveFallback js recurse S ref opt m raw).2 := by
    apply ModuleRegistryImpl.resolveFallback_cases js recurse σ S ref opt m raw
      (fun res => res.1 = (τ.resolveFallback js recurse S ref opt m raw).1 ∧
        Similar res.2 (τ.resolveFallback js recurse S ref opt m raw).2)
    · intro found hmemo hev
      rw [hs.2.1] at hmemo
      have hτ : τ.resolveFallback js recurse S ref opt m raw
          = (Outcome.threw (Exception.kjException "invalid path"), τ) := by
        unfold ModuleRegistryImpl.resolveFallback
        simp only [hmemo, hev]
      rw [hτ]
      exact ⟨rfl, hs⟩
    · intro found target hmemo hev
      rw [hs.2.1] at hmemo
      have hτ : τ.resolveFallback js recurse S ref opt m raw
          = recurse τ target ref ResolveOption.DEFAULT m raw := by
        unfold ModuleRegistryImpl.resolveFallback
        simp only [hmemo, hev]
      rw [hτ]
      exact hrec σ τ hs hu target ref _ m raw
    · intro hmemo hfb
      rw [hs.2.1] at hmemo
      rw [hs.2.2] at hfb
      have hτ : τ.resolveFallback js recurse S ref opt m raw
          = (Outcome.returned none, τ.recordRequest ⟨S, ref, m, raw⟩) := by
        unfold ModuleRegistryImpl.resolveFallback
        simp only [hmemo, hfb]
      rw [hτ]
      exact ⟨rfl, hs.1, hs.2.1, by simp [ModuleRegistryImpl.recordRequest, hs.2.2]⟩
    · intro i e hmemo hfb hf
      rw [hs.2.1] at hmemo
      rw [hs.2.2] at hfb
      rw [← hfind] at hf
      have hτ : τ.resolveFallback js recurse S ref opt m raw
          = (Outcome.threw (Exception.kjException "inserted row already exists in table"),
            τ.recordRequest ⟨S, ref, m, raw⟩) := by
        unfold ModuleRegistryImpl.resolveFallback
        simp only [hmemo, hfb, Table.insert, ModuleRegistryImpl.recordRequest, hf]
      rw [hτ]
      exact ⟨rfl, hs.1, hs.2.1, by simp [ModuleRegistryImpl.recordRequest, hs.2.2]⟩
    · intro i hmemo hfb hf
      rw [hs.2.1] at hmemo
      rw [hs.2.2] at hfb
      rw [← hfind] at hf
      have hnew : Table.find (τ.entries ++ [Entry.mk S
          (ModuleRegistryImpl.installType opt (S.toString true))
          (Entry.Info.moduleInfo i) []]) S
          (ModuleRegistryImpl.installType opt (S.toString true))
          = some (Entry.mk S (ModuleRegistryImpl.installType opt (S.toString true))
            (Entry.Info.moduleInfo i) []) := by
        rw [Table.find_append, hf]
        simp [Entry.matches]
      have hτ : τ.resolveFallback js recurse S ref opt m raw
          = (Outcome.returned
              (some ⟨S, ModuleRegistryImpl.installType opt (S.toString true), i⟩),
            (τ.recordRequest ⟨S, ref, m, raw⟩).withEntries
              (τ.entries ++ [Entry.mk S (ModuleRegistryImpl.installType opt (S.toString true))
                (Entry.Info.moduleInfo i) []])) := by
        unfold ModuleRegistryImpl.resolveFallback
        simp only [hmemo, hfb, Table.insert, ModuleRegistryImpl.recordRequest, hf,
          ModuleRegistryImpl.withEntries, hnew]
        unfold ModuleRegistryImpl.returnModule
        simp only [Entry.module, Table.store_self _ _ _ _ hnew]
      rw [hτ]
      exact ⟨rfl, hs.1.append_right _, hs.2.1,
        by simp [ModuleRegistryImpl.withEntries, ModuleRegistryImpl.recordRequest, hs.2.2]⟩
    · intro s hmemo hfb hev
      rw [hs.2.1] at hmemo
      rw [hs.2.2] at hfb
      have hτ : τ.resolveFallback js recurse S ref opt m raw
          = (Outcome.threw (Exception.kjException "invalid path"),
            (τ.recordRequest ⟨S, ref, m, raw⟩).upsertRedirect (S.toString true) s) := by
        unfold ModuleRegistryImpl.resolveFallback
        simp only [hmemo, hfb, hev]
      rw [hτ]
      exact ⟨rfl, hs.1, by simp [ModuleRegistryImpl.upsertRedirect,
        ModuleRegistryImpl.recordRequest, hs.2.1], by simp [ModuleRegistryImpl.upsertRedirect,
        ModuleRegistryImpl.recordRequest, hs.2.2]⟩
    · intro s target hmemo hfb hev
      rw [hs.2.1] at hmemo
      rw [hs.2.2] at hfb
      have hτ : τ.resolveFallback js recurse S ref opt m raw
          = recurse ((τ.recordRequest ⟨S, ref, m, raw⟩).upsertRedirect (S.toString true) s)
            target ref ResolveOption.DEFAULT m raw := by
        unfold ModuleRegistryImpl.resolveFallback
        simp only [hmemo, hfb, hev]
      rw [hτ]
      exact hrec ((σ.recordRequest ⟨S, ref, m, raw⟩).upsertRedirect (S.toString true) s)
        ((τ.recordRequest ⟨S, ref, m, raw⟩).upsertRedirect (S.toString true) s)
        ⟨hs.1, by simp [ModuleRegistryImpl.upsertRedirect,
          ModuleRegistryImpl.recordRequest, hs.2.1], by simp [ModuleRegistryImpl.upsertRedirect,
          ModuleRegistryImpl.recordRequest, hs.2.2]⟩ hu target ref _ m raw
  unfold ModuleRegistryImpl.resolveBody
  cases opt with
  | INTERNAL_ONLY =>
    dsimp only
    rw [hfind]
    cases h : Table.find σ.entries S ModuleType.INTERNAL with
    | some e => exact ModuleRegistryImpl.returnModule_similar js σ τ hs hu e ref m
    | none => exact ⟨rfl, hs⟩
  | BUILTIN_ONLY =>
    dsimp only
    rw [hfind]
    cases h : Table.find σ.entries S ModuleType.BUILTIN with
    | some e => exact ModuleRegistryImpl.returnModule_similar js σ τ hs hu e ref m
    | none => exact hfb
  | DEFAULT =>
    dsimp only
    rw [hfind, hfind]
    cases h : Table.find σ.entries S ModuleType.BUNDLE with
    | some e => exact ModuleRegistryImpl.returnModule_similar js σ τ hs hu e ref m
    | none =>
      dsimp only
      cases h2 : Table.find σ.entries S ModuleType.BUILTIN with
      | some e => exact ModuleRegistryImpl.returnModule_similar js σ τ hs hu e ref m
      | none => exact hfb

/-- The outcome of `resolve` does not depend on the order of the entries. -/
theorem ModuleRegistryImpl.resolve_orderBlind (js : Lock) (fuel : Nat) :
    OrderBlind (ModuleRegistryImpl.resolve js fuel) := by
  induction fuel with
  | zero =>
    exact ModuleRegistryImpl.resolveBody_orderBlind js _
      (fun σ τ hs _ _ _ _ _ _ => ⟨rfl, hs⟩)
  | succ n ih => exact ModuleRegistryImpl.resolveBody_orderBlind js _ ih

/-! ## Sequences of insertions -/

theorem ModuleRegistryImpl.insertOne_eq (σ : ModuleRegistryImpl) (op : Insertion) :
    σ.insertOne op =
      match op.row with
      | none =>
        .error (match op with
          | .add _ _ => Exception.kjException "unreachable"
          | .addBuiltinModule _ _ type _ =>
            if type = ModuleType.BUNDLE then
              Exception.kjException "expected type != Type::BUNDLE"
            else Exception.kjException "invalid path"
          | .addBuiltinModuleCallback _ _ type =>
            if type = ModuleType.BUNDLE then
              Exception.kjException "expected type != Type::BUNDLE"
            else Exception.kjException "invalid path")
      | some row =>
        match Table.insert σ.entries row with
        | .error ex => .error ex
        | .ok rows => .ok (σ.withEntries rows) := by
  cases op with
  | add specifier info => rfl
  | addBuiltinModule specifier sourceCode type compileCache =>
    simp only [ModuleRegistryImpl.insertOne, ModuleRegistryImpl.addBuiltinModule, Insertion.row]
    by_cases ht : type = ModuleType.BUNDLE
    · simp [ht]
    · simp only [ht, if_false]
      cases Path.parse specifier with
      | none => rfl
      | some p => rfl
  | addBuiltinModuleCallback specifier factory type =>
    simp only [ModuleRegistryImpl.insertOne, ModuleRegistryImpl.addBuiltinModuleCallback,
      Insertion.row]
    by_cases ht : type = ModuleType.BUNDLE
    · simp [ht]
    · simp only [ht, if_false]
      cases Path.parse specifier with
      | none => rfl
      | some p => rfl

theorem ModuleRegistryImpl.insertOne_ok_row {σ next : ModuleRegistryImpl} {op : Insertion}
    (h : σ.insertOne op = .ok next) :
    ∃ row, op.row = some row ∧ row.key ∉ σ.entries.map Entry.key ∧
      next = σ.withEntries (σ.entries ++ [row]) := by
  rw [ModuleRegistryImpl.insertOne_eq] at h
  cases hr : op.row with
  | none => simp [hr] at h
  | some row =>
    simp only [hr] at h
    cases hi : Table.insert σ.entries row with
    | error ex => simp [hi] at h
    | ok rows =>
      simp only [hi] at h
      obtain ⟨h1, h2⟩ := Table.insert_ok hi
      cases h
      exact ⟨row, rfl, h1, by rw [h2]⟩

theorem ModuleRegistryImpl.insertOne_of_row {σ : ModuleRegistryImpl} {op : Insertion}
    {row : Entry} (hr : op.row = some row) (hk : row.key ∉ σ.entries.map Entry.key) :
    σ.insertOne op = .ok (σ.withEntries (σ.entries ++ [row])) := by
  rw [ModuleRegistryImpl.insertOne_eq]
  simp only [hr]
  have : Table.insert σ.entries row = .ok (σ.entries ++ [row]) := by
    unfold Table.insert
    have hf := (Table.find_none_iff σ.entries row.specifier row.type).2 hk
    simp [hf]
  simp [this]

theorem ModuleRegistryImpl.insertAll_ok (ops : List Insertion) :
    ∀ (σ σ1 : ModuleRegistryImpl), Table.UniqueKeys σ.entries →
      σ.insertAll ops = .ok σ1 →
      (∀ op ∈ ops, op.row.isSome = true) ∧
        ((σ.entries ++ ops.filterMap Insertion.row).map Entry.key).Nodup ∧
        σ1 = σ.withEntries (σ.entries ++ ops.filterMap Insertion.row) := by
  induction ops with
  | nil =>
    intro σ σ1 hu h
    simp only [ModuleRegistryImpl.insertAll] at h
    cases h
    refine ⟨by simp, by simpa using hu, ?_⟩
    simp [ModuleRegistryImpl.withEntries]
  | cons op ops ih =>
    intro σ σ1 hu h
    simp only [ModuleRegistryImpl.insertAll] at h
    cases hop : σ.insertOne op with
    | error ex => simp [hop] at h
    | ok next =>
      simp only [hop] at h
      obtain ⟨row, hr, hk, hnext⟩ := ModuleRegistryImpl.insertOne_ok_row hop
      have hu2 : Table.UniqueKeys next.entries := by
        rw [hnext]
        exact KeysGrow.keepsUnique (σ := σ)
          (Or.inr ⟨row.key, hk, by simp [ModuleRegistryImpl.withEntries]⟩) hu
      obtain ⟨h1, h2, h3⟩ := ih next σ1 hu2 h
      have hfm : (op :: ops).filterMap Insertion.row = row :: ops.filterMap Insertion.row := by
        simp [List.filterMap_cons, hr]
      have hent : next.entries ++ ops.filterMap Insertion.row
          = σ.entries ++ (op :: ops).filterMap Insertion.row := by
        rw [hfm, hnext]
        simp [ModuleRegistryImpl.withEntries]
      refine ⟨?_, ?_, ?_⟩
      · intro op2 hop2
        rcases List.mem_cons.1 hop2 with h | h
        · rw [h, hr]; rfl
        · exact h1 op2 h
      · rw [← hent]; exact h2
      · rw [h3, hent, hnext]
        rfl

theorem ModuleRegistryImpl.insertAll_of_rows (ops : List Insertion) :
    ∀ (σ : ModuleRegistryImpl), (∀ op ∈ ops, op.row.isSome = true) →
      ((σ.entries ++ ops.filterMap Insertion.row).map Entry.key).Nodup →
      σ.insertAll ops = .ok (σ.withEntries (σ.entries ++ ops.filterMap Insertion.row)) := by
  induction ops with
  | nil =>
    intro σ _ _
    simp [ModuleRegistryImpl.insertAll, ModuleRegistryImpl.withEntries]
  | cons op ops ih =>
    intro σ hrows hnd
    obtain ⟨row, hr⟩ := Option.isSome_iff_exists.1 (hrows op (by simp))
    have hfm : (op :: ops).filterMap Insertion.row = row :: ops.filterMap Insertion.row := by
      simp [List.filterMap_cons, hr]
    rw [hfm] at hnd ⊢
    have hk : row.key ∉ σ.entries.map Entry.key := by
      intro hmem
      simp only [List.map_append, List.map_cons] at hnd
      rw [List.nodup_append] at hnd
      exact hnd.2.2 hmem (by simp)
    simp only [ModuleRegistryImpl.insertAll, ModuleRegistryImpl.insertOne_of_row hr hk]
    have hent : (σ.withEntries (σ.entries ++ [row])).entries ++ ops.filterMap Insertion.row
        = σ.entries ++ row :: ops.filterMap Insertion.row := by
      simp [ModuleRegistryImpl.withEntries]
    rw [ih (σ.withEntries (σ.entries ++ [row]))
      (fun op2 h => hrows op2 (List.mem_cons_of_mem _ h)) (by rw [hent]; exact hnd), hent]
    rfl

theorem ModuleRegistryImpl.selectedEntry_key (σ : ModuleRegistryImpl) (S : Path)
    (opt : ResolveOption) (e : Entry) (h : σ.selectedEntry S opt = some e) :
    Table.find σ.entries e.specifier e.type = some e := by
  cases opt with
  | INTERNAL_ONLY =>
    simp only [ModuleRegistryImpl.selectedEntry] at h
    obtain ⟨hs, ht⟩ := Table.find_key h
    rw [hs, ht]; exact h
  | BUILTIN_ONLY =>
    simp only [ModuleRegistryImpl.selectedEntry] at h
    obtain ⟨hs, ht⟩ := Table.find_key h
    rw [hs, ht]; exact h
  | DEFAULT =>
    simp only [ModuleRegistryImpl.selectedEntry] at h
    cases hb : Table.find σ.entries S ModuleType.BUNDLE with
    | some b =>
      rw [hb] at h
      simp only [Option.some.injEq] at h
      subst h
      obtain ⟨hs, ht⟩ := Table.find_key hb
      rw [hs, ht]; exact hb
    | none =>
      rw [hb] at h
      simp only at h
      obtain ⟨hs, ht⟩ := Table.find_key h
      rw [hs, ht]; exact h

theorem ModuleRegistryImpl.resolveBody_selected (js : Lock)
    (recurse : ModuleRegistryImpl → Path → Option Path → ResolveOption → ResolveMethod →
      Option String → ResolveResult)
    (σ : ModuleRegistryImpl) (S : Path) (ref : Option Path) (opt : ResolveOption)
    (m : ResolveMethod) (raw : Option String) (e : Entry)
    (h : σ.selectedEntry S opt = some e) :
    σ.resolveBody js recurse S ref opt m raw = σ.returnModule js e ref m := by
  cases opt with
  | INTERNAL_ONLY =>
    simp only [ModuleRegistryImpl.selectedEntry] at h
    simp only [ModuleRegistryImpl.resolveBody, h]
  | BUILTIN_ONLY =>
    simp only [ModuleRegistryImpl.selectedEntry] at h
    simp only [ModuleRegistryImpl.resolveBody, h]
  | DEFAULT =>
    simp only [ModuleRegistryImpl.selectedEntry] at h
    cases hb : Table.find σ.entries S ModuleType.BUNDLE with
    | some b =>
      rw [hb] at h
      simp only [Option.some.injEq] at h
      subst h
      simp only [ModuleRegistryImpl.resolveBody, hb]
    | none =>
      rw [hb] at h
      simp only at h
      simp only [ModuleRegistryImpl.resolveBody, hb, h]

theorem ModuleRegistryImpl.resolve_selected (js : Lock) (fuel : Nat)
    (σ : ModuleRegistryImpl) (S : Path) (ref : Option Path) (opt : ResolveOption)
    (m : ResolveMethod) (raw : Option String) (e : Entry)
    (h : σ.selectedEntry S opt = some e) :
    σ.resolve js fuel S ref opt m raw = σ.returnModule js e ref m := by
  obtain ⟨recurse, hr⟩ := ModuleRegistryImpl.resolve_eq_body js fuel
  rw [hr]
  exact ModuleRegistryImpl.resolveBody_selected js recurse σ S ref opt m raw e h

/-- When `Entry::module` leaves the selected entry as it is, `resolve` leaves the registry as it
is. -/
theorem ModuleRegistryImpl.returnModule_unchanged (js : Lock) (σ : ModuleRegistryImpl)
    (e : Entry) (ref : Option Path) (m : ResolveMethod)
    (hfind : Table.find σ.entries e.specifier e.type = some e)
    (hsame : (e.module js ref m).2 = e) :
    (σ.returnModule js e ref m).2 = σ := by
  have hst : Table.store σ.entries e.specifier e.type e = σ.entries :=
    Table.store_self _ _ _ _ hfind
  unfold ModuleRegistryImpl.returnModule
  dsimp only
  rw [hsame, hst]
  split <;> rfl

theorem Entry.module_of_instantiated (js : Lock) (e : Entry) (info : ModuleInfo)
    (ref : Option Path) (m : ResolveMethod) (h : e.info = Entry.Info.moduleInfo info) :
    e.module js ref m = (.ok (some info), e) := by
  unfold Entry.module
  rw [h]

/-- One call of `Entry::module` on an entry that is not instantiated: either the entry is left
as it is and no module is returned, or the entry becomes instantiated with the module that is
returned. -/
theorem Entry.module_step (js : Lock) (e : Entry) (ref : Option Path) (m : ResolveMethod)
    (h : e.info.tryGet = none) :
    ((e.module js ref m).2 = e ∧ ∀ info, (e.module js ref m).1 ≠ .ok (some info)) ∨
      ∃ info, e.module js ref m = (.ok (some info), { e with info := Entry.Info.moduleInfo info }) := by
  unfold Entry.module
  cases hi : e.info with
  | moduleInfo info => rw [hi] at h; simp [Entry.Info.tryGet] at h
  | source src =>
    simp only
    cases js.compile e.specifier.toString src e.compileCache ModuleInfoCompileOption.BUILTIN with
    | error ex => left; exact ⟨rfl, fun info hh => by cases hh⟩
    | ok compiled => right; exact ⟨compiled, rfl⟩
  | callback factory =>
    simp only
    cases factory m ref with
    | error ex => left; exact ⟨rfl, fun info hh => by cases hh⟩
    | ok r =>
      cases r with
      | none =>
        left
        refine ⟨rfl, fun info hh => ?_⟩
        simp only [hi, Entry.Info.tryGet] at hh
        cases hh
      | some result => right; exact ⟨result, rfl⟩

theorem Entry.moduleCalls_of_instantiated (e : Entry) (info : ModuleInfo)
    (h : e.info = Entry.Info.moduleInfo info) (calls : List ModuleCall) :
    e.moduleCalls calls = List.replicate calls.length (.ok (some info), e) := by
  induction calls with
  | nil => rfl
  | cons call calls ih =>
    unfold Entry.moduleCalls
    rw [Entry.module_of_instantiated call.js e info call.referrer call.method h]
    simp only [ih, List.length_cons, List.replicate_succ]

theorem Entry.moduleCalls_one_way (e : Entry) (calls : List ModuleCall)
    (h : e.info.tryGet = none) :
    ∃ before count info,
      e.moduleCalls calls = before ++
        List.replicate count (.ok (some info), { e with info := Entry.Info.moduleInfo info }) ∧
      before.length + count = calls.length ∧
      ∀ x ∈ before, x.2 = e ∧ ∀ i, x.1 ≠ .ok (some i) := by
  induction calls with
  | nil => exact ⟨[], 0, ⟨0, none, none⟩, rfl, rfl, by simp⟩
  | cons call calls ih =>
    rcases Entry.module_step call.js e call.referrer call.method h with ⟨hsame, hres⟩ | ⟨info, hinst⟩
    · obtain ⟨before, count, info, htrace, hlen, hall⟩ := ih
      refine ⟨e.module call.js call.referrer call.method :: before, count, info, ?_, ?_, ?_⟩
      · unfold Entry.moduleCalls
        rw [hsame, htrace]
        rfl
      · simp only [List.length_cons]; omega
      · intro x hx
        rcases List.mem_cons.mp hx with hx | hx
        · subst hx; exact ⟨hsame, hres⟩
        · exact hall x hx
    · refine ⟨[], calls.length + 1, info, ?_, by simp, by simp⟩
      unfold Entry.moduleCalls
      rw [hinst]
      simp only [List.nil_append, List.replicate_succ]
      rw [Entry.moduleCalls_of_instantiated _ info rfl calls]

theorem ModuleRegistryImpl.resolve_selfRedirect_service (fuel : Nat) :
    ∀ σ : ModuleRegistryImpl, σ.entries = [] →
      (Redirects.find σ.fallbackServiceRedirects "/a/sibling" = none ∨
        Redirects.find σ.fallbackServiceRedirects "/a/sibling" = some "sibling") →
      (σ.resolve redirectServiceLock fuel ⟨["a", "sibling"]⟩ none ResolveOption.DEFAULT
        ResolveMethod.IMPORT none).1 = Outcome.outOfFuel := by
  have hstr : (Path.mk ["a", "sibling"]).toString true = "/a/sibling" := by decide
  have heval : (Path.mk ["a", "sibling"]).parent.eval "sibling" = some ⟨["a", "sibling"]⟩ := by
    decide
  induction fuel with
  | zero =>
    intro σ he hm
    rw [ModuleRegistryImpl.resolve_zero]
    simp only [ModuleRegistryImpl.resolveBody, he, Table.find,
      ModuleRegistryImpl.resolveFallback, hstr]
    rcases hm with hm | hm
    · simp only [hm, redirectServiceLock, heval]
    · simp only [hm, heval]
  | succ n ih =>
    intro σ he hm
    rw [ModuleRegistryImpl.resolve_succ]
    simp only [ModuleRegistryImpl.resolveBody, he, Table.find,
      ModuleRegistryImpl.resolveFallback, hstr]
    rcases hm with hm | hm
    · simp only [hm, redirectServiceLock, heval]
      apply ih
      · exact he
      · right
        simp [ModuleRegistryImpl.upsertRedirect, ModuleRegistryImpl.recordRequest,
          Redirects.find_upsert]
    · simp only [hm, heval]
      exact ih σ he (Or.inr hm)

theorem ModuleRegistryImpl.resolve_selfRedirect_memo (js : Lock) (fuel : Nat) :
    (selfRedirectRegistry.resolve js fuel ⟨["a", "b"]⟩ none ResolveOption.DEFAULT
      ResolveMethod.IMPORT none).1 = Outcome.outOfFuel := by
  have hstr : (Path.mk ["a", "b"]).toString true = "/a/b" := by decide
  have heval : (Path.mk ["a", "b"]).parent.eval "b" = some ⟨["a", "b"]⟩ := by decide
  have hfind : Redirects.find selfRedirectRegistry.fallbackServiceRedirects "/a/b" = some "b" := by
    decide
  have he : selfRedirectRegistry.entries = [] := rfl
  induction fuel with
  | zero =>
    rw [ModuleRegistryImpl.resolve_zero]
    simp only [ModuleRegistryImpl.resolveBody, he, Table.find,
      ModuleRegistryImpl.resolveFallback, hstr, hfind, heval]
  | succ n ih =>
    rw [ModuleRegistryImpl.resolve_succ]
    simp only [ModuleRegistryImpl.resolveBody, he, Table.find,
      ModuleRegistryImpl.resolveFallback, hstr, hfind, heval]
    exact ih

/-- The body of `resolve` gives the same result with two continuations that agree wherever the
first one does not run out of fuel, unless the result itself is out of fuel. -/
theorem ModuleRegistryImpl.resolveBody_stable (js : Lock)
    (recurse recurse2 : ModuleRegistryImpl → Path → Option Path → ResolveOption →
      ResolveMethod → Option String → ResolveResult)
    (hrec : ∀ σ S ref opt m raw, (recurse σ S ref opt m raw).1 ≠ Outcome.outOfFuel →
      recurse2 σ S ref opt m raw = recurse σ S ref opt m raw)
    (σ : ModuleRegistryImpl) (S : Path) (ref : Option Path) (opt : ResolveOption)
    (m : ResolveMethod) (raw : Option String)
    (h : (σ.resolveBody js recurse S ref opt m raw).1 ≠ Outcome.outOfFuel) :
    σ.resolveBody js recurse2 S ref opt m raw = σ.resolveBody js recurse S ref opt m raw := by
  have hfb : ∀ opt2, (σ.resolveFallback js recurse S ref opt2 m raw).1 ≠ Outcome.outOfFuel →
      σ.resolveFallback js recurse2 S ref opt2 m raw =
        σ.resolveFallback js recurse S ref opt2 m raw := by
    intro opt2 h2
    unfold ModuleRegistryImpl.resolveFallback at h2 ⊢
    dsimp only at h2 ⊢
    cases hmemo : Redirects.find σ.fallbackServiceRedirects (S.toString true) with
    | some found =>
      rw [hmemo] at h2
      dsimp only at h2 ⊢
      cases hev : S.parent.eval found with
      | none => rfl
      | some target =>
        rw [hev] at h2
        exact hrec _ _ _ _ _ _ h2
    | none =>
      rw [hmemo] at h2
      dsimp only at h2 ⊢
      cases hs : js.tryResolveFromFallbackService σ.fallbackRequests ⟨S, ref, m, raw⟩ with
      | none => rfl
      | some r =>
        rw [hs] at h2
        cases r with
        | moduleInfo i => rfl
        | redirect s =>
          dsimp only at h2 ⊢
          cases hev : S.parent.eval s with
          | none => rfl
          | some target =>
            rw [hev] at h2
            exact hrec _ _ _ _ _ _ h2
  unfold ModuleRegistryImpl.resolveBody at h ⊢
  cases opt with
  | INTERNAL_ONLY => rfl
  | BUILTIN_ONLY =>
    dsimp only at h ⊢
    cases hf : Table.find σ.entries S ModuleType.BUILTIN with
    | some e => rfl
    | none =>
      rw [hf] at h
      exact hfb _ h
  | DEFAULT =>
    dsimp only at h ⊢
    cases hf : Table.find σ.entries S ModuleType.BUNDLE with
    | some e => rfl
    | none =>
      rw [hf] at h
      dsimp only at h ⊢
      cases hf2 : Table.find σ.entries S ModuleType.BUILTIN with
      | some e => rfl
      | none =>
        rw [hf2] at h
        exact hfb _ h

/-- A run of `resolve` that returns or throws with some fuel does the same with more fuel. -/
theorem ModuleRegistryImpl.resolve_stable (js : Lock) (fuel : Nat) :
    ∀ (σ : ModuleRegistryImpl) (S : Path) (ref : Option Path) (opt : ResolveOption)
      (m : ResolveMethod) (raw : Option String),
      (σ.resolve js fuel S ref opt m raw).1 ≠ Outcome.outOfFuel →
      σ.resolve js (fuel + 1) S ref opt m raw = σ.resolve js fuel S ref opt m raw := by
  induction fuel with
  | zero =>
    intro σ S ref opt m raw h
    rw [ModuleRegistryImpl.resolve_succ]
    rw [ModuleRegistryImpl.resolve_zero] at h ⊢
    exact ModuleRegistryImpl.resolveBody_stable js _ _
      (fun σ S ref opt m raw hne => absurd rfl hne) σ S ref opt m raw h
  | succ n ih =>
    intro σ S ref opt m raw h
    rw [ModuleRegistryImpl.resolve_succ js (n + 1)]
    rw [ModuleRegistryImpl.resolve_succ js n] at h ⊢
    exact ModuleRegistryImpl.resolveBody_stable js _ _ ih σ S ref opt m raw h

/-- The reverse lookup returns the first row, in table order, that is instantiated with the
handle. -/
theorem Table.findModule_first (front rest : List Entry) (E : Entry) (info : ModuleInfo)
    (hE : E.info = Entry.Info.moduleInfo info)
    (hfront : ∀ B ∈ front, ∀ i, B.info = Entry.Info.moduleInfo i → i.module ≠ info.module) :
    Table.findModule (front ++ E :: rest) info.module = some ⟨E.specifier, E.type, info⟩ := by
  induction front with
  | nil =>
    simp [Table.findModule, hE, Entry.Info.tryGet]
  | cons b bs ih =>
    have ih2 := ih (fun B hB => hfront B (List.mem_cons_of_mem _ hB))
    simp only [List.cons_append]
    unfold Table.findModule
    cases hb : b.info with
    | moduleInfo i =>
      have hne := hfront b (by simp) i hb
      simp [Entry.Info.tryGet, hne, ih2]
    | source s => simpa [Entry.Info.tryGet] using ih2
    | callback f => simpa [Entry.Info.tryGet] using ih2

/-- Claim C1 (precedence). When a specifier `S` has an entry under `(S, BUNDLE)` and one under
`(S, BUILTIN)`: `resolve` with `DEFAULT` is `return entry->module(...)` on the `BUNDLE` entry,
`resolve` with `BUILTIN_ONLY` is the same on the `BUILTIN` entry; an instantiated entry is
returned as it is; every reference returned points into the `BUNDLE` entry, respectively the
`BUILTIN` entry; and `resolve` with `INTERNAL_ONLY` returns a reference into neither of them,
only ever into an `INTERNAL` entry. -/
theorem resolve_precedence (js : Lock) (fuel : Nat) (σ : ModuleRegistryImpl) (S : Path)
    (ref : Option Path) (m : ResolveMethod) (raw : Option String)
    (bundleEntry builtinEntry : Entry)
    (hB : Table.find σ.entries S ModuleType.BUNDLE = some bundleEntry)
    (hI : Table.find σ.entries S ModuleType.BUILTIN = some builtinEntry) :
    σ.resolve js fuel S ref ResolveOption.DEFAULT m raw = σ.returnModule js bundleEntry ref m ∧
    σ.resolve js fuel S ref ResolveOption.BUILTIN_ONLY m raw
      = σ.returnModule js builtinEntry ref m ∧
    (∀ info, bundleEntry.info = Entry.Info.moduleInfo info →
      (σ.resolve js fuel S ref ResolveOption.DEFAULT m raw).1
        = Outcome.returned (some ⟨S, ModuleType.BUNDLE, info⟩)) ∧
    (∀ info, builtinEntry.info = Entry.Info.moduleInfo info →
      (σ.resolve js fuel S ref ResolveOption.BUILTIN_ONLY m raw).1
        = Outcome.returned (some ⟨S, ModuleType.BUILTIN, info⟩)) ∧
    (∀ r, (σ.resolve js fuel S ref ResolveOption.DEFAULT m raw).1 = Outcome.returned (some r) →
      r.specifier = S ∧ r.type = ModuleType.BUNDLE) ∧
    (∀ r, (σ.resolve js fuel S ref ResolveOption.BUILTIN_ONLY m raw).1
        = Outcome.returned (some r) → r.specifier = S ∧ r.type = ModuleType.BUILTIN) ∧
    (∀ r, (σ.resolve js fuel S ref ResolveOption.INTERNAL_ONLY m raw).1
        = Outcome.returned (some r) → r.specifier = S ∧ r.type = ModuleType.INTERNAL) := by
  obtain ⟨recurse, h⟩ := ModuleRegistryImpl.resolve_eq_body js fuel
  have hD : σ.resolve js fuel S ref ResolveOption.DEFAULT m raw
      = σ.returnModule js bundleEntry ref m := by
    rw [h]; simp [ModuleRegistryImpl.resolveBody, hB]
  have hO : σ.resolve js fuel S ref ResolveOption.BUILTIN_ONLY m raw
      = σ.returnModule js builtinEntry ref m := by
    rw [h]; simp [ModuleRegistryImpl.resolveBody, hI]
  have kB := Table.find_key hB
  have kI := Table.find_key hI
  refine ⟨hD, hO, ?_, ?_, ?_, ?_, ?_⟩
  · intro info hinfo
    rw [hD, ModuleRegistryImpl.returnModule_instantiated js σ _ ref m info hinfo, kB.1, kB.2]
  · intro info hinfo
    rw [hO, ModuleRegistryImpl.returnModule_instantiated js σ _ ref m info hinfo, kI.1, kI.2]
  · intro r hr
    rw [hD] at hr
    have := ModuleRegistryImpl.returnModule_returned hr
    exact ⟨this.1.trans kB.1, this.2.1.trans kB.2⟩
  · intro r hr
    rw [hO] at hr
    have := ModuleRegistryImpl.returnModule_returned hr
    exact ⟨this.1.trans kI.1, this.2.1.trans kI.2⟩
  · intro r hr
    rw [ModuleRegistryImpl.resolve_internalOnly_eq] at hr
    split at hr
    · rename_i entry he
      have := ModuleRegistryImpl.returnModule_returned hr
      have k := Table.find_key he
      exact ⟨this.1.trans k.1, this.2.1.trans k.2⟩
    · simp at hr

/-- The scenario "bundle shadows builtin" as an instance of C1. -/
theorem resolve_precedence_witness :
    (shadowRegistry.resolve exampleLock 0 ⟨["x"]⟩ none ResolveOption.DEFAULT
        ResolveMethod.IMPORT none).1
      = Outcome.returned (some ⟨⟨["x"]⟩, ModuleType.BUNDLE, ⟨2, none, none⟩⟩) :=
  (resolve_precedence exampleLock 0 shadowRegistry ⟨["x"]⟩ none ResolveMethod.IMPORT none
    _ _ rfl rfl).2.2.1 _ rfl

/-- Claim C2 (`INTERNAL_ONLY`). When the key `(specifier, INTERNAL)` is absent, `resolve` with
`INTERNAL_ONLY` returns absent and leaves the whole registry, and with it the entries, the
redirect memo and the list of fallback requests, unchanged, whatever the memo holds and
whatever the fallback service would answer. In every case the memo and the list of fallback
requests are unchanged, and the outcome depends on the registry only through the lookup of
`(specifier, INTERNAL)`: a registry that agrees on that lookup gives the same outcome, with any
memo, any fallback service and any fuel. -/
theorem resolve_internal_only (js : Lock) (fuel : Nat) (σ : ModuleRegistryImpl) (S : Path)
    (ref : Option Path) (m : ResolveMethod) (raw : Option String) :
    (Table.find σ.entries S ModuleType.INTERNAL = none →
      σ.resolve js fuel S ref ResolveOption.INTERNAL_ONLY m raw = (Outcome.returned none, σ)) ∧
    (σ.resolve js fuel S ref ResolveOption.INTERNAL_ONLY m raw).2.fallbackServiceRedirects
      = σ.fallbackServiceRedirects ∧
    (σ.resolve js fuel S ref ResolveOption.INTERNAL_ONLY m raw).2.fallbackRequests
      = σ.fallbackRequests ∧
    (∀ (js2 : Lock) (fuel2 : Nat) (σ2 : ModuleRegistryImpl) (raw2 : Option String),
      js2.compile = js.compile →
      Table.find σ2.entries S ModuleType.INTERNAL = Table.find σ.entries S ModuleType.INTERNAL →
      (σ2.resolve js2 fuel2 S ref ResolveOption.INTERNAL_ONLY m raw2).1
        = (σ.resolve js fuel S ref ResolveOption.INTERNAL_ONLY m raw).1) := by
  refine ⟨?_, ?_, ?_, ?_⟩
  · intro h
    rw [ModuleRegistryImpl.resolve_internalOnly_eq, h]
  · rw [ModuleRegistryImpl.resolve_internalOnly_eq]
    split
    · exact ModuleRegistryImpl.returnModule_redirects _ _ _ _ _
    · rfl
  · rw [ModuleRegistryImpl.resolve_internalOnly_eq]
    split
    · exact ModuleRegistryImpl.returnModule_requests _ _ _ _ _
    · rfl
  · intro js2 fuel2 σ2 raw2 hc hfind
    rw [ModuleRegistryImpl.resolve_internalOnly_eq, ModuleRegistryImpl.resolve_internalOnly_eq,
      hfind]
    cases Table.find σ.entries S ModuleType.INTERNAL with
    | none => rfl
    | some e =>
      simp only [ModuleRegistryImpl.returnModule, Entry.module_congr js js2 hc]
      split <;> rfl

/-- An instance of C2: `/x` has no internal entry. -/
theorem resolve_internal_only_witness :
    shadowRegistry.resolve exampleLock 0 ⟨["x"]⟩ none ResolveOption.INTERNAL_ONLY
        ResolveMethod.IMPORT none = (Outcome.returned none, shadowRegistry) :=
  (resolve_internal_only exampleLock 0 shadowRegistry ⟨["x"]⟩ none ResolveMethod.IMPORT
    none).1 rfl

/-- Claim C3 (`INTERNAL` isolation). A `resolve` started with `DEFAULT` or `BUILTIN_ONLY`, with
all the recursive calls it makes, never returns a reference into an entry of the `INTERNAL`
namespace, and the `INTERNAL` rows of the table are the same after the run as before: none is
installed, none is touched. Moreover the run does not see the `INTERNAL` entries at all: made on
the registry without them it has the same outcome and leaves the same registry, up to those
entries. This holds for every registry, fallback service, specifier, referrer and fuel. -/
theorem resolve_never_internal (js : Lock) (fuel : Nat) (σ : ModuleRegistryImpl) (S : Path)
    (ref : Option Path) (opt : ResolveOption) (m : ResolveMethod) (raw : Option String)
    (hopt : opt ≠ ResolveOption.INTERNAL_ONLY) :
    (∀ r, (σ.resolve js fuel S ref opt m raw).1 = Outcome.returned (some r) →
      r.type ≠ ModuleType.INTERNAL) ∧
    Table.internalRows (σ.resolve js fuel S ref opt m raw).2.entries
      = Table.internalRows σ.entries ∧
    σ.withoutInternal.resolve js fuel S ref opt m raw
      = ((σ.resolve js fuel S ref opt m raw).1,
        (σ.resolve js fuel S ref opt m raw).2.withoutInternal) := by
  have key : ∀ fuel σ S ref opt m raw, opt ≠ ResolveOption.INTERNAL_ONLY →
      NoInternal σ (ModuleRegistryImpl.resolve js fuel σ S ref opt m raw) := by
    intro fuel
    induction fuel with
    | zero =>
      intro σ S ref opt m raw hopt
      exact ModuleRegistryImpl.resolveBody_noInternal js _
        (fun _ _ _ _ _ => ⟨by simp, rfl⟩) σ S ref opt m raw hopt
    | succ n ih =>
      intro σ S ref opt m raw hopt
      exact ModuleRegistryImpl.resolveBody_noInternal js _
        (fun σ T ref m raw => ih σ T ref ResolveOption.DEFAULT m raw (by simp)) σ S ref opt m raw
        hopt
  refine ⟨(key fuel σ S ref opt m raw hopt).1, (key fuel σ S ref opt m raw hopt).2, ?_⟩
  cases fuel with
  | zero =>
    exact ModuleRegistryImpl.resolveBody_blind js _ (fun _ _ _ _ _ => rfl) σ S ref opt m raw hopt
  | succ n =>
    exact ModuleRegistryImpl.resolveBody_blind js _ (ModuleRegistryImpl.resolve_blind js n)
      σ S ref opt m raw hopt

/-- An instance of C3: resolved with `DEFAULT`, the name `node-internal:fs` gives the bundle
module of that name and not the internal one. -/
theorem resolve_never_internal_witness :
    (∀ r, (trustRegistry.resolve exampleLock 0 ⟨["node-internal:fs"]⟩ none
        ResolveOption.DEFAULT ResolveMethod.IMPORT none).1 = Outcome.returned (some r) →
      r.type ≠ ModuleType.INTERNAL) ∧
    Table.internalRows (trustRegistry.resolve exampleLock 0 ⟨["node-internal:fs"]⟩ none
        ResolveOption.DEFAULT ResolveMethod.IMPORT none).2.entries
      = Table.internalRows trustRegistry.entries ∧
    trustRegistry.withoutInternal.resolve exampleLock 0 ⟨["node-internal:fs"]⟩ none
        ResolveOption.DEFAULT ResolveMethod.IMPORT none
      = ((trustRegistry.resolve exampleLock 0 ⟨["node-internal:fs"]⟩ none
          ResolveOption.DEFAULT ResolveMethod.IMPORT none).1,
        (trustRegistry.resolve exampleLock 0 ⟨["node-internal:fs"]⟩ none
          ResolveOption.DEFAULT ResolveMethod.IMPORT none).2.withoutInternal) :=
  resolve_never_internal exampleLock 0 trustRegistry ⟨["node-internal:fs"]⟩ none
    ResolveOption.DEFAULT ResolveMethod.IMPORT none (by decide)

/-- Claim C6 (instantiated on return). When `resolve` returns a reference `r`, the resulting
table has under the key of `r` an entry whose artifact is the `ModuleInfo` that `r` points at:
the entry is instantiated, it holds neither source text nor a factory. -/
theorem resolve_returns_instantiated (js : Lock) (fuel : Nat) (σ : ModuleRegistryImpl)
    (S : Path) (ref : Option Path) (opt : ResolveOption) (m : ResolveMethod)
    (raw : Option String) (r : ModuleRef) (σ2 : ModuleRegistryImpl)
    (h : σ.resolve js fuel S ref opt m raw = (Outcome.returned (some r), σ2)) :
    ∃ e, Table.find σ2.entries r.specifier r.type = some e ∧ e ∈ σ2.entries ∧
      e.info = Entry.Info.moduleInfo r.module ∧ e.info.tryGet = some r.module := by
  have key : ∀ fuel σ S ref opt m raw,
      ReturnsInstantiated (ModuleRegistryImpl.resolve js fuel σ S ref opt m raw) := by
    intro fuel
    induction fuel with
    | zero =>
      intro σ S ref opt m raw
      exact ModuleRegistryImpl.resolveBody_returnsInstantiated js _
        (fun _ _ _ _ _ _ r hr => by simp at hr) σ S ref opt m raw
    | succ n ih =>
      intro σ S ref opt m raw
      exact ModuleRegistryImpl.resolveBody_returnsInstantiated js _ ih σ S ref opt m raw
  have hk := key fuel σ S ref opt m raw r (by rw [h])
  rw [h] at hk
  obtain ⟨e, he, hinfo⟩ := hk
  exact ⟨e, he, Table.find_mem he, hinfo, by rw [hinfo]; rfl⟩

/-- An instance of C6: the built-in `/x` is compiled by the `resolve` that returns it. -/
theorem resolve_returns_instantiated_witness :
    ∃ e, Table.find
        (shadowRegistry.resolve exampleLock 0 ⟨["x"]⟩ none ResolveOption.BUILTIN_ONLY
          ResolveMethod.IMPORT none).2.entries ⟨["x"]⟩ ModuleType.BUILTIN = some e ∧
      e ∈ (shadowRegistry.resolve exampleLock 0 ⟨["x"]⟩ none ResolveOption.BUILTIN_ONLY
          ResolveMethod.IMPORT none).2.entries ∧
      e.info = Entry.Info.moduleInfo ⟨16, none, none⟩ ∧
      e.info.tryGet = some ⟨16, none, none⟩ :=
  resolve_returns_instantiated exampleLock 0 shadowRegistry ⟨["x"]⟩ none
    ResolveOption.BUILTIN_ONLY ResolveMethod.IMPORT none
    ⟨⟨["x"]⟩, ModuleType.BUILTIN, ⟨16, none, none⟩⟩ _ rfl

/-- Claim C4 (trust boundary). When the referrer has an entry under `(referrer, BUILTIN)`,
`resolveDynamicImport` resolves with `INTERNAL_ONLY`; the run makes no fallback request and does
not run out of fuel; and a promise it returns is either the rejection "No such module" or the
promise the dynamic import handler made for the module of the entry `(specifier, INTERNAL)`. -/
theorem dynamic_import_trust_boundary (js : Lock) (fuel : Nat) (σ : ModuleRegistryImpl)
    (specifier referrer : Path) (raw : String) (referrerEntry : Entry)
    (href : Table.find σ.entries referrer ModuleType.BUILTIN = some referrerEntry) :
    σ.dynamicImportOption referrer = ResolveOption.INTERNAL_ONLY ∧
    (σ.resolveDynamicImport js fuel specifier referrer raw).2.fallbackRequests
      = σ.fallbackRequests ∧
    (σ.resolveDynamicImport js fuel specifier referrer raw).1 ≠ Outcome.outOfFuel ∧
    (∀ promise,
      (σ.resolveDynamicImport js fuel specifier referrer raw).1 = Outcome.returned promise →
      promise = JsPromise.rejected (JsValue.error (noSuchModuleWithPeriod specifier.toString)) ∨
      ∃ func e info,
        σ.dynamicImportHandler = some func ∧
        Table.find σ.entries specifier ModuleType.INTERNAL = some e ∧
        (e.module js (some referrer) ResolveMethod.IMPORT).1 = .ok (some info) ∧
        func ⟨specifier, ModuleType.INTERNAL, info⟩ = .ok promise) := by
  have hopt : σ.dynamicImportOption referrer = ResolveOption.INTERNAL_ONLY := by
    simp [ModuleRegistryImpl.dynamicImportOption, href]
  have hres := ModuleRegistryImpl.resolve_internalOnly_eq js fuel σ specifier (some referrer)
    ResolveMethod.IMPORT (some raw)
  refine ⟨hopt, ?_⟩
  unfold ModuleRegistryImpl.resolveDynamicImport
  simp only [hopt, hres]
  cases hfind : Table.find σ.entries specifier ModuleType.INTERNAL with
  | none => simp
  | some e =>
    dsimp only
    have hreq := ModuleRegistryImpl.returnModule_requests js σ e (some referrer)
      ResolveMethod.IMPORT
    have hhandler := ModuleRegistryImpl.returnModule_handler js σ e (some referrer)
      ResolveMethod.IMPORT
    have hk := Table.find_key hfind
    cases hret : σ.returnModule js e (some referrer) ResolveMethod.IMPORT with
    | mk out after =>
      rw [hret] at hreq hhandler
      simp only at hreq hhandler
      have hout : (σ.returnModule js e (some referrer) ResolveMethod.IMPORT).1 = out := by
        rw [hret]
      cases out with
      | threw ex => simp [hreq]
      | outOfFuel =>
        exfalso
        unfold ModuleRegistryImpl.returnModule at hout
        dsimp only at hout
        split at hout <;> simp at hout
      | returned r? =>
        cases r? with
        | none => simp [hreq]
        | some r =>
          have hr := ModuleRegistryImpl.returnModule_returned hout
          dsimp only
          rw [hhandler]
          cases hh : σ.dynamicImportHandler with
          | none => simp [hreq]
          | some func =>
            dsimp only
            cases hf : func r with
            | error ex => simp [hreq]
            | ok p =>
              refine ⟨hreq, by simp, ?_⟩
              intro promise hp
              simp at hp
              subst hp
              right
              refine ⟨func, e, r.module, rfl, rfl, hr.2.2, ?_⟩
              have : r = ⟨specifier, ModuleType.INTERNAL, r.module⟩ := by
                cases r with
                | mk s t mi =>
                  simp only at hr
                  simp only [ModuleRef.mk.injEq, and_true]
                  exact ⟨hr.1.trans hk.1, hr.2.1.trans hk.2⟩
              rw [← this, hf]

/-- An instance of C4: a dynamic import from the built-in `node:fs` reaches the internal module
and not the bundle module of the same name. -/
theorem dynamic_import_trust_boundary_witness :
    trustRegistry.dynamicImportOption ⟨["node:fs"]⟩ = ResolveOption.INTERNAL_ONLY ∧
    (trustRegistry.resolveDynamicImport exampleLock 0 ⟨["node-internal:fs"]⟩ ⟨["node:fs"]⟩
        "node-internal:fs").1 = Outcome.returned (JsPromise.fromHandler 7) :=
  ⟨(dynamic_import_trust_boundary exampleLock 0 trustRegistry ⟨["node-internal:fs"]⟩
      ⟨["node:fs"]⟩ "node-internal:fs" _ rfl).1, by decide⟩

/-- Claim C7 fails as stated: with no entry and no fallback answer, `import('/nope')` from the
referrer `a` is rejected with the message `No such module "nope".`, which is not the claimed
`No such module "/nope"`: the text is the resolved path without leading separator, followed by a
period. -/
theorem dynamic_import_missing_message_counterexample :
    Path.parse "a" = some ⟨["a"]⟩ ∧
    (Path.mk ["a"]).parent.eval "/nope" = some ⟨["nope"]⟩ ∧
    (emptyRegistry.resolve exampleLock 0 ⟨["nope"]⟩ (some ⟨["a"]⟩) ResolveOption.DEFAULT
        ResolveMethod.IMPORT (some "/nope")).1 = Outcome.returned none ∧
    (dynamicImportCallback exampleLock 0 emptyRegistry "a" "/nope" []).1
      = Outcome.returned (JsPromise.rejected (JsValue.error "No such module \"nope\".")) ∧
    (dynamicImportCallback exampleLock 0 emptyRegistry "a" "/nope" []).1
      ≠ Outcome.returned (JsPromise.rejected (JsValue.error "No such module \"/nope\"")) := by
  refine ⟨by decide, by decide, by decide, by decide, by decide⟩

/-- Claim C7, amended (missing-module message). For a dynamic import that is not rejected for
its attributes, whose specifier is not `node:process`, whose referrer name and specifier parse,
and whose `resolve` returns absent, the promise is rejected with an error whose message is
`No such module "<path>".`, where `<path>` is the resolved specifier path printed by
`toString()` and the message ends with a period. -/
theorem dynamic_import_missing_message (js : Lock) (fuel : Nat) (σ σ2 : ModuleRegistryImpl)
    (resource_name specifier : String) (import_attributes : List String)
    (referrerPath specifierPath : Path)
    (hattr : (decide (import_attributes.length > 0) &&
      js.throwOnUnrecognizedImportAssertion) = false)
    (hproc : nodeSpecifier js specifier ≠ "node:process")
    (href : Path.parse resource_name = some referrerPath)
    (hspec : (if isReservedSpecifier (nodeSpecifier js specifier) = true then
        Path.parse (nodeSpecifier js specifier)
      else referrerPath.parent.eval (nodeSpecifier js specifier)) = some specifierPath)
    (hres : σ.resolve js fuel specifierPath (some referrerPath)
        (σ.dynamicImportOption referrerPath) ResolveMethod.IMPORT
        (some (nodeSpecifier js specifier)) = (Outcome.returned none, σ2)) :
    dynamicImportCallback js fuel σ resource_name specifier import_attributes
      = (Outcome.returned (JsPromise.rejected
          (JsValue.error ("No such module \"" ++ specifierPath.toString ++ "\"."))), σ2) := by
  have hms : maybeSpecifierPath (nodeSpecifier js specifier) (some referrerPath)
      = .ok (some specifierPath) := by
    unfold maybeSpecifierPath
    by_cases hr : isReservedSpecifier (nodeSpecifier js specifier) = true
    · simp only [hr, if_true] at hspec ⊢
      rw [hspec]
    · rw [if_neg hr] at hspec
      rw [if_neg hr]
      simp only [hspec]
  have hdyn : σ.resolveDynamicImport js fuel specifierPath referrerPath
      (nodeSpecifier js specifier) = (Outcome.returned (JsPromise.rejected
          (JsValue.error (noSuchModuleWithPeriod specifierPath.toString))), σ2) := by
    unfold ModuleRegistryImpl.resolveDynamicImport
    simp only [hres]
  unfold dynamicImportCallback
  simp only [hattr, href, hms, hdyn, hproc]
  simp [noSuchModuleWithPeriod]

/-- An instance of the amended C7: `import('./nope')` from `a/x`. -/
theorem dynamic_import_missing_message_witness :
    dynamicImportCallback exampleLock 0 emptyRegistry "a/x" "./nope" []
      = (Outcome.returned (JsPromise.rejected (JsValue.error
          ("No such module \"" ++ (Path.mk ["a", "nope"]).toString ++ "\"."))),
        emptyRegistry.recordRequest
          ⟨⟨["a", "nope"]⟩, some ⟨["a", "x"]⟩, ResolveMethod.IMPORT, some "./nope"⟩) :=
  dynamic_import_missing_message exampleLock 0 emptyRegistry _ "a/x" "./nope" []
    ⟨["a", "x"]⟩ ⟨["a", "nope"]⟩ rfl (by decide) (by decide) (by decide) rfl

/-- Claim C8 fails as stated. With a referrer name that does not parse, the specifier
`node:process` is still resolved through the registry and the promise is fulfilled with the
namespace of the internal module. And a specifier with a reserved prefix that does not parse
makes `dynamicImportCallback` throw instead of returning a rejected promise. -/
theorem dynamic_import_parse_failure_counterexample :
    Path.parse nulName = none ∧
    dynamicImportCallback exampleLock 0 processRegistry nulName "node:process" []
      = (Outcome.returned (JsPromise.resolved (JsValue.moduleNamespace 5)), processRegistry) ∧
    isReservedSpecifier reservedNulSpecifier = true ∧
    Path.parse reservedNulSpecifier = none ∧
    (dynamicImportCallback exampleLock 0 processRegistry "a" reservedNulSpecifier []).1
      = Outcome.threw (Exception.kjException "invalid path") := by
  refine ⟨by decide, by rfl, by decide, by decide, by decide⟩

/-- Claim C8, amended (parse failures in the trampoline). Take a call that is not rejected for
its attributes and whose specifier is not `node:process`, and leave aside a specifier with a
reserved prefix that does not parse. If the referrer name does not parse, or the specifier has no
reserved prefix and `referrer.parent().eval(specifier)` fails, then `dynamicImportCallback`
returns `makeRejected` of the error `No such module "<specifier>"` with the string the engine
passed, throws nothing, and leaves the registry as it was, the list of fallback requests
included; the result does not depend on the entries or the fuel. When the engine can make a
resolver the promise is the rejected one. -/
theorem dynamic_import_parse_failure (js : Lock) (fuel : Nat) (σ : ModuleRegistryImpl)
    (resource_name specifier : String) (import_attributes : List String)
    (hattr : (decide (import_attributes.length > 0) &&
      js.throwOnUnrecognizedImportAssertion) = false)
    (hproc : nodeSpecifier js specifier ≠ "node:process")
    (hreserved : isReservedSpecifier (nodeSpecifier js specifier) = true →
      (Path.parse (nodeSpecifier js specifier)).isSome = true)
    (hfail : Path.parse resource_name = none ∨
      (isReservedSpecifier (nodeSpecifier js specifier) = false ∧
        ∀ referrerPath, Path.parse resource_name = some referrerPath →
          referrerPath.parent.eval (nodeSpecifier js specifier) = none)) :
    dynamicImportCallback js fuel σ resource_name specifier import_attributes
      = (Outcome.returned
          (makeRejected js (JsValue.error ("No such module \"" ++ specifier ++ "\""))), σ) ∧
    (js.resolverAvailable = true →
      dynamicImportCallback js fuel σ resource_name specifier import_attributes
        = (Outcome.returned
            (JsPromise.rejected (JsValue.error ("No such module \"" ++ specifier ++ "\""))),
          σ)) := by
  have main : dynamicImportCallback js fuel σ resource_name specifier import_attributes
      = (Outcome.returned
          (makeRejected js (JsValue.error ("No such module \"" ++ specifier ++ "\""))), σ) := by
    unfold dynamicImportCallback
    simp only [hattr, hproc]
    by_cases hr : isReservedSpecifier (nodeSpecifier js specifier) = true
    · have hp := hreserved hr
      obtain ⟨p, hp⟩ := Option.isSome_iff_exists.1 hp
      have hms : ∀ mr, maybeSpecifierPath (nodeSpecifier js specifier) mr = .ok (some p) := by
        intro mr
        simp [maybeSpecifierPath, hr, hp]
      rcases hfail with hnone | ⟨hnr, _⟩
      · simp [hms, hnone, noSuchModule]
      · rw [hr] at hnr; simp at hnr
    · have hrf : isReservedSpecifier (nodeSpecifier js specifier) = false := by
        simpa using hr
      cases hrn : Path.parse resource_name with
      | none => simp [maybeSpecifierPath, hrf, noSuchModule]
      | some referrerPath =>
        rcases hfail with hnone | ⟨_, hev⟩
        · rw [hrn] at hnone; simp at hnone
        · simp [maybeSpecifierPath, hrf, hev referrerPath hrn, noSuchModule]
  refine ⟨main, ?_⟩
  intro hav
  rw [main]
  simp [makeRejected, hav]

/-- An instance of the amended C8: `../x` from the referrer `a` leaves the root. -/
theorem dynamic_import_parse_failure_witness :
    dynamicImportCallback exampleLock 0 processRegistry "a" "../x" []
      = (Outcome.returned
          (JsPromise.rejected (JsValue.error ("No such module \"" ++ "../x" ++ "\""))),
        processRegistry) :=
  (dynamic_import_parse_failure exampleLock 0 processRegistry "a" "../x" [] rfl (by decide)
    (by decide) (Or.inr ⟨by decide, fun referrerPath h => by
      have h2 : referrerPath = ⟨["a"]⟩ := by
        have h3 : Path.parse "a" = some ⟨["a"]⟩ := by decide
        rw [h3] at h
        exact (Option.some.inj h).symm
      subst h2
      decide⟩)).2 rfl

/-- Claim C9 fails as stated: with the bundle module `/x` registered, `resolve` of `/x` with
`BUILTIN_ONLY` misses the index and the memo, the fallback service returns a module, and the
insertion under `(/x, BUNDLE)` throws; no entry is installed. -/
theorem resolve_fallback_install_counterexample :
    bundleXRegistry.missesIndex ⟨["x"]⟩ ResolveOption.BUILTIN_ONLY = true ∧
    Redirects.find bundleXRegistry.fallbackServiceRedirects ((Path.mk ["x"]).toString true)
      = none ∧
    moduleServiceLock.tryResolveFromFallbackService bundleXRegistry.fallbackRequests
        ⟨⟨["x"]⟩, none, ResolveMethod.IMPORT, none⟩
      = some (FallbackResult.moduleInfo ⟨9, none, none⟩) ∧
    (bundleXRegistry.resolve moduleServiceLock 0 ⟨["x"]⟩ none ResolveOption.BUILTIN_ONLY
        ResolveMethod.IMPORT none).1
      = Outcome.threw (Exception.kjException "inserted row already exists in table") ∧
    ((bundleXRegistry.resolve moduleServiceLock 0 ⟨["x"]⟩ none ResolveOption.BUILTIN_ONLY
        ResolveMethod.IMPORT none).2.entries.map (fun e => (e.specifier, e.type)))
      = [(⟨["x"]⟩, ModuleType.BUNDLE)] := by
  refine ⟨by decide, by decide, by rfl, by decide, by decide⟩

/-- Claim C9, amended (fallback module installation). For a `resolve` with `DEFAULT` or
`BUILTIN_ONLY` that misses the index and the redirect memo and to which the fallback service
returns a module, the namespace `N` of the installation is `BUILTIN` when the option is
`BUILTIN_ONLY` and `specifier.toString(true)` starts with `/node:`, `/cloudflare:` or
`/workerd:`, and `BUNDLE` otherwise; and provided that, under `BUILTIN_ONLY` with `N = BUNDLE`,
no entry `(specifier, BUNDLE)` is there yet, `resolve` adds exactly one entry, keyed
`(specifier, N)` and holding that module, records one fallback request, and returns the
reference to that entry's module. -/
theorem resolve_fallback_install (js : Lock) (fuel : Nat) (σ : ModuleRegistryImpl) (S : Path)
    (ref : Option Path) (opt : ResolveOption) (m : ResolveMethod) (raw : Option String)
    (i : ModuleInfo)
    (hopt : opt = ResolveOption.DEFAULT ∨ opt = ResolveOption.BUILTIN_ONLY)
    (hmiss : σ.missesIndex S opt = true)
    (hmemo : Redirects.find σ.fallbackServiceRedirects (S.toString true) = none)
    (hfb : js.tryResolveFromFallbackService σ.fallbackRequests ⟨S, ref, m, raw⟩
      = some (FallbackResult.moduleInfo i))
    (hfree : opt = ResolveOption.BUILTIN_ONLY →
      ModuleRegistryImpl.installType opt (S.toString true) = ModuleType.BUNDLE →
      Table.find σ.entries S ModuleType.BUNDLE = none) :
    ModuleRegistryImpl.installType opt (S.toString true)
      = (if opt = ResolveOption.BUILTIN_ONLY ∧
            (startsWith (S.toString true) "/node:" = true ∨
              startsWith (S.toString true) "/cloudflare:" = true ∨
              startsWith (S.toString true) "/workerd:" = true)
          then ModuleType.BUILTIN else ModuleType.BUNDLE) ∧
    σ.resolve js fuel S ref opt m raw
      = (Outcome.returned (some ⟨S, ModuleRegistryImpl.installType opt (S.toString true), i⟩),
        (σ.recordRequest ⟨S, ref, m, raw⟩).withEntries
          (σ.entries ++ [⟨S, ModuleRegistryImpl.installType opt (S.toString true),
            Entry.Info.moduleInfo i, []⟩])) := by
  have hne : opt ≠ ResolveOption.INTERNAL_ONLY := by
    rcases hopt with h | h <;> rw [h] <;> simp
  have hfind : Table.find σ.entries S (ModuleRegistryImpl.installType opt (S.toString true))
      = none := by
    rcases hopt with h | h
    · subst h
      simp only [ModuleRegistryImpl.missesIndex, Option.isNone_iff_eq_none, Bool.and_eq_true,
        decide_eq_true_eq] at hmiss
      simpa [ModuleRegistryImpl.installType] using hmiss.1
    · subst h
      simp only [ModuleRegistryImpl.missesIndex, Option.isNone_iff_eq_none] at hmiss
      by_cases hb : ModuleRegistryImpl.installType ResolveOption.BUILTIN_ONLY (S.toString true)
          = ModuleType.BUNDLE
      · rw [hb]; exact hfree rfl hb
      · have : ModuleRegistryImpl.installType ResolveOption.BUILTIN_ONLY (S.toString true)
            = ModuleType.BUILTIN := by
          unfold ModuleRegistryImpl.installType at hb ⊢
          simp only [if_true] at hb ⊢
          split
          · rfl
          · rename_i hs; simp [hs] at hb
        rw [this]; exact hmiss
  constructor
  · unfold ModuleRegistryImpl.installType
    by_cases ho : opt = ResolveOption.BUILTIN_ONLY
    · simp [ho, or_assoc]
    · simp [ho]
  · obtain ⟨recurse, hbody⟩ := ModuleRegistryImpl.resolve_eq_body js fuel
    rw [hbody, ModuleRegistryImpl.resolveBody_of_miss js recurse σ S ref opt m raw hne hmiss]
    apply ModuleRegistryImpl.resolveFallback_cases
      js recurse σ S ref opt m raw (fun res => res = _)
    · intro found h; rw [hmemo] at h; simp at h
    · intro found _ h; rw [hmemo] at h; simp at h
    · intro _ h; rw [hfb] at h; simp at h
    · intro _ e _ _ h; rw [hfind] at h; simp at h
    · intro i2 _ h _
      rw [hfb] at h
      simp at h
      subst h
      rfl
    · intro s _ h; rw [hfb] at h; simp at h
    · intro s _ _ h; rw [hfb] at h; simp at h

/-- An instance of the amended C9: `node:x` under `BUILTIN_ONLY` is installed as `BUILTIN`. -/
theorem resolve_fallback_install_witness :
    emptyRegistry.resolve moduleServiceLock 0 ⟨["node:x"]⟩ none ResolveOption.BUILTIN_ONLY
        ResolveMethod.IMPORT none
      = (Outcome.returned (some ⟨⟨["node:x"]⟩, ModuleType.BUILTIN, ⟨9, none, none⟩⟩),
        (emptyRegistry.recordRequest ⟨⟨["node:x"]⟩, none, ResolveMethod.IMPORT, none⟩).withEntries
          [⟨⟨["node:x"]⟩, ModuleType.BUILTIN, Entry.Info.moduleInfo ⟨9, none, none⟩, []⟩]) :=
  (resolve_fallback_install moduleServiceLock 0 emptyRegistry ⟨["node:x"]⟩ none
    ResolveOption.BUILTIN_ONLY ResolveMethod.IMPORT none ⟨9, none, none⟩ (Or.inr rfl)
    (by decide) (by decide) rfl (fun _ _ => rfl)).2

/-- Claim C10 fails as stated: resolving `/a/b` from the referrer `/c/x` with the memo entry
`/a/b -> sibling` returns the module `/a/sibling`, the target evaluated against the parent of the
specifier, and not what resolving `/c/sibling`, the target evaluated against the parent of the
referrer, returns. -/
theorem resolve_redirect_target_counterexample :
    redirectRegistry.missesIndex ⟨["a", "b"]⟩ ResolveOption.DEFAULT = true ∧
    Redirects.find redirectRegistry.fallbackServiceRedirects ((Path.mk ["a", "b"]).toString true)
      = some "sibling" ∧
    (Path.mk ["c", "x"]).parent.eval "sibling" = some ⟨["c", "sibling"]⟩ ∧
    (Path.mk ["a", "b"]).parent.eval "sibling" = some ⟨["a", "sibling"]⟩ ∧
    (redirectRegistry.resolve exampleLock 1 ⟨["a", "b"]⟩ (some ⟨["c", "x"]⟩)
        ResolveOption.DEFAULT ResolveMethod.IMPORT none).1
      = Outcome.returned (some ⟨⟨["a", "sibling"]⟩, ModuleType.BUNDLE, ⟨1, none, none⟩⟩) ∧
    (redirectRegistry.resolve exampleLock 0 ⟨["c", "sibling"]⟩ (some ⟨["c", "x"]⟩)
        ResolveOption.DEFAULT ResolveMethod.IMPORT none).1
      = Outcome.returned (some ⟨⟨["c", "sibling"]⟩, ModuleType.BUNDLE, ⟨2, none, none⟩⟩) ∧
    (redirectRegistry.resolve exampleLock 1 ⟨["a", "b"]⟩ (some ⟨["c", "x"]⟩)
        ResolveOption.DEFAULT ResolveMethod.IMPORT none).1
      ≠ (redirectRegistry.resolve exampleLock 0 ⟨["c", "sibling"]⟩ (some ⟨["c", "x"]⟩)
        ResolveOption.DEFAULT ResolveMethod.IMPORT none).1 := by
  refine ⟨by decide, by decide, by decide, by decide, by decide, by decide, by decide⟩

/-- Claim C10, amended (redirect target). When the index lookups miss and a redirect `R` is
followed, found in the memo or freshly returned by the fallback service, the recursive `resolve`
is made with option `DEFAULT`, the same referrer, method and raw specifier, on the path
`specifier.parent().eval(R)`: the target is evaluated against the parent of the specifier being
resolved. In the second case the request is recorded and the memo updated before. -/
theorem resolve_redirect_target (js : Lock) (fuel : Nat) (σ : ModuleRegistryImpl) (S : Path)
    (ref : Option Path) (opt : ResolveOption) (m : ResolveMethod) (raw : Option String)
    (R : String) (target : Path)
    (hopt : opt ≠ ResolveOption.INTERNAL_ONLY)
    (hmiss : σ.missesIndex S opt = true)
    (htarget : S.parent.eval R = some target) :
    (Redirects.find σ.fallbackServiceRedirects (S.toString true) = some R →
      σ.resolve js (fuel + 1) S ref opt m raw
        = σ.resolve js fuel target ref ResolveOption.DEFAULT m raw) ∧
    (Redirects.find σ.fallbackServiceRedirects (S.toString true) = none →
      js.tryResolveFromFallbackService σ.fallbackRequests ⟨S, ref, m, raw⟩
        = some (FallbackResult.redirect R) →
      σ.resolve js (fuel + 1) S ref opt m raw
        = ((σ.recordRequest ⟨S, ref, m, raw⟩).upsertRedirect (S.toString true) R).resolve
            js fuel target ref ResolveOption.DEFAULT m raw) := by
  rw [ModuleRegistryImpl.resolve_succ,
    ModuleRegistryImpl.resolveBody_of_miss js _ σ S ref opt m raw hopt hmiss]
  constructor
  · intro hmemo
    unfold ModuleRegistryImpl.resolveFallback
    simp only [hmemo, htarget]
  · intro hmemo hfb
    unfold ModuleRegistryImpl.resolveFallback
    simp only [hmemo, hfb, htarget]

/-- An instance of the amended C10 on the memo entry `/a/b -> sibling`. -/
theorem resolve_redirect_target_witness :
    redirectRegistry.resolve exampleLock 1 ⟨["a", "b"]⟩ (some ⟨["c", "x"]⟩)
        ResolveOption.DEFAULT ResolveMethod.IMPORT none
      = redirectRegistry.resolve exampleLock 0 ⟨["a", "sibling"]⟩ (some ⟨["c", "x"]⟩)
        ResolveOption.DEFAULT ResolveMethod.IMPORT none :=
  (resolve_redirect_target exampleLock 0 redirectRegistry ⟨["a", "b"]⟩ (some ⟨["c", "x"]⟩)
    ResolveOption.DEFAULT ResolveMethod.IMPORT none "sibling" ⟨["a", "sibling"]⟩ (by decide)
    (by decide) (by decide)).1 (by decide)

/-- Claim C5 at its failing input: with a fallback service that returns a module for `/x`, the
first `resolve` of `/x` with `BUILTIN_ONLY` installs the module under `(/x, BUNDLE)` and returns
it; the same `resolve` made again throws "inserted row already exists in table". -/
theorem resolve_not_idempotent_builtin_only :
    emptyRegistry.resolve moduleServiceLock 0 ⟨["x"]⟩ none ResolveOption.BUILTIN_ONLY
        ResolveMethod.IMPORT none
      = (Outcome.returned (some ⟨⟨["x"]⟩, ModuleType.BUNDLE, ⟨9, none, none⟩⟩),
        (emptyRegistry.recordRequest ⟨⟨["x"]⟩, none, ResolveMethod.IMPORT, none⟩).withEntries
          [⟨⟨["x"]⟩, ModuleType.BUNDLE, Entry.Info.moduleInfo ⟨9, none, none⟩, []⟩]) ∧
    ((emptyRegistry.resolve moduleServiceLock 0 ⟨["x"]⟩ none ResolveOption.BUILTIN_ONLY
        ResolveMethod.IMPORT none).2.resolve moduleServiceLock 0 ⟨["x"]⟩ none
        ResolveOption.BUILTIN_ONLY ResolveMethod.IMPORT none).1
      = Outcome.threw (Exception.kjException "inserted row already exists in table") := by
  refine ⟨by rfl, by decide⟩

/-! ## Properties, continued -/

/-- Claim C11 fails as stated: when the fallback service redirects `/a/b` to `sibling` and has
nothing for `/a/sibling`, the first resolve of `/a/b` makes two fallback requests and the
second makes one more, three in total. -/
theorem resolve_redirect_memoized_counterexample :
    redirectOnceLock.tryResolveFromFallbackService emptyRegistry.fallbackRequests
        ⟨⟨["a", "b"]⟩, some ⟨["a", "x"]⟩, ResolveMethod.IMPORT, none⟩
      = some (FallbackResult.redirect "sibling") ∧
    (emptyRegistry.resolve redirectOnceLock 1 ⟨["a", "b"]⟩ (some ⟨["a", "x"]⟩)
        ResolveOption.DEFAULT ResolveMethod.IMPORT none).2.fallbackRequests
      = [⟨⟨["a", "b"]⟩, some ⟨["a", "x"]⟩, ResolveMethod.IMPORT, none⟩,
         ⟨⟨["a", "sibling"]⟩, some ⟨["a", "x"]⟩, ResolveMethod.IMPORT, none⟩] ∧
    ((emptyRegistry.resolve redirectOnceLock 1 ⟨["a", "b"]⟩ (some ⟨["a", "x"]⟩)
        ResolveOption.DEFAULT ResolveMethod.IMPORT none).2.resolve redirectOnceLock 1
        ⟨["a", "b"]⟩ (some ⟨["a", "x"]⟩) ResolveOption.DEFAULT
        ResolveMethod.IMPORT none).2.fallbackRequests
      = [⟨⟨["a", "b"]⟩, some ⟨["a", "x"]⟩, ResolveMethod.IMPORT, none⟩,
         ⟨⟨["a", "sibling"]⟩, some ⟨["a", "x"]⟩, ResolveMethod.IMPORT, none⟩,
         ⟨⟨["a", "sibling"]⟩, some ⟨["a", "x"]⟩, ResolveMethod.IMPORT, none⟩] := by
  refine ⟨by decide, by decide, by decide⟩

/-- Claim C11, amended (redirect memoization). Let the index lookups and the redirect memo miss
for `S` and let the fallback service answer the request for `S` with a redirect. Then the first
resolve issues exactly one request for `S`, as its first request, and any further request of it
is for another specifier (the redirect target, or a target of that); the second resolve, with
the same referrer, option and method, issues no request for `S`; and when the first resolve
returned a module, the second returns the same module, issues no request at all and leaves the
registry as it is. -/
theorem resolve_redirect_memoized (js : Lock) (fuel : Nat) (σ : ModuleRegistryImpl) (S : Path)
    (ref : Option Path) (opt : ResolveOption) (m : ResolveMethod) (raw : Option String)
    (R : String)
    (hopt : opt ≠ ResolveOption.INTERNAL_ONLY)
    (hmiss : σ.missesIndex S opt = true)
    (hmemo : Redirects.find σ.fallbackServiceRedirects (S.toString true) = none)
    (hfb : js.tryResolveFromFallbackService σ.fallbackRequests ⟨S, ref, m, raw⟩
      = some (FallbackResult.redirect R)) :
    (∃ extra, (σ.resolve js fuel S ref opt m raw).2.fallbackRequests
        = σ.fallbackRequests ++ ⟨S, ref, m, raw⟩ :: extra ∧
      ∀ req ∈ extra, req.specifier.toString true ≠ S.toString true) ∧
    (∃ extra,
      ((σ.resolve js fuel S ref opt m raw).2.resolve js fuel S ref opt m raw).2.fallbackRequests
        = (σ.resolve js fuel S ref opt m raw).2.fallbackRequests ++ extra ∧
      ∀ req ∈ extra, req.specifier.toString true ≠ S.toString true) ∧
    (∀ r, (σ.resolve js fuel S ref opt m raw).1 = Outcome.returned (some r) →
      (σ.resolve js fuel S ref opt m raw).2.resolve js fuel S ref opt m raw
        = (Outcome.returned (some r), (σ.resolve js fuel S ref opt m raw).2)) := by
  have key : (∃ extra, (σ.resolve js fuel S ref opt m raw).2.fallbackRequests
        = σ.fallbackRequests ++ ⟨S, ref, m, raw⟩ :: extra ∧
      ∀ req ∈ extra, req.specifier.toString true ≠ S.toString true) ∧
    Redirects.find (σ.resolve js fuel S ref opt m raw).2.fallbackServiceRedirects
      (S.toString true) = some R ∧
    (∀ r, (σ.resolve js fuel S ref opt m raw).1 = Outcome.returned (some r) →
      (σ.resolve js fuel S ref opt m raw).2.resolve js fuel S ref opt m raw
        = (Outcome.returned (some r), (σ.resolve js fuel S ref opt m raw).2)) := by
    cases fuel with
    | zero =>
      exact ModuleRegistryImpl.resolveBody_redirected js _
        (fun σ _ _ _ _ _ => Keeps.refl_of_eq σ _ rfl rfl)
        (fun σ _ _ _ _ _ => Asks.of_requests_eq σ _ rfl)
        (fun _ _ _ _ _ _ _ h => by simp at h) σ S ref opt m raw R hopt hmiss hmemo hfb
    | succ n =>
      exact ModuleRegistryImpl.resolveBody_redirected js _
        (ModuleRegistryImpl.resolve_keeps js n) (ModuleRegistryImpl.resolve_asks js n)
        (ModuleRegistryImpl.resolve_repeats_default js n) σ S ref opt m raw R hopt hmiss hmemo
        hfb
  refine ⟨key.1, ?_, key.2.2⟩
  obtain ⟨extra, hlog, hnew⟩ := ModuleRegistryImpl.resolve_asks js fuel
    (σ.resolve js fuel S ref opt m raw).2 S ref opt m raw
  refine ⟨extra, hlog, ?_⟩
  intro req hreq heq
  have := hnew req hreq
  rw [heq, key.2.1] at this
  simp at this

/-- The scenario "fallback redirect memoization" as an instance of the amended C11: with
`/a/sibling` registered, the second resolve of `/a/b` returns the same module and changes
nothing. -/
theorem resolve_redirect_memoized_witness :
    (siblingRegistry.resolve redirectOnceLock 1 ⟨["a", "b"]⟩ (some ⟨["a", "x"]⟩)
        ResolveOption.DEFAULT ResolveMethod.IMPORT none).2.resolve redirectOnceLock 1
        ⟨["a", "b"]⟩ (some ⟨["a", "x"]⟩) ResolveOption.DEFAULT ResolveMethod.IMPORT none
      = (Outcome.returned (some ⟨⟨["a", "sibling"]⟩, ModuleType.BUNDLE, ⟨1, none, none⟩⟩),
        (siblingRegistry.resolve redirectOnceLock 1 ⟨["a", "b"]⟩ (some ⟨["a", "x"]⟩)
          ResolveOption.DEFAULT ResolveMethod.IMPORT none).2) :=
  (resolve_redirect_memoized redirectOnceLock 1 siblingRegistry ⟨["a", "b"]⟩
    (some ⟨["a", "x"]⟩) ResolveOption.DEFAULT ResolveMethod.IMPORT none "sibling" (by decide)
    (by decide) (by decide) (by decide)).2.2 _ (by decide)

/-- Claim C18 fails as stated. After `add` was called for `/x` and for `/y` with the same
module handle 2, both entries are instantiated with that handle, and the reverse lookup of the
handle returns the entry `/x`: for the entry `/y` the result is not its own specifier. -/
theorem resolve_by_module_counterexample :
    ModuleRegistryImpl.new.insertAll
        [Insertion.add ⟨["x"]⟩ ⟨2, none, none⟩, Insertion.add ⟨["y"]⟩ ⟨2, none, none⟩]
      = .ok sharedHandleRegistry ∧
    sharedHandleRegistry.entries.map (fun e => (e.specifier, e.type, e.info.tryGet))
      = [(⟨["x"]⟩, ModuleType.BUNDLE, some ⟨2, none, none⟩),
         (⟨["y"]⟩, ModuleType.BUNDLE, some ⟨2, none, none⟩)] ∧
    sharedHandleRegistry.resolveByModule 2
      = some ⟨⟨["x"]⟩, ModuleType.BUNDLE, ⟨2, none, none⟩⟩ ∧
    sharedHandleRegistry.resolveByModule 2
      ≠ some ⟨⟨["y"]⟩, ModuleType.BUNDLE, ⟨2, none, none⟩⟩ := by
  refine ⟨rfl, by decide, by decide, by decide⟩

/-- Claim C18, amended (reverse lookup). The reverse lookup of a handle `H` returns the
`ModuleRef` with the specifier, the type and the module info of the first entry, in the order
of the table, that is instantiated with `H`; for an entry `E` that is the only instantiated
entry with the handle `H` these are the ones of `E`. Whatever the lookup returns is taken from
an instantiated entry of the table with that handle. For a handle that no instantiated entry
holds, entries with source text or a factory included, it returns absent. -/
theorem resolve_by_module (σ : ModuleRegistryImpl) :
    (∀ front E rest info, σ.entries = front ++ E :: rest →
      E.info = Entry.Info.moduleInfo info →
      (∀ B ∈ front, ∀ i, B.info = Entry.Info.moduleInfo i → i.module ≠ info.module) →
      σ.resolveByModule info.module = some ⟨E.specifier, E.type, info⟩) ∧
    (∀ E ∈ σ.entries, ∀ info, E.info = Entry.Info.moduleInfo info →
      (∀ E2 ∈ σ.entries, ∀ info2, E2.info = Entry.Info.moduleInfo info2 →
        info2.module = info.module → E2 = E) →
      σ.resolveByModule info.module = some ⟨E.specifier, E.type, info⟩) ∧
    (∀ H r, σ.resolveByModule H = some r →
      r.module.module = H ∧
        ∃ E ∈ σ.entries, E.info = Entry.Info.moduleInfo r.module ∧
          E.specifier = r.specifier ∧ E.type = r.type) ∧
    (∀ H, (∀ E ∈ σ.entries, ∀ info, E.info = Entry.Info.moduleInfo info → info.module ≠ H) →
      σ.resolveByModule H = none) :=
  ⟨fun front E rest info hsplit hinfo hfront => by
      unfold ModuleRegistryImpl.resolveByModule
      rw [hsplit]
      exact Table.findModule_first front rest E info hinfo hfront,
    fun E hE info hinfo huniq => Table.findModule_unique σ.entries E info hE hinfo huniq,
    fun H r h => Table.findModule_some σ.entries H r h,
    fun H h => Table.findModule_none σ.entries H h⟩

/-- An instance of the amended C18. In the registry of the scenario "bundle shadows builtin"
the built-in `/x`, still source text, is passed over and handle 2 gives the bundle module
`/x`, the first entry with that handle; no entry holds handle 16. -/
theorem resolve_by_module_witness :
    shadowRegistry.resolveByModule 2 = some ⟨⟨["x"]⟩, ModuleType.BUNDLE, ⟨2, none, none⟩⟩ ∧
    shadowRegistry.resolveByModule 16 = none :=
  ⟨(resolve_by_module shadowRegistry).1
      [Entry.mk ⟨["x"]⟩ ModuleType.BUILTIN (Entry.Info.source "export default 1") []]
      (Entry.mk ⟨["x"]⟩ ModuleType.BUNDLE (Entry.Info.moduleInfo ⟨2, none, none⟩) []) []
      ⟨2, none, none⟩ rfl rfl
      (by
        intro B hB i hi
        simp only [List.mem_singleton] at hB
        subst hB
        cases hi),
    (resolve_by_module shadowRegistry).2.2.2 16
      (by
        intro E hE info hinfo
        simp only [shadowRegistry, List.mem_cons, List.mem_singleton, List.not_mem_nil,
          or_false] at hE
        rcases hE with h | h
        · subst h; cases hinfo
        · subst h; cases hinfo; decide)⟩

/-- Claim C19 (key uniqueness). Every registry that the methods of `ModuleRegistryImpl` and the
trampoline produce from a new registry has pairwise distinct keys. A successful call of `add` or
`addBuiltinModule` adds exactly one row, under a key that was not present; a call of `add` that
fails found its key present and leaves no changed registry; and a run of `resolve`, the
installation after a fallback module response included, leaves the keys as they are or adds one
key that was not present. -/
theorem registry_keys_unique :
    (∀ σ, Reachable σ → Table.UniqueKeys σ.entries) ∧
    (∀ (σ next : ModuleRegistryImpl) (op : Insertion), σ.insertOne op = .ok next →
      ∃ row, row.key ∉ σ.entries.map Entry.key ∧ next.entries = σ.entries ++ [row]) ∧
    (∀ (σ : ModuleRegistryImpl) (specifier : Path) (info : ModuleInfo) (ex : Exception),
      σ.add specifier info = .error ex →
      (specifier, ModuleType.BUNDLE) ∈ σ.entries.map Entry.key) ∧
    (∀ (js : Lock) (fuel : Nat) (σ : ModuleRegistryImpl) (S : Path) (ref : Option Path)
      (opt : ResolveOption) (m : ResolveMethod) (raw : Option String),
      (σ.resolve js fuel S ref opt m raw).2.entries.map Entry.key = σ.entries.map Entry.key ∨
        ∃ k, k ∉ σ.entries.map Entry.key ∧
          (σ.resolve js fuel S ref opt m raw).2.entries.map Entry.key
            = σ.entries.map Entry.key ++ [k]) := by
  refine ⟨fun σ h => h.uniqueKeys, ?_, ?_, ?_⟩
  · intro σ next op h
    obtain ⟨row, h1, h2, _⟩ := ModuleRegistryImpl.insertOne_ok h
    exact ⟨row, h1, h2⟩
  · intro σ specifier info ex h
    unfold ModuleRegistryImpl.add at h
    cases hi : Table.insert σ.entries
        ⟨specifier, ModuleType.BUNDLE, Entry.Info.moduleInfo info, []⟩ with
    | ok rows => simp [hi] at h
    | error ex2 => exact Table.insert_error hi
  · intro js fuel σ S ref opt m raw
    exact ModuleRegistryImpl.resolve_keysGrow js fuel σ S ref opt m raw

/-- An instance of C19: the registry of the scenario "bundle shadows builtin" is made by two
insertion calls and has distinct keys. -/
theorem registry_keys_unique_witness : Table.UniqueKeys shadowRegistry.entries :=
  registry_keys_unique.1 shadowRegistry
    (Reachable.insertOne _ _ (Insertion.add ⟨["x"]⟩ ⟨2, none, none⟩)
      (Reachable.insertOne _ _
        (Insertion.addBuiltinModule "x" "export default 1" ModuleType.BUILTIN [])
        Reachable.new rfl) rfl)

/-- Claim C20 (insertion-order independence). Starting from a registry with distinct keys, if a
sequence of insertions by `add` and `addBuiltinModule` succeeds, so that its keys are pairwise
distinct and new, then every permutation of the sequence succeeds too, and the two resulting
registries give the same outcome of `resolve` for every specifier, referrer, option, method and
raw specifier, under the same engine and fallback service, with any fuel. -/
theorem insertion_order_independent (σ0 σ1 : ModuleRegistryImpl)
    (ops1 ops2 : List Insertion) (hu : Table.UniqueKeys σ0.entries) (hp : ops1.Perm ops2)
    (h1 : σ0.insertAll ops1 = .ok σ1) :
    ∃ σ2, σ0.insertAll ops2 = .ok σ2 ∧
      ∀ (js : Lock) (fuel : Nat) (S : Path) (ref : Option Path) (opt : ResolveOption)
        (m : ResolveMethod) (raw : Option String),
        (σ2.resolve js fuel S ref opt m raw).1 = (σ1.resolve js fuel S ref opt m raw).1 := by
  obtain ⟨hrows, hnd, hσ1⟩ := ModuleRegistryImpl.insertAll_ok ops1 σ0 σ1 hu h1
  have hperm : (σ0.entries ++ ops1.filterMap Insertion.row).Perm
      (σ0.entries ++ ops2.filterMap Insertion.row) :=
    List.Perm.append_left _ (hp.filterMap _)
  have hnd2 : ((σ0.entries ++ ops2.filterMap Insertion.row).map Entry.key).Nodup :=
    (List.Perm.nodup_iff (hperm.map Entry.key)).1 hnd
  have h2 := ModuleRegistryImpl.insertAll_of_rows ops2 σ0
    (fun op hop => hrows op (hp.mem_iff.2 hop)) hnd2
  refine ⟨_, h2, ?_⟩
  intro js fuel S ref opt m raw
  have hsim : Similar σ1 (σ0.withEntries (σ0.entries ++ ops2.filterMap Insertion.row)) := by
    rw [hσ1]
    exact ⟨hperm, rfl, rfl⟩
  have hu1 : Table.UniqueKeys σ1.entries := by
    rw [hσ1]; exact hnd
  exact ((ModuleRegistryImpl.resolve_orderBlind js fuel σ1 _ hsim hu1 S ref opt m raw).1).symm

/-- An instance of C20: the two orders of registering `/x` as a built-in and as a bundle
module. -/
theorem insertion_order_independent_witness :
    ∃ σ2, ModuleRegistryImpl.new.insertAll
        [Insertion.add ⟨["x"]⟩ ⟨2, none, none⟩,
         Insertion.addBuiltinModule "x" "export default 1" ModuleType.BUILTIN []] = .ok σ2 ∧
      ∀ (js : Lock) (fuel : Nat) (S : Path) (ref : Option Path) (opt : ResolveOption)
        (m : ResolveMethod) (raw : Option String),
        (σ2.resolve js fuel S ref opt m raw).1
          = (shadowRegistry.resolve js fuel S ref opt m raw).1 :=
  insertion_order_independent ModuleRegistryImpl.new shadowRegistry
    [Insertion.addBuiltinModule "x" "export default 1" ModuleType.BUILTIN [],
     Insertion.add ⟨["x"]⟩ ⟨2, none, none⟩]
    [Insertion.add ⟨["x"]⟩ ⟨2, none, none⟩,
     Insertion.addBuiltinModule "x" "export default 1" ModuleType.BUILTIN []]
    (by simp [Table.UniqueKeys, ModuleRegistryImpl.new]) (List.Perm.swap _ _ _) rfl

/-- Claim C17 fails as stated. With Node.js compatibility on, the specifier `fs`, which has no
reserved prefix, is rewritten to `node:fs`, and the path handed to `resolveDynamicImport` is
`/node:fs`, not `referrer.parent().eval("fs")`, which is `/foo/fs`. And for the specifier
`node:process`, which has a reserved prefix, nothing is handed to `resolveDynamicImport`:
the import is fulfilled through `resolveInternalImport`, where `resolveDynamicImport` on
`Path.parse("node:process")` would reject. -/
theorem dynamic_import_specifier_path_counterexample :
    isReservedSpecifier "fs" = false ∧
    Path.parse "foo/bar" = some ⟨["foo", "bar"]⟩ ∧
    (Path.mk ["foo", "bar"]).parent.eval "fs" = some ⟨["foo", "fs"]⟩ ∧
    (catchDynamicImport compatLock
      (compatRegistry.resolveDynamicImport compatLock 0 ⟨["foo", "fs"]⟩ ⟨["foo", "bar"]⟩ "fs")).1
      = Outcome.returned (JsPromise.fromHandler 2) ∧
    (dynamicImportCallback compatLock 0 compatRegistry "foo/bar" "fs" []).1
      = Outcome.returned (JsPromise.fromHandler 1) ∧
    isReservedSpecifier "node:process" = true ∧
    Path.parse "node:process" = some ⟨["node:process"]⟩ ∧
    (catchDynamicImport exampleLock
      (processRegistry.resolveDynamicImport exampleLock 0 ⟨["node:process"]⟩ ⟨["foo", "bar"]⟩
        "node:process")).1
      = Outcome.returned (JsPromise.rejected
          (JsValue.error "No such module \"node:process\".")) ∧
    (dynamicImportCallback exampleLock 0 processRegistry "foo/bar" "node:process" []).1
      = Outcome.returned (JsPromise.resolved (JsValue.moduleNamespace 5)) := by
  refine ⟨by decide, by decide, by decide, by decide, by decide, by decide, by decide,
    by decide, by decide⟩

/-- Claim C17, amended (reserved prefix bypasses the referrer). Let `spec` be the specifier
after the rewrite of Node.js compatibility (the string the engine passed when compatibility is
off or has no rewrite for it), for a call that is not rejected for its attributes, with
`spec` other than `node:process` and a referrer name that parses. When `spec` starts with
`node:`, `cloudflare:` or `workerd:` and parses, the trampoline hands `Path.parse(spec)` to
`resolveDynamicImport`, a path that does not depend on the referrer; for every other `spec` for
which `referrer.parent().eval(spec)` succeeds it hands that path. In both cases the referrer
path and `spec` as raw specifier go with it. -/
theorem dynamic_import_specifier_path (js : Lock) (fuel : Nat) (σ : ModuleRegistryImpl)
    (resource_name specifier : String) (import_attributes : List String)
    (referrerPath specifierPath : Path)
    (hattr : (decide (import_attributes.length > 0) &&
      js.throwOnUnrecognizedImportAssertion) = false)
    (hproc : nodeSpecifier js specifier ≠ "node:process")
    (href : Path.parse resource_name = some referrerPath) :
    (js.nodeJsCompatEnabled = false → nodeSpecifier js specifier = specifier) ∧
    (isReservedSpecifier (nodeSpecifier js specifier) = true →
      Path.parse (nodeSpecifier js specifier) = some specifierPath →
      dynamicImportCallback js fuel σ resource_name specifier import_attributes
        = catchDynamicImport js
            (σ.resolveDynamicImport js fuel specifierPath referrerPath
              (nodeSpecifier js specifier))) ∧
    (isReservedSpecifier (nodeSpecifier js specifier) = false →
      referrerPath.parent.eval (nodeSpecifier js specifier) = some specifierPath →
      dynamicImportCallback js fuel σ resource_name specifier import_attributes
        = catchDynamicImport js
            (σ.resolveDynamicImport js fuel specifierPath referrerPath
              (nodeSpecifier js specifier))) := by
  refine ⟨?_, ?_, ?_⟩
  · intro h
    simp [nodeSpecifier, h]
  · intro hr hp
    have hms : maybeSpecifierPath (nodeSpecifier js specifier) (some referrerPath)
        = .ok (some specifierPath) := by
      simp [maybeSpecifierPath, hr, hp]
    unfold dynamicImportCallback catchDynamicImport
    simp only [hattr, hproc, href, hms]
    simp
  · intro hr hp
    have hms : maybeSpecifierPath (nodeSpecifier js specifier) (some referrerPath)
        = .ok (some specifierPath) := by
      simp [maybeSpecifierPath, hr, hp]
    unfold dynamicImportCallback catchDynamicImport
    simp only [hattr, hproc, href, hms]
    simp

/-- The scenario "reserved prefix bypasses referrer" as an instance of the amended C17: from
the referrer `foo/bar` the specifier `node:util` is handed over as the path `/node:util`. -/
theorem dynamic_import_specifier_path_witness :
    (Path.mk ["node:util"]).toString true = "/node:util" ∧
    dynamicImportCallback exampleLock 0 compatRegistry "foo/bar" "node:util" []
      = catchDynamicImport exampleLock
          (compatRegistry.resolveDynamicImport exampleLock 0 ⟨["node:util"]⟩ ⟨["foo", "bar"]⟩
            (nodeSpecifier exampleLock "node:util")) :=
  ⟨by decide,
    (dynamic_import_specifier_path exampleLock 0 compatRegistry "foo/bar" "node:util" []
      ⟨["foo", "bar"]⟩ ⟨["node:util"]⟩ rfl (by decide) (by decide)).2.1 (by decide)
      (by decide)⟩

/-- Claim C21 (factory returning nothing). When the entry that the index lookups of `resolve`
select holds a factory, and the factory returns nothing for the method and the referrer of the
call, then `Entry::module` returns nothing and leaves the entry as it is, with the same factory;
`resolve` returns absent, whatever the fuel, without going on to the redirect memo or the
fallback service, and leaves the registry unchanged, so that the same entry is selected
again. -/
theorem factory_returning_nothing (js : Lock) (fuel : Nat) (σ : ModuleRegistryImpl) (S : Path)
    (ref : Option Path) (opt : ResolveOption) (m : ResolveMethod) (raw : Option String)
    (e : Entry) (factory : ModuleCallback)
    (hsel : σ.selectedEntry S opt = some e)
    (hinfo : e.info = Entry.Info.callback factory)
    (hnone : factory m ref = .ok none) :
    e.module js ref m = (.ok none, e) ∧
    σ.resolve js fuel S ref opt m raw = (Outcome.returned none, σ) ∧
    (σ.resolve js fuel S ref opt m raw).2.selectedEntry S opt = some e := by
  have hmod : e.module js ref m = (.ok none, e) := by
    unfold Entry.module
    simp only [hinfo, hnone, Entry.Info.tryGet]
  have hres : σ.resolve js fuel S ref opt m raw = (Outcome.returned none, σ) := by
    rw [ModuleRegistryImpl.resolve_selected js fuel σ S ref opt m raw e hsel]
    have hstate := ModuleRegistryImpl.returnModule_unchanged js σ e ref m
      (ModuleRegistryImpl.selectedEntry_key σ S opt e hsel) (by rw [hmod])
    have hout : (σ.returnModule js e ref m).1 = Outcome.returned none := by
      unfold ModuleRegistryImpl.returnModule
      dsimp only
      rw [hmod]
    exact Prod.ext hout hstate
  refine ⟨hmod, hres, ?_⟩
  rw [hres]
  exact hsel

/-- An instance of C21: the factory of the built-in `/x` has nothing for `require`, so that
resolve returns absent and changes nothing; for `import` the same entry gives its module. -/
theorem factory_returning_nothing_witness :
    factoryRegistry.resolve exampleLock 0 ⟨["x"]⟩ none ResolveOption.DEFAULT
        ResolveMethod.REQUIRE none = (Outcome.returned none, factoryRegistry) ∧
    (factoryRegistry.resolve exampleLock 0 ⟨["x"]⟩ none ResolveOption.DEFAULT
        ResolveMethod.IMPORT none).1
      = Outcome.returned (some ⟨⟨["x"]⟩, ModuleType.BUILTIN, ⟨6, none, none⟩⟩) :=
  ⟨(factory_returning_nothing exampleLock 0 factoryRegistry ⟨["x"]⟩ none ResolveOption.DEFAULT
      ResolveMethod.REQUIRE none _ _ rfl rfl rfl).2.1, rfl⟩

/-- Claim C23 (one-way entry state machine). Along every sequence of calls of `Entry::module`
on an entry, with whatever engine, referrer and method each: an instantiated entry stays as it
is and every call returns its module info; an entry that holds source text or a factory is left
as it is by a first run of calls, none of which returns a module, and from the first call that
returns a module on, the entry is the instantiated one with that module, every later call
returns the same module info and the entry does not change again. The specifier, the type and
the compile cache of the entry never change. -/
theorem entry_state_one_way (e : Entry) (calls : List ModuleCall) :
    (∀ info, e.info = Entry.Info.moduleInfo info →
      e.moduleCalls calls = List.replicate calls.length (.ok (some info), e)) ∧
    (e.info.tryGet = none →
      ∃ before count info,
        e.moduleCalls calls = before ++
          List.replicate count
            (.ok (some info), { e with info := Entry.Info.moduleInfo info }) ∧
        before.length + count = calls.length ∧
        ∀ x ∈ before, x.2 = e ∧ ∀ i, x.1 ≠ .ok (some i)) :=
  ⟨fun info h => Entry.moduleCalls_of_instantiated e info h calls,
    fun h => Entry.moduleCalls_one_way e calls h⟩

/-- An instance of C23: on the source entry `/x` the first call fails to compile and leaves the
entry as it is, the second compiles it, and the third returns the same module. -/
theorem entry_state_one_way_witness :
    sourceEntry.moduleCalls retryCalls =
      [(.error (Exception.JsExceptionThrown none), sourceEntry),
        (.ok (some ⟨16, none, none⟩),
          { sourceEntry with info := Entry.Info.moduleInfo ⟨16, none, none⟩ }),
        (.ok (some ⟨16, none, none⟩),
          { sourceEntry with info := Entry.Info.moduleInfo ⟨16, none, none⟩ })] ∧
    ∃ before count info,
      sourceEntry.moduleCalls retryCalls = before ++
        List.replicate count
          (.ok (some info), { sourceEntry with info := Entry.Info.moduleInfo info }) ∧
      before.length + count = retryCalls.length ∧
      ∀ x ∈ before, x.2 = sourceEntry ∧ ∀ i, x.1 ≠ .ok (some i) :=
  ⟨rfl, (entry_state_one_way sourceEntry retryCalls).2 rfl⟩

/-- Claim C24 (compile-failure atomicity). When the entry that the index lookups of `resolve`
select holds source text and the compiler fails on it, `Entry::module` throws the compiler's
exception and leaves the entry as it is; `resolve` throws the same exception to its caller and
leaves the registry unchanged, the entry still holding the same source text and compile cache;
and a later resolve of the same specifier compiles the same text again: it throws when the
compiler fails again and returns the compiled module when the compiler succeeds. -/
theorem compile_failure_atomic (js : Lock) (fuel : Nat) (σ : ModuleRegistryImpl) (S : Path)
    (ref : Option Path) (opt : ResolveOption) (m : ResolveMethod) (raw : Option String)
    (e : Entry) (src : String) (ex : Exception)
    (hsel : σ.selectedEntry S opt = some e)
    (hinfo : e.info = Entry.Info.source src)
    (hfail : js.compile e.specifier.toString src e.compileCache ModuleInfoCompileOption.BUILTIN
      = .error ex) :
    e.module js ref m = (.error ex, e) ∧
    σ.resolve js fuel S ref opt m raw = (Outcome.threw ex, σ) ∧
    (σ.resolve js fuel S ref opt m raw).2.selectedEntry S opt = some e ∧
    ∀ (js2 : Lock) (fuel2 : Nat),
      ((σ.resolve js fuel S ref opt m raw).2.resolve js2 fuel2 S ref opt m raw).1 =
        match js2.compile e.specifier.toString src e.compileCache
            ModuleInfoCompileOption.BUILTIN with
        | .error ex2 => Outcome.threw ex2
        | .ok compiled => Outcome.returned (some ⟨e.specifier, e.type, compiled⟩) := by
  have hmod : e.module js ref m = (.error ex, e) := by
    unfold Entry.module
    simp only [hinfo, hfail]
  have hres : σ.resolve js fuel S ref opt m raw = (Outcome.threw ex, σ) := by
    rw [ModuleRegistryImpl.resolve_selected js fuel σ S ref opt m raw e hsel]
    have hstate := ModuleRegistryImpl.returnModule_unchanged js σ e ref m
      (ModuleRegistryImpl.selectedEntry_key σ S opt e hsel) (by rw [hmod])
    have hout : (σ.returnModule js e ref m).1 = Outcome.threw ex := by
      unfold ModuleRegistryImpl.returnModule
      dsimp only
      rw [hmod]
    exact Prod.ext hout hstate
  refine ⟨hmod, hres, by rw [hres]; exact hsel, ?_⟩
  intro js2 fuel2
  rw [hres]
  dsimp only
  rw [ModuleRegistryImpl.resolve_selected js2 fuel2 σ S ref opt m raw e hsel]
  unfold ModuleRegistryImpl.returnModule Entry.module
  dsimp only
  rw [hinfo]
  dsimp only
  cases js2.compile e.specifier.toString src e.compileCache ModuleInfoCompileOption.BUILTIN with
  | error ex2 => rfl
  | ok compiled => rfl

/-- An instance of C24: the built-in `/x` of `shadowRegistry` is source text; with a compiler
that fails, resolve throws and changes nothing, and the next resolve, with a compiler that
works, returns the compiled module. -/
theorem compile_failure_atomic_witness :
    shadowRegistry.resolve failingCompileLock 0 ⟨["x"]⟩ none ResolveOption.BUILTIN_ONLY
        ResolveMethod.IMPORT none
      = (Outcome.threw (Exception.JsExceptionThrown none), shadowRegistry) ∧
    ((shadowRegistry.resolve failingCompileLock 0 ⟨["x"]⟩ none ResolveOption.BUILTIN_ONLY
        ResolveMethod.IMPORT none).2.resolve exampleLock 0 ⟨["x"]⟩ none
        ResolveOption.BUILTIN_ONLY ResolveMethod.IMPORT none).1
      = Outcome.returned (some ⟨⟨["x"]⟩, ModuleType.BUILTIN, ⟨16, none, none⟩⟩) :=
  ⟨(compile_failure_atomic failingCompileLock 0 shadowRegistry ⟨["x"]⟩ none
      ResolveOption.BUILTIN_ONLY ResolveMethod.IMPORT none sourceEntry "export default 1"
      (Exception.JsExceptionThrown none) rfl rfl rfl).2.1,
    (compile_failure_atomic failingCompileLock 0 shadowRegistry ⟨["x"]⟩ none
      ResolveOption.BUILTIN_ONLY ResolveMethod.IMPORT none sourceEntry "export default 1"
      (Exception.JsExceptionThrown none) rfl rfl rfl).2.2.2 exampleLock 0⟩

/-- Claim C25: the code departs from the claim. With a fallback service that redirects
`/a/sibling` to `sibling`, which evaluates back to `/a/sibling`, the resolve of `/a/sibling` on
an empty registry follows more redirects than any number allowed: it never returns. The same
holds, with any engine and service, once the redirect memo sends `/a/b` to `b`. A run that
returns or throws with some fuel does the same with more fuel, so that such a run is not an
artefact of the fuel. -/
theorem resolve_self_redirect_never_returns :
    redirectServiceLock.tryResolveFromFallbackService []
        ⟨⟨["a", "sibling"]⟩, none, ResolveMethod.IMPORT, none⟩
      = some (FallbackResult.redirect "sibling") ∧
    (Path.mk ["a", "sibling"]).parent.eval "sibling" = some ⟨["a", "sibling"]⟩ ∧
    (∀ fuel, (emptyRegistry.resolve redirectServiceLock fuel ⟨["a", "sibling"]⟩ none
      ResolveOption.DEFAULT ResolveMethod.IMPORT none).1 = Outcome.outOfFuel) ∧
    (∀ (js : Lock) (fuel : Nat), (selfRedirectRegistry.resolve js fuel ⟨["a", "b"]⟩ none
      ResolveOption.DEFAULT ResolveMethod.IMPORT none).1 = Outcome.outOfFuel) ∧
    (∀ (js : Lock) (fuel : Nat) (σ : ModuleRegistryImpl) (S : Path) (ref : Option Path)
      (opt : ResolveOption) (m : ResolveMethod) (raw : Option String),
      (σ.resolve js fuel S ref opt m raw).1 ≠ Outcome.outOfFuel →
      σ.resolve js (fuel + 1) S ref opt m raw = σ.resolve js fuel S ref opt m raw) :=
  ⟨rfl, by decide,
    fun fuel => ModuleRegistryImpl.resolve_selfRedirect_service fuel emptyRegistry rfl
      (Or.inl rfl),
    fun js fuel => ModuleRegistryImpl.resolve_selfRedirect_memo js fuel,
    fun js fuel => ModuleRegistryImpl.resolve_stable js fuel⟩

end workerd.jsg

namespace workerd.fallback

/-! ## Lemmas on the fallback client -/

theorem afterLastSlash_of_not_mem (cs : List Char) (h : '/' ∉ cs) : afterLastSlash cs = none := by
  induction cs with
  | nil => rfl
  | cons c cs ih =>
    have hc : c ≠ '/' := fun e => h (by simp [e])
    have hcs : '/' ∉ cs := fun e => h (by simp [e])
    simp [afterLastSlash, ih hcs, hc]

theorem afterLastSlash_none (cs : List Char) (h : afterLastSlash cs = none) : '/' ∉ cs := by
  induction cs with
  | nil => simp
  | cons c cs ih =>
    unfold afterLastSlash at h
    cases hcs : afterLastSlash cs with
    | some s => rw [hcs] at h; cases h
    | none =>
      rw [hcs] at h
      simp only at h
      split at h
      · cases h
      · rename_i hc
        intro hm
        rcases List.mem_cons.mp hm with e | e
        · exact hc e.symm
        · exact ih hcs e

theorem afterLastSlash_append (front segment : List Char) (h : '/' ∉ segment) :
    afterLastSlash (front ++ '/' :: segment) = some segment := by
  induction front with
  | nil => simp [afterLastSlash, afterLastSlash_of_not_mem segment h]
  | cons c cs ih => simp [afterLastSlash, ih]

theorem afterLastSlash_some (cs segment : List Char) (h : afterLastSlash cs = some segment) :
    ∃ front, cs = front ++ '/' :: segment ∧ '/' ∉ segment := by
  induction cs with
  | nil => simp [afterLastSlash] at h
  | cons c cs ih =>
    unfold afterLastSlash at h
    cases hcs : afterLastSlash cs with
    | some s =>
      rw [hcs] at h
      simp only [Option.some.injEq] at h
      subst h
      obtain ⟨front, hf, hn⟩ := ih hcs
      exact ⟨c :: front, by rw [hf]; rfl, hn⟩
    | none =>
      rw [hcs] at h
      simp only at h
      split at h
      · rename_i hc
        simp only [Option.some.injEq] at h
        subst h
        subst hc
        exact ⟨[], rfl, afterLastSlash_none _ hcs⟩
      · cases h

/-- The test of the reserved prefixes made on the last segment (fallback-service.c++ lines
177-178) is the test `isReservedSpecifier` of the trampoline. -/
theorem buildV1Query_reserved (specifier referrer : String) (rawSpecifier : Option String)
    (segment : List Char) (h : afterLastSlash specifier.data = some segment)
    (hr : jsg.isReservedSpecifier (String.mk segment) = true) :
    buildV1Query specifier rawSpecifier referrer =
      ⟨[⟨"specifier", String.mk segment⟩, ⟨"referrer", referrer⟩,
        ⟨"rawSpecifier", rawSpecifier.getD ""⟩], String.mk segment⟩ := by
  unfold jsg.isReservedSpecifier at hr
  unfold buildV1Query
  simp only [h, hr, if_true]
  cases rawSpecifier <;> rfl

theorem buildV1Query_plain (specifier referrer : String) (rawSpecifier : Option String)
    (h : ∀ segment, afterLastSlash specifier.data = some segment →
      jsg.isReservedSpecifier (String.mk segment) = false) :
    buildV1Query specifier rawSpecifier referrer =
      ⟨[⟨"specifier", specifier⟩, ⟨"referrer", referrer⟩,
        ⟨"rawSpecifier", rawSpecifier.getD ""⟩],
        if jsg.startsWith specifier "/" then String.mk (specifier.data.drop 1)
        else specifier⟩ := by
  unfold buildV1Query
  cases hs : afterLastSlash specifier.data with
  | none => cases rawSpecifier <;> rfl
  | some segment =>
    have hr := h segment hs
    unfold jsg.isReservedSpecifier at hr
    simp only [hr]
    cases rawSpecifier <;> rfl

theorem tryAttempt_attempts (attempt : HttpAttempt) (st : Fetch) :
    (tryAttempt attempt st).2.attempts = st.attempts + 1 := by
  unfold tryAttempt
  dsimp only
  split
  · rfl
  · split
    · split <;> split <;> rfl
    · split
      · split <;> rfl
      · split <;> rfl

theorem tryAttempt_ok (location : Option String) (text : String) (st : Fetch) :
    tryAttempt (HttpAttempt.responded ⟨200, location, .ok text⟩) st =
      (none, { st with attempts := st.attempts + 1, jsonPayload := some text }) := by
  simp [tryAttempt]

theorem fetch_of_ok (http : Nat → HttpAttempt) (st : Fetch)
    (h : tryAttempt (http 0) ⟨none, false, 0, []⟩ = (none, st)) : fetch http = st := by
  unfold fetch attemptLoop
  rw [h]

theorem fetch_of_failed (http : Nat → HttpAttempt) (type : ExceptionType) (st : Fetch)
    (h : tryAttempt (http 0) ⟨none, false, 0, []⟩ = (some type, st)) :
    fetch http =
      (tryAttempt (http 1)
        (if type = ExceptionType.DISCONNECTED then st
         else { st with errors := st.errors ++ ["Fallback service failed to fetch module"] })).2
      ∨ ∃ last, fetch http =
        { (tryAttempt (http 1)
          (if type = ExceptionType.DISCONNECTED then st
           else { st with
            errors := st.errors ++ ["Fallback service failed to fetch module"] })).2 with
          errors := last } := by
  unfold fetch attemptLoop
  rw [h]
  dsimp only
  by_cases ht : type = ExceptionType.DISCONNECTED
  · simp only [ht, and_self, if_true]
    unfold attemptLoop
    generalize tryAttempt (http 1) st = r
    obtain ⟨o, s⟩ := r
    cases o with
    | none => exact Or.inl rfl
    | some t =>
      right
      simp [attemptLoop]
  · simp only [ht, and_false, if_false]
    unfold attemptLoop
    generalize tryAttempt (http 1) _ = r
    obtain ⟨o, s⟩ := r
    cases o with
    | none => exact Or.inl rfl
    | some t =>
      right
      simp [attemptLoop]

theorem fetch_attempts (http : Nat → HttpAttempt) :
    (fetch http).attempts =
      if (tryAttempt (http 0) ⟨none, false, 0, []⟩).1 = none then 1 else 2 := by
  cases h : tryAttempt (http 0) ⟨none, false, 0, []⟩ with
  | mk o st =>
    have ha := tryAttempt_attempts (http 0) ⟨none, false, 0, []⟩
    rw [h] at ha
    simp only at ha
    cases o with
    | none =>
      rw [fetch_of_ok http st h]
      simpa using ha
    | some type =>
      simp only [reduceCtorEq, if_false]
      rcases fetch_of_failed http type st h with e | ⟨last, e⟩
      · rw [e, tryAttempt_attempts]
        split <;> simp [ha]
      · rw [e]
        show (tryAttempt _ _).2.attempts = 2
        rw [tryAttempt_attempts]
        split <;> simp [ha]

theorem processRequest_of_ok (service : Service) (request : Request) (location : Option String)
    (text : String)
    (hresp : service.http (httpRequestOf request) 0 =
      HttpAttempt.responded ⟨200, location, .ok text⟩) :
    processRequest service request =
      (handleReturnPayload service.decode (some text) false
        (match request.version with
          | .V1 =>
            (buildV1Query request.specifier (rawSpecifierOf request)
              request.referrer).actualSpecifier
          | .V2 => request.specifier), ⟨some text, false, 1, []⟩) := by
  have hf : fetch (service.http (httpRequestOf request)) = ⟨some text, false, 1, []⟩ := by
    apply fetch_of_ok
    rw [hresp, tryAttempt_ok]
  unfold processRequest
  rw [hf]
  cases request.version <;> rfl

theorem tryResolve_of_idle (service : Service) (state : SharedState) (request : Request)
    (hrun : state.shutdown = false) (hfree : state.hasRequest = false) :
    tryResolve service state request =
      .ok (some ((processRequest service request).1,
        { state with
          version := request.version
          type := request.type
          specifier := request.specifier
          rawSpecifier := request.rawSpecifier
          referrer := request.referrer
          attributes := request.attributes
          hasRequest := false
          response := none
          responseReady := false })) := by
  unfold tryResolve tryResolveSubmit
  simp only [hrun, hfree, Bool.false_eq_true, if_false]
  unfold threadTake
  simp only [hrun, Bool.or_false, if_true, Bool.false_eq_true, if_false]
  unfold tryResolveReceive threadDeliver
  simp only [Bool.true_or, if_true, Bool.not_true, Bool.false_eq_true, if_false]

/-- Claim C12, counterexample: for the specifier `/foo/bar`, whose last segment `bar` has no
reserved prefix, the V1 query carries the specifier `/foo/bar` with its leading `/`, not
`foo/bar`. -/
theorem v1_query_specifier_counterexample :
    afterLastSlash "/foo/bar".data = some "bar".data ∧
      jsg.isReservedSpecifier "bar" = false ∧
      (buildV1Query "/foo/bar" (some "./bar") "/foo/x").query =
        [⟨"specifier", "/foo/bar"⟩, ⟨"referrer", "/foo/x"⟩, ⟨"rawSpecifier", "./bar"⟩] ∧
      (buildV1Query "/foo/bar" (some "./bar") "/foo/x").query ≠
        [⟨"specifier", "foo/bar"⟩, ⟨"referrer", "/foo/x"⟩, ⟨"rawSpecifier", "./bar"⟩] ∧
      httpRequestOf ⟨Version.V1, ImportType.IMPORT, "/foo/bar", "./bar", "/foo/x", []⟩ =
        HttpRequest.get
          [⟨"specifier", "/foo/bar"⟩, ⟨"referrer", "/foo/x"⟩, ⟨"rawSpecifier", "./bar"⟩]
          "import" := by
  refine ⟨by decide, by decide, by decide, by decide, by decide⟩

/-- Claim C12, amended: in the V1 query the value of `specifier` is the text after the last `/`
when that segment starts with `node:`, `cloudflare:` or `workerd:`, and otherwise the full
specifier unchanged, a leading `/` included; the query then carries the referrer and the raw
specifier (empty when absent). -/
theorem v1_query_specifier (specifier referrer : String) (rawSpecifier : Option String) :
    (∀ front segment, specifier.data = front ++ '/' :: segment → '/' ∉ segment →
      jsg.isReservedSpecifier (String.mk segment) = true →
      (buildV1Query specifier rawSpecifier referrer).query =
        [⟨"specifier", String.mk segment⟩, ⟨"referrer", referrer⟩,
          ⟨"rawSpecifier", rawSpecifier.getD ""⟩]) ∧
    ((∀ front segment, specifier.data = front ++ '/' :: segment → '/' ∉ segment →
      jsg.isReservedSpecifier (String.mk segment) = false) →
      (buildV1Query specifier rawSpecifier referrer).query =
        [⟨"specifier", specifier⟩, ⟨"referrer", referrer⟩,
          ⟨"rawSpecifier", rawSpecifier.getD ""⟩]) := by
  constructor
  · intro front segment hsplit hlast hres
    have h := afterLastSlash_append front segment hlast
    rw [← hsplit] at h
    rw [buildV1Query_reserved specifier referrer rawSpecifier segment h hres]
  · intro hall
    rw [buildV1Query_plain specifier referrer rawSpecifier]
    intro segment hseg
    obtain ⟨front, hsplit, hlast⟩ := afterLastSlash_some _ _ hseg
    exact hall front segment hsplit hlast

/-- Claim C12, witness: the specifier `/a/node:fs` is sent as `node:fs`, the specifier
`/foo/bar` as `/foo/bar`. -/
theorem v1_query_specifier_witness :
    (buildV1Query "/a/node:fs" none "/a/x").query =
        [⟨"specifier", "node:fs"⟩, ⟨"referrer", "/a/x"⟩, ⟨"rawSpecifier", ""⟩] ∧
      (buildV1Query "/foo/bar" none "/foo/x").query =
        [⟨"specifier", "/foo/bar"⟩, ⟨"referrer", "/foo/x"⟩, ⟨"rawSpecifier", ""⟩] :=
  ⟨(v1_query_specifier "/a/node:fs" "/a/x" none).1 "/a".data "node:fs".data rfl (by decide)
      (by decide),
    (v1_query_specifier "/foo/bar" "/foo/x" none).2 (by
      intro front segment hsplit hlast
      have h := afterLastSlash_append front segment hlast
      rw [← hsplit] at h
      have h2 : afterLastSlash "/foo/bar".data = some "bar".data := by decide
      rw [h2] at h
      cases h
      decide)⟩

theorem handleReturnPayload_decoded (decode : String → Option Module) (text specifier : String)
    (decoded : Module) (htext : text.length ≠ 0) (hdec : decode text = some decoded) :
    (∀ name, decoded.name = some name → name ≠ specifier →
      handleReturnPayload decode (some text) false specifier = none) ∧
    (decoded.name = some specifier ∨ decoded.name = none →
      handleReturnPayload decode (some text) false specifier =
        some (Resolved.module { decoded with name := some specifier })) := by
  unfold handleReturnPayload
  simp only [htext, if_false, Bool.false_eq_true, hdec]
  constructor
  · intro name hname hne
    simp only [hname, hne, ne_eq, not_false_eq_true, if_true]
  · intro h
    rcases h with h | h
    · simp only [h, ne_eq, not_true_eq_false, if_false]
      cases decoded
      simp only at h
      simp [h]
    · simp only [h]

/-- The result that the thread delivers, from the variables the attempt loop ends with. -/
theorem processRequest_result (service : Service) (request : Request) :
    (processRequest service request).1 =
      handleReturnPayload service.decode
        (fetch (service.http (httpRequestOf request))).jsonPayload
        (fetch (service.http (httpRequestOf request))).redirect
        (match request.version with
          | .V1 =>
            (buildV1Query request.specifier (rawSpecifierOf request)
              request.referrer).actualSpecifier
          | .V2 => request.specifier) := by
  unfold processRequest
  cases request.version <;> rfl

/-- The attempt loop ends with the body of a 200 response as payload and without the redirect
flag when the response answers the first attempt, or answers the second attempt after a first
attempt that left its block with an exception and had not set the flag. -/
theorem fetch_of_answer (http : Nat → HttpAttempt) (location : Option String) (text : String)
    (h : http 0 = HttpAttempt.responded ⟨200, location, .ok text⟩ ∨
      ((∃ type, (tryAttempt (http 0) ⟨none, false, 0, []⟩).1 = some type) ∧
        (tryAttempt (http 0) ⟨none, false, 0, []⟩).2.redirect = false ∧
        http 1 = HttpAttempt.responded ⟨200, location, .ok text⟩)) :
    (fetch http).jsonPayload = some text ∧ (fetch http).redirect = false := by
  rcases h with h0 | ⟨⟨type, hthrow⟩, hflag, h1⟩
  · have hf : fetch http = ⟨some text, false, 1, []⟩ := by
      apply fetch_of_ok
      rw [h0, tryAttempt_ok]
    rw [hf]
    exact ⟨rfl, rfl⟩
  · cases h : tryAttempt (http 0) ⟨none, false, 0, []⟩ with
    | mk o st =>
      rw [h] at hthrow hflag
      simp only at hthrow hflag
      subst hthrow
      unfold fetch attemptLoop
      rw [h]
      dsimp only
      split
      · unfold attemptLoop
        rw [h1, tryAttempt_ok]
        exact ⟨rfl, hflag⟩
      · unfold attemptLoop
        rw [h1, tryAttempt_ok]
        exact ⟨rfl, hflag⟩

/-- Claim C13, counterexample: under V1 the specifier `/foo` is passed to `tryResolve` and the
service answers 200 with a module named `/foo`, the very specifier that was passed; the result
is not-found, because the name is compared with `foo`. A module without name comes back named
`foo`, not `/foo`. Apart from that, under either version, a 200 response to the second attempt
is taken for a redirect when the first attempt had received a 301 with a location before it
failed: the variable `redirect` is still set. -/
theorem response_name_check_counterexample :
    (fooRequest Version.V1).specifier = "/foo" ∧
      namedService.decode "named-slash-foo" = some ⟨some "/foo", 7⟩ ∧
      (processRequest namedService (fooRequest Version.V1)).1 = none ∧
      tryResolve namedService idleState (fooRequest Version.V1) =
        .ok (some (none,
          ⟨false, Version.V1, ImportType.IMPORT, "/foo", "./foo", "/a", [], none, false,
            false⟩)) ∧
      unnamedService.decode "unnamed" = some ⟨none, 7⟩ ∧
      (processRequest unnamedService (fooRequest Version.V1)).1 =
        some (Resolved.module ⟨some "foo", 7⟩) ∧
      processRequest staleRedirectService (fooRequest Version.V2) =
        (some (Resolved.redirect "unnamed"), ⟨some "unnamed", true, 2, []⟩) := by
  refine ⟨rfl, by decide, by decide, by rfl, by decide, by decide, by decide⟩

/-- Claim C13, amended: let a 200 response with a non-empty body that decodes to a module answer
the first HTTP attempt, or answer the second attempt after a first attempt that left its block
with an exception without having received a 301 with a location (the variable `redirect` is not
set). Then `tryResolve` (not shut down, no pending request) returns what the thread computed:
not-found when the module carries a name different from the expected name, and otherwise (name
equal or absent) the decoded module with the expected name as its name. The expected name is
the specifier passed to `tryResolve` under V2; under V1 it is the last segment when that
segment has a reserved prefix, and otherwise the specifier with one leading `/` removed. -/
theorem response_name_check (service : Service) (state : SharedState) (request : Request)
    (location : Option String) (text : String) (decoded : Module)
    (hrun : state.shutdown = false) (hfree : state.hasRequest = false)
    (hresp : service.http (httpRequestOf request) 0 =
        HttpAttempt.responded ⟨200, location, .ok text⟩ ∨
      ((∃ type, (tryAttempt (service.http (httpRequestOf request) 0)
          ⟨none, false, 0, []⟩).1 = some type) ∧
        (tryAttempt (service.http (httpRequestOf request) 0)
          ⟨none, false, 0, []⟩).2.redirect = false ∧
        service.http (httpRequestOf request) 1 =
          HttpAttempt.responded ⟨200, location, .ok text⟩))
    (htext : text.length ≠ 0) (hdec : service.decode text = some decoded) :
    ∃ expected left,
      tryResolve service state request =
        .ok (some ((processRequest service request).1, left)) ∧
      (∀ name, decoded.name = some name → name ≠ expected →
        (processRequest service request).1 = none) ∧
      (decoded.name = some expected ∨ decoded.name = none →
        (processRequest service request).1 =
          some (Resolved.module { decoded with name := some expected })) ∧
      (request.version = Version.V2 → expected = request.specifier) ∧
      (request.version = Version.V1 →
        ∀ front segment, request.specifier.data = front ++ '/' :: segment → '/' ∉ segment →
          jsg.isReservedSpecifier (String.mk segment) = true →
          expected = String.mk segment) ∧
      (request.version = Version.V1 →
        (∀ front segment, request.specifier.data = front ++ '/' :: segment → '/' ∉ segment →
          jsg.isReservedSpecifier (String.mk segment) = false) →
        expected =
          if jsg.startsWith request.specifier "/" then String.mk (request.specifier.data.drop 1)
          else request.specifier) := by
  refine ⟨match request.version with
    | .V1 =>
      (buildV1Query request.specifier (rawSpecifierOf request)
        request.referrer).actualSpecifier
    | .V2 => request.specifier, _, tryResolve_of_idle service state request hrun hfree, ?_⟩
  obtain ⟨hpayload, hflag⟩ :=
    fetch_of_answer (service.http (httpRequestOf request)) location text hresp
  rw [processRequest_result service request, hpayload, hflag]
  obtain ⟨h1, h2⟩ := handleReturnPayload_decoded service.decode text
    (match request.version with
    | .V1 =>
      (buildV1Query request.specifier (rawSpecifierOf request)
        request.referrer).actualSpecifier
    | .V2 => request.specifier) decoded htext hdec
  refine ⟨h1, h2, ?_, ?_, ?_⟩
  · intro hv
    rw [hv]
  · intro hv front segment hsplit hlast hres
    rw [hv]
    have h := afterLastSlash_append front segment hlast
    rw [← hsplit] at h
    simp only [buildV1Query_reserved request.specifier request.referrer _ segment h hres]
  · intro hv hall
    rw [hv]
    simp only
    rw [buildV1Query_plain request.specifier request.referrer]
    intro segment hseg
    obtain ⟨front, hsplit, hlast⟩ := afterLastSlash_some _ _ hseg
    exact hall front segment hsplit hlast

/-- Claim C13, witness: the amended statement at the V1 request for `/foo`, answered 200 with a
module without name at the first attempt, and at the V2 request for `/foo`, answered in the
same way at the second attempt after a first attempt that failed with `DISCONNECTED`. -/
theorem response_name_check_witness :
    (∃ expected left,
      tryResolve unnamedService idleState (fooRequest Version.V1) =
        .ok (some ((processRequest unnamedService (fooRequest Version.V1)).1, left)) ∧
      (∀ name, (Module.mk none 7).name = some name → name ≠ expected →
        (processRequest unnamedService (fooRequest Version.V1)).1 = none) ∧
      ((Module.mk none 7).name = some expected ∨ (Module.mk none 7).name = none →
        (processRequest unnamedService (fooRequest Version.V1)).1 =
          some (Resolved.module (Module.mk (some expected) 7))) ∧
      ((fooRequest Version.V1).version = Version.V2 →
        expected = (fooRequest Version.V1).specifier) ∧
      ((fooRequest Version.V1).version = Version.V1 →
        ∀ front segment, (fooRequest Version.V1).specifier.data = front ++ '/' :: segment →
          '/' ∉ segment → jsg.isReservedSpecifier (String.mk segment) = true →
          expected = String.mk segment) ∧
      ((fooRequest Version.V1).version = Version.V1 →
        (∀ front segment, (fooRequest Version.V1).specifier.data = front ++ '/' :: segment →
          '/' ∉ segment → jsg.isReservedSpecifier (String.mk segment) = false) →
        expected =
          if jsg.startsWith (fooRequest Version.V1).specifier "/" then
            String.mk ((fooRequest Version.V1).specifier.data.drop 1)
          else (fooRequest Version.V1).specifier)) ∧
    (processRequest staleConnectionService (fooRequest Version.V2)).1 =
      some (Resolved.module ⟨some "/foo", 7⟩) :=
  ⟨response_name_check unnamedService idleState (fooRequest Version.V1) none "unnamed"
      ⟨none, 7⟩ rfl rfl (Or.inl rfl) (by decide) (by decide),
    match response_name_check staleConnectionService idleState (fooRequest Version.V2) none
      "unnamed" ⟨none, 7⟩ rfl rfl
      (Or.inr ⟨⟨ExceptionType.DISCONNECTED, rfl⟩, rfl, rfl⟩) (by decide) (by decide) with
    | ⟨_, _, _, _, h2, hv2, _⟩ => by
      have he := hv2 rfl
      subst he
      exact h2 (Or.inr rfl)⟩

/-- Claim C14: the code departs from the claim. When the first attempt fails with an exception
of type `FAILED`, the loop writes its log record and goes on to a second attempt; the service
answers that one, and the module is returned after two attempts, under V1 and under V2. In
general a second attempt is made exactly when the first one left its block with an exception,
of whatever type, and never a third one. -/
theorem second_attempt_after_any_failure :
    failingOnceService.http (httpRequestOf (fooRequest Version.V1)) 0 =
        HttpAttempt.failed ExceptionType.FAILED ∧
      processRequest failingOnceService (fooRequest Version.V1) =
        (some (Resolved.module ⟨some "foo", 7⟩),
          ⟨some "unnamed", false, 2, ["Fallback service failed to fetch module"]⟩) ∧
      processRequest failingOnceService (fooRequest Version.V2) =
        (some (Resolved.module ⟨some "/foo", 7⟩),
          ⟨some "unnamed", false, 2, ["Fallback service failed to fetch module"]⟩) ∧
      processRequest staleConnectionService (fooRequest Version.V1) =
        (some (Resolved.module ⟨some "foo", 7⟩), ⟨some "unnamed", false, 2, []⟩) ∧
      (∀ http : Nat → HttpAttempt, (fetch http).attempts ≤ 2 ∧
        ((fetch http).attempts = 2 ↔
          ∃ type, (tryAttempt (http 0) ⟨none, false, 0, []⟩).1 = some type)) := by
  refine ⟨rfl, by decide, by decide, by decide, ?_⟩
  intro http
  rw [fetch_attempts]
  cases (tryAttempt (http 0) ⟨none, false, 0, []⟩).1 <;> simp

/-- Claim C15, counterexample: a call of `tryResolve` made after the shutdown was requested
throws; it does not return not-found. -/
theorem tryResolve_shutdown_counterexample :
    shutdownState.shutdown = true ∧
      tryResolve namedService shutdownState (fooRequest Version.V2) =
        .error "FallbackServiceClient has been shut down" ∧
      tryResolve namedService (threadDied idleState) (fooRequest Version.V2) =
        .error "FallbackServiceClient has been shut down" := by
  refine ⟨rfl, rfl, rfl⟩

/-- Claim C15, amended: a call of `tryResolve` made while the shutdown flag is set throws the
exception `FallbackServiceClient has been shut down` out of its first critical section, so
nothing is written into the shared state; the background thread, if it still runs, takes no
request and exits, so no HTTP request is issued. Not-found without an exception is what a call
receives that was already waiting: after the death of the thread, and after a shutdown
requested while no response was ready. -/
theorem tryResolve_shutdown (service : Service) (state : SharedState) (request : Request)
    (hshut : state.shutdown = true) :
    tryResolve service state request = .error "FallbackServiceClient has been shut down" ∧
      tryResolveSubmit state request = .error "FallbackServiceClient has been shut down" ∧
      threadTake state = some (none, state) ∧
      (∀ waiting : SharedState,
        (threadDied waiting).shutdown = true ∧
        tryResolveReceive (threadDied waiting) =
          some (none,
            { waiting with response := none, responseReady := false, shutdown := true })) ∧
      (∀ waiting : SharedState, waiting.responseReady = false →
        tryResolveReceive (requestShutdown waiting) = some (none, requestShutdown waiting)) := by
  have hsub : tryResolveSubmit state request =
      .error "FallbackServiceClient has been shut down" := by
    unfold tryResolveSubmit
    simp only [hshut, if_true]
  refine ⟨?_, hsub, ?_, ?_, ?_⟩
  · unfold tryResolve
    rw [hsub]
  · unfold threadTake
    simp only [hshut, Bool.or_true, if_true]
  · intro waiting
    refine ⟨rfl, ?_⟩
    unfold tryResolveReceive threadDied
    simp
  · intro waiting hw
    unfold tryResolveReceive requestShutdown
    simp [hw]

/-- Claim C15, witness: the amended statement at the state left by the destructor. -/
theorem tryResolve_shutdown_witness :
    shutdownState.shutdown = true ∧
      tryResolveSubmit shutdownState (fooRequest Version.V1) =
        .error "FallbackServiceClient has been shut down" ∧
      threadTake shutdownState = some (none, shutdownState) :=
  ⟨rfl, (tryResolve_shutdown namedService shutdownState (fooRequest Version.V1) rfl).2.1,
    (tryResolve_shutdown namedService shutdownState (fooRequest Version.V1) rfl).2.2.1⟩


theorem getElem?_append_ready (done rest : List Caller) (x : Caller) :
    (done ++ x :: rest)[done.length]? = some x := by
  induction done with
  | nil => simp
  | cons d ds ih => simpa using ih

theorem set_append_ready (done rest : List Caller) (x y : Caller) :
    (done ++ x :: rest).set done.length y = done ++ y :: rest := by
  induction done with
  | nil => rfl
  | cons d ds ih => simp [List.set, ih]

/-- One call made while nothing else goes on: the request is submitted, taken, processed and
received, and the client is ready for the next call. -/
theorem Client.run_round (service : Service) (shared : SharedState) (done rest : List Caller)
    (observed : List Request) (request : Request) (schedule : List Action)
    (hrun : shared.shutdown = false) (hfree : shared.hasRequest = false) :
    (Client.mk shared Thread.waiting (done ++ Caller.ready request :: rest) observed).run service
        ([Action.submit done.length, Action.take, Action.deliver, Action.receive done.length]
          ++ schedule) =
      (Client.mk
        { shared with
          version := request.version
          type := request.type
          specifier := request.specifier
          rawSpecifier := request.rawSpecifier
          referrer := request.referrer
          attributes := request.attributes
          hasRequest := false
          response := none
          responseReady := false }
        Thread.waiting
        (done ++ Caller.returned request (processRequest service request).1 :: rest)
        (observed ++ [request])).run service schedule := by
  simp only [List.cons_append, List.nil_append]
  rw [Client.run]
  simp only [Client.step, getElem?_append_ready, tryResolveSubmit, hrun, hfree,
    Bool.false_eq_true, if_false, set_append_ready]
  rw [Client.run]
  simp only [Client.step, threadTake, hrun, Bool.or_false, if_true, Bool.false_eq_true,
    if_false]
  rw [Client.run]
  simp only [Client.step, threadDeliver]
  rw [Client.run]
  simp only [Client.step, getElem?_append_ready, tryResolveReceive, Bool.true_or, if_true,
    Bool.not_true, Bool.false_eq_true, if_false, set_append_ready]

theorem Client.run_sequential (service : Service) (pending : List Request) :
    ∀ (shared : SharedState) (done : List Caller) (observed : List Request),
      shared.shutdown = false → shared.hasRequest = false →
      ∃ left : SharedState, left.shutdown = false ∧ left.hasRequest = false ∧
        (Client.mk shared Thread.waiting (done ++ pending.map Caller.ready) observed).run service
            (sequentialSchedule done.length pending.length) =
          some (Client.mk left Thread.waiting
            (done ++ pending.map
              (fun request => Caller.returned request (processRequest service request).1))
            (observed ++ pending)) := by
  induction pending with
  | nil =>
    intro shared done observed hrun hfree
    exact ⟨shared, hrun, hfree, by simp [sequentialSchedule, Client.run]⟩
  | cons request pending ih =>
    intro shared done observed hrun hfree
    obtain ⟨left, hl1, hl2, hl3⟩ := ih
      { shared with
        version := request.version
        type := request.type
        specifier := request.specifier
        rawSpecifier := request.rawSpecifier
        referrer := request.referrer
        attributes := request.attributes
        hasRequest := false
        response := none
        responseReady := false }
      (done ++ [Caller.returned request (processRequest service request).1])
      (observed ++ [request]) hrun rfl
    refine ⟨left, hl1, hl2, ?_⟩
    simp only [List.map_cons, List.length_cons, sequentialSchedule]
    rw [Client.run_round service shared done _ observed request _ hrun hfree]
    simp only [List.length_append, List.length_singleton, List.append_assoc,
      List.singleton_append] at hl3
    rw [hl3]

/-- Claim C22, counterexample: with two callers that overlap, the caller of `/foo` receives
the response produced for `/bar` and the caller of `/bar` the one produced for `/foo`, when the
second request is submitted after the thread has taken the first; and when the second request
is submitted while the first is pending, the second call throws and the thread observes one
request, not two. -/
theorem tryResolve_serialized_counterexample :
    (processRequest echoService (fooRequest Version.V2)).1 =
        some (Resolved.module ⟨some "/foo", 0⟩) ∧
      (processRequest echoService barRequest).1 = some (Resolved.module ⟨some "/bar", 0⟩) ∧
      ((Client.start idleState [fooRequest Version.V2, barRequest]).run echoService
          crossedSchedule).map (fun client => (client.callers, client.observed)) =
        some ([Caller.returned (fooRequest Version.V2) (some (Resolved.module ⟨some "/bar", 0⟩)),
            Caller.returned barRequest (some (Resolved.module ⟨some "/foo", 0⟩))],
          [fooRequest Version.V2, barRequest]) ∧
      ((Client.start idleState [fooRequest Version.V2, barRequest]).run echoService
          rejectedSchedule).map (fun client => (client.callers, client.observed)) =
        some ([Caller.returned (fooRequest Version.V2) (some (Resolved.module ⟨some "/foo", 0⟩)),
            Caller.threw barRequest
              "FallbackServiceClient does not support concurrent requests"],
          [fooRequest Version.V2]) := by
  refine ⟨by decide, by decide, by decide, by decide⟩

/-- Claim C22, amended: the client serves one call at a time. On a client that is not shut
down and has no pending request, K calls of `tryResolve` made one after the other, each
submitted after the one before has returned, all return; the background thread observes
exactly the K requests, in the order of the calls, and each call receives the result produced
for its own request. A call submitted while a request is pending throws the exception
`FallbackServiceClient does not support concurrent requests`. -/
theorem tryResolve_serialized (service : Service) (shared : SharedState)
    (requests : List Request)
    (hrun : shared.shutdown = false) (hfree : shared.hasRequest = false) :
    (∃ left : SharedState, left.shutdown = false ∧ left.hasRequest = false ∧
      (Client.start shared requests).run service (sequentialSchedule 0 requests.length) =
        some (Client.mk left Thread.waiting
          (requests.map
            (fun request => Caller.returned request (processRequest service request).1))
          requests)) ∧
    (∀ (state : SharedState) (request : Request), state.shutdown = false →
      state.hasRequest = true →
      tryResolveSubmit state request =
        .error "FallbackServiceClient does not support concurrent requests") := by
  constructor
  · have h := Client.run_sequential service requests shared [] [] hrun hfree
    simpa [Client.start] using h
  · intro state request hs hp
    unfold tryResolveSubmit
    simp only [hs, hp, Bool.false_eq_true, if_false, if_true]

/-- Claim C22, witness: two calls made one after the other, for `/foo` and for `/bar`, on an
idle client. -/
theorem tryResolve_serialized_witness :
    ∃ left : SharedState, left.shutdown = false ∧ left.hasRequest = false ∧
      (Client.start idleState [fooRequest Version.V2, barRequest]).run echoService
          (sequentialSchedule 0 2) =
        some (Client.mk left Thread.waiting
          [Caller.returned (fooRequest Version.V2) (processRequest echoService
              (fooRequest Version.V2)).1,
            Caller.returned barRequest (processRequest echoService barRequest).1]
          [fooRequest Version.V2, barRequest]) :=
  (tryResolve_serialized echoService idleState [fooRequest Version.V2, barRequest] rfl rfl).1
end workerd.fallback
